import Mathlib

/-! # tagsoup: the tokenizer of `parser.hpp`

A shallow embedding of `ts::parser::parse` and `ts::parser::parse_until_closing_tag`
(src/parser.hpp) and of the token model of src/tags.hpp.

Modelling conventions
* `std::string` is `List Char`; `push_back` appends at the end.
* The input range `[start, end)` is the list of its characters; an iterator is
  the offset from `start`.
* `std::isalpha`, `std::isalnum`, `std::isspace` are those of the "C" locale.
* `size_t` counters are natural numbers reduced modulo `2 ^ 64`.
* A `std::string` that was the argument of `std::move` is empty afterwards.
* `assert(false)` is the result `none`.
-/

namespace ts

/-- The type `std::string`. -/
abbrev std_string := List Char

/-! ## Token model (src/tags.hpp) -/

/-- The variant `tag_token`, one constructor per alternative class. -/
inductive tag_token where
  | open_tag (id : std_string) (attributes : List (std_string × std_string))
  | closing_tag (id : std_string)
  | empty_tag (id : std_string) (attributes : List (std_string × std_string))
  | comment (content : std_string)
  | text (content : std_string)
  | pi (id : std_string) (code : std_string)
  | cdata (code : std_string)
  | dtd (id : std_string)
  | unknown_tag (description : std_string)
  deriving DecidableEq, Repr

/-! ## Character classes -/

/-- The function `std::isalpha` in the "C" locale. -/
def isalpha (c : Char) : Bool :=
  (65 ≤ c.toNat && c.toNat ≤ 90) || (97 ≤ c.toNat && c.toNat ≤ 122)

/-- The function `std::isdigit`. -/
def isdigit (c : Char) : Bool := 48 ≤ c.toNat && c.toNat ≤ 57

/-- The function `std::isalnum` in the "C" locale. -/
def isalnum (c : Char) : Bool := isalpha c || isdigit c

/-- The function `std::isspace` in the "C" locale: space, `\t`, `\n`, `\v`, `\f`, `\r`. -/
def isspace (c : Char) : Bool :=
  c.toNat == 32 || (9 ≤ c.toNat && c.toNat ≤ 13)

def is_open_abracket (c : Char) : Bool := c == '<'
def is_closed_abracket (c : Char) : Bool := c == '>'
def is_exclamation_mark (c : Char) : Bool := c == '!'
def is_question_mark (c : Char) : Bool := c == '?'
def is_slash (c : Char) : Bool := c == '/'
def is_starting_name (c : Char) : Bool := isalpha c
def is_name (c : Char) : Bool := isalnum c || c == '.' || c == '-'
def is_char (_c : Char) : Bool := true
def is_bar (c : Char) : Bool := c == '-'
def is_open_sbracket (c : Char) : Bool := c == '['
def is_closed_sbracket (c : Char) : Bool := c == ']'
def is_space (c : Char) : Bool := isspace c
def is_assignment (c : Char) : Bool := c == '='
def is_double_quote (c : Char) : Bool := c == '"'
def is_single_quote (c : Char) : Bool := c == Char.ofNat 39
def is_unquoted_attribute_value (c : Char) : Bool :=
  !isspace c && c != '"' && c != Char.ofNat 39 && c != '=' && c != '<' && c != '>'
    && c != Char.ofNat 96

def get_closed_sbracket : Char := ']'
def get_bar : Char := '-'
def get_question_mark : Char := '?'

/-! ## States -/

/-- The enumeration `parser::state_type`. -/
inductive state_type where
  | initial
  | open_abracket
  | open_abracket__exclamation_mark
  | open_abracket__exclamation_mark__big_d
  | open_abracket__exclamation_mark__big_do
  | open_abracket__exclamation_mark__big_doc
  | open_abracket__exclamation_mark__big_doct
  | open_abracket__exclamation_mark__big_docty
  | open_abracket__exclamation_mark__big_doctyp
  | open_abracket__exclamation_mark__big_doctype
  | open_abracket__exclamation_mark__big_doctype__space
  | open_abracket__exclamation_mark__big_doctype__space__name
  | open_abracket__exclamation_mark__big_doctype__space__name__space
  | open_abracket__exclamation_mark__bar
  | open_abracket__exclamation_mark__bar__bar
  | open_abracket__exclamation_mark__bar__bar__bar
  | open_abracket__exclamation_mark__bar__bar__bar__bar
  | open_abracket__exclamation_mark__sbracket
  | open_abracket__exclamation_mark__sbracket__big_c
  | open_abracket__exclamation_mark__sbracket__big_c__big_d
  | open_abracket__exclamation_mark__sbracket__big_c__big_d__big_a
  | open_abracket__exclamation_mark__sbracket__big_c__big_d__big_a__big_t
  | open_abracket__exclamation_mark__sbracket__big_c__big_d__big_a__big_t__big_a
  | open_abracket__exclamation_mark__sbracket__big_c__big_d__big_a__big_t__big_a__open_sbracket
  | open_abracket__exclamation_mark__sbracket__big_c__big_d__big_a__big_t__big_a__open_sbracket__closed_sbracket
  | open_abracket__exclamation_mark__sbracket__big_c__big_d__big_a__big_t__big_a__open_sbracket__closed_sbracket__closed_sbracket
  | open_abracket__question_mark
  | open_abracket__question_mark__name
  | open_abracket__question_mark__name__space
  | open_abracket__question_mark__name__code
  | open_abracket__question_mark__name__code__question_mark
  | open_abracket__slash
  | open_abracket__slash__name
  | open_abracket__slash__name__space
  | open_abracket__name
  | open_abracket__name__slash
  | open_abracket__name__space
  | open_abracket__name__attrname
  | open_abracket__name__attrname__space
  | open_abracket__name__attrequal
  | open_abracket__name__dq
  | open_abracket__name__sq
  | open_abracket__name__uq
  | open_abracket__name__attrend
  | characters
  | open_tag
  | closed_tag
  | empty_tag
  | text
  | process_instruction
  | cdata
  | comment
  | dtd
  deriving DecidableEq, Repr

open state_type

/-- The member function `parser::is_accepting_state`. -/
def is_accepting_state (state : state_type) : Bool :=
  state == open_tag || state == closed_tag || state == empty_tag || state == text ||
  state == process_instruction || state == cdata || state == comment || state == dtd

/-- The static member `parser::formulate_error`; `none` is the trailing `assert(false)`. -/
def formulate_error (state : state_type) : Option std_string :=
  match state with
  | open_abracket => some "expecting '!' or '?' or '/' or some id name!".toList
  | open_abracket__exclamation_mark => some "expecting '-' or '['!".toList
  | open_abracket__exclamation_mark__bar => some "expecting '-'!".toList
  | open_abracket__exclamation_mark__bar__bar => some "expecting some char!".toList
  | open_abracket__exclamation_mark__bar__bar__bar => some "expecting some char!".toList
  | open_abracket__exclamation_mark__bar__bar__bar__bar => some "expecting some char!".toList
  | open_abracket__exclamation_mark__sbracket => some "expecting 'C'!".toList
  | open_abracket__exclamation_mark__sbracket__big_c => some "expecting 'D'!".toList
  | open_abracket__exclamation_mark__sbracket__big_c__big_d => some "expecting 'A'!".toList
  | open_abracket__exclamation_mark__sbracket__big_c__big_d__big_a =>
      some "expecting 'T'!".toList
  | open_abracket__exclamation_mark__sbracket__big_c__big_d__big_a__big_t =>
      some "expecting 'A'!".toList
  | open_abracket__exclamation_mark__sbracket__big_c__big_d__big_a__big_t__big_a =>
      some "expecting '['!".toList
  | open_abracket__exclamation_mark__sbracket__big_c__big_d__big_a__big_t__big_a__open_sbracket =>
      some "expecting some char!".toList
  | open_abracket__exclamation_mark__sbracket__big_c__big_d__big_a__big_t__big_a__open_sbracket__closed_sbracket =>
      some "expecting some char!".toList
  | open_abracket__exclamation_mark__sbracket__big_c__big_d__big_a__big_t__big_a__open_sbracket__closed_sbracket__closed_sbracket =>
      some "expecting some char!".toList
  | open_abracket__question_mark => some "expecting some id name!".toList
  | open_abracket__question_mark__name => some "expecting some char!".toList
  | open_abracket__question_mark__name__space => some "expecting some char!".toList
  | open_abracket__question_mark__name__code => some "expecting some char!".toList
  | open_abracket__question_mark__name__code__question_mark =>
      some "expecting some char!".toList
  | open_abracket__slash => some "expecting some id name!".toList
  | open_abracket__slash__name =>
      some "expecting some space or name or closing angle bracket!".toList
  | open_abracket__slash__name__space =>
      some "expecting some space or closing angle bracket!".toList
  | open_abracket__name =>
      some "expecting some name or slash or some space or a closing angle bracket!".toList
  | open_abracket__name__slash => some "expecting a closing angle bracket!".toList
  | open_abracket__name__space =>
      some "expecting some space or a starting name character or a slash or a closing angle bracket!".toList
  | open_abracket__name__attrname =>
      some "expecting some name character or space or '=' or '/' or '>'!".toList
  | open_abracket__name__attrname__space =>
      some "expecting some space or '=' or '/' or '>'!".toList
  | open_abracket__name__attrequal =>
      some "expecting some space or ''' or '\"' or some attribute value character!".toList
  | open_abracket__name__dq => some "expecting some attribute value character or '\"'!".toList
  | open_abracket__name__sq => some "expecting some attribute value character or '''!".toList
  | open_abracket__name__uq =>
      some "expecting some attribute value character or some space or '/' or '>'!".toList
  | open_abracket__name__attrend => some "expecting some space or '/' or '>'!".toList
  | characters => some "expecting some chars or '<'!".toList
  | open_abracket__exclamation_mark__big_d => some "expecting 'O'!".toList
  | open_abracket__exclamation_mark__big_do => some "expecting 'C'!".toList
  | open_abracket__exclamation_mark__big_doc => some "expecting 'T'!".toList
  | open_abracket__exclamation_mark__big_doct => some "expecting 'Y'!".toList
  | open_abracket__exclamation_mark__big_docty => some "expecting 'P'!".toList
  | open_abracket__exclamation_mark__big_doctyp => some "expecting 'E'!".toList
  | open_abracket__exclamation_mark__big_doctype => some "expecting space!".toList
  | open_abracket__exclamation_mark__big_doctype__space =>
      some "expecting space or starting name character!".toList
  | open_abracket__exclamation_mark__big_doctype__space__name =>
      some "expecting name character or '>' or space or '['!".toList
  | _ => none

/-! ## Configuration -/

/-- The data members of `class parser`, with the defaults of its constructor. -/
structure parser where
  skipping_text : Bool := false
  skipping_cdata : Bool := false
  skipping_comment : Bool := false
  skipping_pi : Bool := false
  allowing_weak_comment_coding : Bool := true
  allowing_weak_pi_coding : Bool := true
  allowing_weak_double_quote_coding : Bool := true
  allowing_weak_single_quote_coding : Bool := true
  allowing_unquoted_attribute_value : Bool := true
  allowing_concated_attribute : Bool := true
  deriving DecidableEq, Repr

/-- The local variables of `parser::parse` that the switch reads and writes. -/
structure locals where
  state : state_type
  param1 : std_string
  param2 : std_string
  param3 : std_string
  pairs1 : List (std_string × std_string)
  error : Bool
  deriving DecidableEq, Repr

/-- The size of `size_t`: counters are reduced modulo this number. -/
def size_max : Nat := 2 ^ 64

/-- The counter update at the end of the loop body of `parser::parse`:
`if (c == '\n') {column = 0; ++line;} else ++column;`, on the pair `(line, column)`. -/
def count_char (lc : Nat × Nat) (c : Char) : Nat × Nat :=
  if c = '\n' then ((lc.1 + 1) % size_max, 0) else (lc.1, (lc.2 + 1) % size_max)

/-- The counters after the loop body has run on every character of `s` in turn. -/
def advance (lc : Nat × Nat) (s : List Char) : Nat × Nat := s.foldl count_char lc

/-- The function `std::to_string` on a `size_t`. -/
def to_string (n : Nat) : std_string := (Nat.repr n).toList

/-! ## The tokenizer `parser::parse` -/

/-- The `switch (state)` of `parser::parse` on the character `c`: the new values of the local
variables, or `none` for `default: assert(false)`. -/
def parser.switch_body (p : parser) (v : locals) (c : Char) : Option locals :=
  match v.state with
  | initial =>
      if is_open_abracket c then some { v with state := open_abracket }
      else some { v with param1 := if !p.skipping_text then v.param1 ++ [c] else v.param1,
                         state := characters }
  | open_abracket =>
      if is_exclamation_mark c then some { v with state := open_abracket__exclamation_mark }
      else if is_question_mark c then some { v with state := open_abracket__question_mark }
      else if is_slash c then some { v with state := open_abracket__slash }
      else if is_starting_name c then
        some { v with param1 := v.param1 ++ [c], state := open_abracket__name }
      else some { v with error := true }
  | open_abracket__exclamation_mark =>
      if is_bar c then some { v with state := open_abracket__exclamation_mark__bar }
      else if is_open_sbracket c then
        some { v with state := open_abracket__exclamation_mark__sbracket }
      else if c = 'D' ∨ c = 'd' then
        some { v with state := open_abracket__exclamation_mark__big_d }
      else some { v with error := true }
  | open_abracket__exclamation_mark__big_d =>
      if c = 'O' ∨ c = 'o' then some { v with state := open_abracket__exclamation_mark__big_do }
      else some { v with error := true }
  | open_abracket__exclamation_mark__big_do =>
      if c = 'C' ∨ c = 'c' then some { v with state := open_abracket__exclamation_mark__big_doc }
      else some { v with error := true }
  | open_abracket__exclamation_mark__big_doc =>
      if c = 'T' ∨ c = 't' then some { v with state := open_abracket__exclamation_mark__big_doct }
      else some { v with error := true }
  | open_abracket__exclamation_mark__big_doct =>
      if c = 'Y' ∨ c = 'y' then
        some { v with state := open_abracket__exclamation_mark__big_docty }
      else some { v with error := true }
  | open_abracket__exclamation_mark__big_docty =>
      if c = 'P' ∨ c = 'p' then
        some { v with state := open_abracket__exclamation_mark__big_doctyp }
      else some { v with error := true }
  | open_abracket__exclamation_mark__big_doctyp =>
      if c = 'E' ∨ c = 'e' then
        some { v with state := open_abracket__exclamation_mark__big_doctype }
      else some { v with error := true }
  | open_abracket__exclamation_mark__big_doctype =>
      if c = '>' then some { v with state := dtd }
      else some v
  | open_abracket__exclamation_mark__sbracket =>
      if c = 'C' then some { v with state := open_abracket__exclamation_mark__sbracket__big_c }
      else some { v with error := true }
  | open_abracket__exclamation_mark__sbracket__big_c =>
      if c = 'D' then
        some { v with state := open_abracket__exclamation_mark__sbracket__big_c__big_d }
      else some { v with error := true }
  | open_abracket__exclamation_mark__sbracket__big_c__big_d =>
      if c = 'A' then
        some { v with state := open_abracket__exclamation_mark__sbracket__big_c__big_d__big_a }
      else some { v with error := true }
  | open_abracket__exclamation_mark__sbracket__big_c__big_d__big_a =>
      if c = 'T' then
        some { v with
          state := open_abracket__exclamation_mark__sbracket__big_c__big_d__big_a__big_t }
      else some { v with error := true }
  | open_abracket__exclamation_mark__sbracket__big_c__big_d__big_a__big_t =>
      if c = 'A' then
        some { v with
          state := open_abracket__exclamation_mark__sbracket__big_c__big_d__big_a__big_t__big_a }
      else some { v with error := true }
  | open_abracket__exclamation_mark__sbracket__big_c__big_d__big_a__big_t__big_a =>
      if is_open_sbracket c then
        some { v with
          state := open_abracket__exclamation_mark__sbracket__big_c__big_d__big_a__big_t__big_a__open_sbracket }
      else some { v with error := true }
  | open_abracket__exclamation_mark__sbracket__big_c__big_d__big_a__big_t__big_a__open_sbracket =>
      if is_closed_sbracket c then
        some { v with
          state := open_abracket__exclamation_mark__sbracket__big_c__big_d__big_a__big_t__big_a__open_sbracket__closed_sbracket }
      else if is_char c then
        some { v with param1 := if !p.skipping_cdata then v.param1 ++ [c] else v.param1 }
      else some { v with error := true }
  | open_abracket__exclamation_mark__sbracket__big_c__big_d__big_a__big_t__big_a__open_sbracket__closed_sbracket =>
      if is_closed_sbracket c then
        some { v with
          state := open_abracket__exclamation_mark__sbracket__big_c__big_d__big_a__big_t__big_a__open_sbracket__closed_sbracket__closed_sbracket }
      else if is_char c then
        some { v with
          param1 := if !p.skipping_cdata then v.param1 ++ [get_closed_sbracket] ++ [c]
                    else v.param1,
          state := open_abracket__exclamation_mark__sbracket__big_c__big_d__big_a__big_t__big_a__open_sbracket }
      else some { v with error := true }
  | open_abracket__exclamation_mark__sbracket__big_c__big_d__big_a__big_t__big_a__open_sbracket__closed_sbracket__closed_sbracket =>
      if is_closed_abracket c then some { v with state := cdata }
      else if is_char c then
        some { v with
          param1 := if !p.skipping_cdata then
                      v.param1 ++ [get_closed_sbracket] ++ [get_closed_sbracket] ++ [c]
                    else v.param1,
          state := open_abracket__exclamation_mark__sbracket__big_c__big_d__big_a__big_t__big_a__open_sbracket }
      else some { v with error := true }
  | open_abracket__exclamation_mark__bar =>
      if is_bar c then some { v with state := open_abracket__exclamation_mark__bar__bar }
      else some { v with error := true }
  | open_abracket__exclamation_mark__bar__bar =>
      if is_bar c then some { v with state := open_abracket__exclamation_mark__bar__bar__bar }
      else if is_char c || p.allowing_weak_comment_coding then
        some { v with param1 := if !p.skipping_comment then v.param1 ++ [c] else v.param1 }
      else some { v with error := true }
  | open_abracket__exclamation_mark__bar__bar__bar =>
      if is_bar c then
        some { v with state := open_abracket__exclamation_mark__bar__bar__bar__bar }
      else if is_char c || p.allowing_weak_comment_coding then
        if !p.skipping_comment then
          some { v with param1 := v.param1 ++ [get_bar] ++ [c],
                        state := open_abracket__exclamation_mark__bar__bar }
        else some v
      else some { v with error := true }
  | open_abracket__exclamation_mark__bar__bar__bar__bar =>
      if is_closed_abracket c then some { v with state := comment }
      else if is_char c || p.allowing_weak_comment_coding then
        if !p.skipping_comment then
          some { v with param1 := v.param1 ++ [get_bar] ++ [c],
                        state := open_abracket__exclamation_mark__bar__bar }
        else some v
      else some { v with error := true }
  | open_abracket__question_mark =>
      if is_starting_name c then
        some { v with param1 := v.param1 ++ [c], state := open_abracket__question_mark__name }
      else some { v with error := true }
  | open_abracket__question_mark__name =>
      if is_name c then some { v with param1 := v.param1 ++ [c] }
      else if is_space c then some { v with state := open_abracket__question_mark__name__space }
      else if is_question_mark c then
        some { v with state := open_abracket__question_mark__name__code__question_mark }
      else some { v with error := true }
  | open_abracket__question_mark__name__space =>
      if is_space c then some v
      else if is_question_mark c then
        some { v with state := open_abracket__question_mark__name__code__question_mark }
      else if is_char c || p.allowing_weak_pi_coding then
        if !p.skipping_pi then
          some { v with param2 := v.param2 ++ [c],
                        state := open_abracket__question_mark__name__code }
        else some v
      else some { v with error := true }
  | open_abracket__question_mark__name__code =>
      if is_question_mark c then
        some { v with state := open_abracket__question_mark__name__code__question_mark }
      else if is_char c || p.allowing_weak_pi_coding then
        some { v with param2 := if !p.skipping_pi then v.param2 ++ [c] else v.param2 }
      else some { v with error := true }
  | open_abracket__question_mark__name__code__question_mark =>
      if is_closed_abracket c then some { v with state := process_instruction }
      else if is_char c || p.allowing_weak_pi_coding then
        if !p.skipping_pi then
          some { v with param2 := v.param2 ++ [get_question_mark] ++ [c],
                        state := open_abracket__question_mark__name__code }
        else some v
      else some { v with error := true }
  | open_abracket__slash =>
      if is_starting_name c then
        some { v with param1 := v.param1 ++ [c], state := open_abracket__slash__name }
      else some { v with error := true }
  | open_abracket__slash__name =>
      if is_space c then some { v with state := open_abracket__slash__name__space }
      else if is_closed_abracket c then some { v with state := closed_tag }
      else if is_name c then some { v with param1 := v.param1 ++ [c] }
      else some { v with error := true }
  | open_abracket__slash__name__space =>
      if is_closed_abracket c then some { v with state := closed_tag }
      else some { v with error := true }
  | open_abracket__name =>
      if is_space c then some { v with state := open_abracket__name__space }
      else if is_closed_abracket c then some { v with state := open_tag }
      else if is_slash c then some { v with state := open_abracket__name__slash }
      else if is_name c then some { v with param1 := v.param1 ++ [c] }
      else some { v with error := true }
  | open_abracket__name__slash =>
      if is_closed_abracket c then some { v with state := empty_tag }
      else some { v with error := true }
  | open_abracket__name__space =>
      if is_space c then some v
      else if is_closed_abracket c then some { v with state := open_tag }
      else if is_slash c then some { v with state := open_abracket__name__slash }
      else if is_starting_name c then
        some { v with param2 := v.param2 ++ [c], state := open_abracket__name__attrname }
      else some { v with error := true }
  | open_abracket__name__attrname =>
      if is_space c then some { v with state := open_abracket__name__attrname__space }
      else if is_assignment c then some { v with state := open_abracket__name__attrequal }
      else if is_name c then some { v with param2 := v.param2 ++ [c] }
      else if c = '>' then
        some { v with pairs1 := v.pairs1 ++ [(v.param1, [])], param1 := [],
                      state := closed_tag }
      else if is_slash c then
        some { v with pairs1 := v.pairs1 ++ [(v.param1, [])], param1 := [],
                      state := open_abracket__name__slash }
      else some { v with error := true }
  | open_abracket__name__attrname__space =>
      if is_space c then some v
      else if is_starting_name c then
        some { v with pairs1 := v.pairs1 ++ [(v.param1, [])], param1 := [c],
                      state := open_abracket__name__attrname }
      else if is_assignment c then some { v with state := open_abracket__name__attrequal }
      else if c = '>' then
        some { v with pairs1 := v.pairs1 ++ [(v.param1, [])], param1 := [],
                      state := closed_tag }
      else if is_slash c then
        some { v with pairs1 := v.pairs1 ++ [(v.param1, [])], param1 := [],
                      state := open_abracket__name__slash }
      else some { v with error := true }
  | open_abracket__name__attrequal =>
      if is_space c then some v
      else if is_double_quote c then some { v with state := open_abracket__name__dq }
      else if is_single_quote c then some { v with state := open_abracket__name__sq }
      else if is_unquoted_attribute_value c || p.allowing_unquoted_attribute_value then
        some { v with param3 := v.param3 ++ [c], state := open_abracket__name__uq }
      else some { v with error := true }
  | open_abracket__name__dq =>
      if is_double_quote c then some { v with state := open_abracket__name__attrend }
      else if !is_open_abracket c || p.allowing_weak_double_quote_coding then
        some { v with param3 := v.param3 ++ [c] }
      else some { v with error := true }
  | open_abracket__name__sq =>
      if is_single_quote c then some { v with state := open_abracket__name__attrend }
      else if !is_open_abracket c || p.allowing_weak_single_quote_coding then
        some { v with param3 := v.param3 ++ [c] }
      else some { v with error := true }
  | open_abracket__name__uq =>
      if is_space c then
        some { v with pairs1 := v.pairs1 ++ [(v.param2, v.param3)], param2 := [], param3 := [],
                      state := open_abracket__name__space }
      else if is_closed_abracket c then
        some { v with pairs1 := v.pairs1 ++ [(v.param2, v.param3)], param2 := [], param3 := [],
                      state := open_tag }
      else if is_slash c then
        some { v with pairs1 := v.pairs1 ++ [(v.param2, v.param3)], param2 := [], param3 := [],
                      state := open_abracket__name__slash }
      else if is_unquoted_attribute_value c then some { v with param3 := v.param3 ++ [c] }
      else some { v with error := true }
  | open_abracket__name__attrend =>
      let w : locals :=
        { v with pairs1 := v.pairs1 ++ [(v.param2, v.param3)], param2 := [], param3 := [] }
      if is_space c then some { w with state := open_abracket__name__space }
      else if is_slash c then some { w with state := open_abracket__name__slash }
      else if is_closed_abracket c then some { w with state := open_tag }
      else if is_starting_name c && p.allowing_concated_attribute then
        some { w with param2 := w.param2 ++ [c], state := open_abracket__name__attrname }
      else some { w with error := true }
  | characters =>
      if is_open_abracket c then some { v with state := text }
      else if !p.skipping_text then some { v with param1 := v.param1 ++ [c] }
      else some v
  | _ => none

/-- The `while` loop of `parser::parse` on the characters from `iter` to `end`: the local
variables, the iterator offset and the counters when the loop is left. The iterator is not
advanced by the round that enters state `text`. -/
def parser.parse_loop (p : parser) :
    locals → Nat → Nat → Nat → List Char → Option (locals × Nat × Nat × Nat)
  | v, iter, line, column, [] => some (v, iter, line, column)
  | v, iter, line, column, c :: rest =>
      if is_accepting_state v.state || v.error then some (v, iter, line, column)
      else
        match p.switch_body v c with
        | none => none
        | some w =>
            parser.parse_loop p w (if w.state = text then iter else iter + 1)
              (count_char (line, column) c).1 (count_char (line, column) c).2 rest

/-- What one call of `parser::parse` hands back: the returned iterator (as an offset from
`start`), the token, and the caller's counters after the call. -/
structure parse_result where
  iter : Nat
  token : tag_token
  line : Nat
  column : Nat
  deriving DecidableEq, Repr

/-- The text of the incomplete-input diagnostic. -/
def incomplete_message : std_string :=
  "reached end before entity were acceptely parsed!".toList

/-- The return statements of `parser::parse` that follow the loop. -/
def parser.select_result (v : locals) (iter line column : Nat) : Option parse_result :=
  if v.error then
    match formulate_error v.state with
    | none => none
    | some msg =>
        some ⟨iter, tag_token.unknown_tag
          (msg ++ " at ".toList ++ to_string line ++ ",".toList ++ to_string column),
          line, column⟩
  else if v.state = text ∨ v.state = initial ∨ v.state = characters then
    some ⟨iter, tag_token.text v.param1, line, column⟩
  else if v.state = open_tag then some ⟨iter, tag_token.open_tag v.param1 v.pairs1, line, column⟩
  else if v.state = closed_tag then some ⟨iter, tag_token.closing_tag v.param1, line, column⟩
  else if v.state = empty_tag then
    some ⟨iter, tag_token.empty_tag v.param1 v.pairs1, line, column⟩
  else if v.state = process_instruction then
    some ⟨iter, tag_token.pi v.param1 v.param2, line, column⟩
  else if v.state = cdata then some ⟨iter, tag_token.cdata v.param1, line, column⟩
  else if v.state = dtd then some ⟨iter, tag_token.dtd v.param1, line, column⟩
  else if v.state = comment then some ⟨iter, tag_token.comment v.param1, line, column⟩
  else some ⟨0, tag_token.unknown_tag incomplete_message, line, column⟩

/-- The values of the local variables at the start of `parser::parse`. -/
def initial_locals : locals := ⟨initial, [], [], [], [], false⟩

/-- The member function `parser::parse` on the input `[start, end)`, with the values of
`line` and `column` on entry; `none` when an `assert(false)` is reached. -/
def parser.parse (p : parser) (input : List Char) (line column : Nat) : Option parse_result :=
  match p.parse_loop initial_locals 0 line column input with
  | none => none
  | some (v, iter, line1, column1) => parser.select_result v iter line1 column1

/-! ## The raw-text scanner `parser::parse_until_closing_tag` -/

/-- The enumeration `parser::script_state`. -/
inductive script_state where
  | reading_script
  | open_abracket
  | open_abracket__slash
  | open_abracket__slash__name
  | open_abracket__slash__name__space
  | closing_tag
  deriving DecidableEq, Repr

/-- The local variables of `parser::parse_until_closing_tag`. -/
structure script_locals where
  state : script_state
  param1 : std_string
  param2 : std_string
  param3 : std_string
  deriving DecidableEq, Repr

/-- The `switch (state)` of `parser::parse_until_closing_tag` on the character `c`; `none` is
the `assert(false)` of `case script_state::closing_tag`. -/
def script_switch_body (acceptId : std_string → Bool) (v : script_locals) (c : Char) :
    Option script_locals :=
  match v.state with
  | script_state.reading_script =>
      if c = '<' then some { v with state := script_state.open_abracket }
      else some { v with param1 := v.param1 ++ [c] }
  | script_state.open_abracket =>
      if c = '/' then some { v with state := script_state.open_abracket__slash }
      else some { v with param1 := v.param1 ++ ['<'] ++ [c],
                         state := script_state.reading_script }
  | script_state.open_abracket__slash =>
      if is_starting_name c then
        some { v with param2 := v.param2 ++ [c],
                      state := script_state.open_abracket__slash__name }
      else some { v with param1 := v.param1 ++ ['<'] ++ ['/'] ++ [c],
                         state := script_state.reading_script }
  | script_state.open_abracket__slash__name =>
      if is_name c then some { v with param2 := v.param2 ++ [c] }
      else if is_space c then
        some { v with param3 := v.param3 ++ [c],
                      state := script_state.open_abracket__slash__name__space }
      else if c = '>' ∧ acceptId v.param2 = true then
        some { v with param2 := [], state := script_state.closing_tag }
      else
        some { v with param1 := v.param1 ++ ['<'] ++ ['/'] ++ v.param2 ++ [c], param2 := [],
                      state := script_state.reading_script }
  | script_state.open_abracket__slash__name__space =>
      if is_space c then some { v with param3 := v.param3 ++ [c] }
      else if c = '>' ∧ acceptId v.param2 = true then
        some { v with param2 := [], param3 := [], state := script_state.closing_tag }
      else
        some { v with
          param1 := v.param1 ++ ['<'] ++ ['/'] ++ v.param2 ++ v.param3 ++ [c],
          param2 := [], param3 := [], state := script_state.reading_script }
  | script_state.closing_tag => none

/-- The `while` loop of `parser::parse_until_closing_tag`. -/
def parse_until_closing_tag_loop (acceptId : std_string → Bool) :
    script_locals → Nat → Nat → Nat → List Char → Option (script_locals × Nat × Nat × Nat)
  | v, iter, line, column, [] => some (v, iter, line, column)
  | v, iter, line, column, c :: rest =>
      if v.state = script_state.closing_tag then some (v, iter, line, column)
      else
        match script_switch_body acceptId v c with
        | none => none
        | some w =>
            parse_until_closing_tag_loop acceptId w (iter + 1)
              (count_char (line, column) c).1 (count_char (line, column) c).2 rest

/-- What `parser::parse_until_closing_tag` hands back: the returned iterator (as an offset from
`begin`), the raw text, and the caller's counters after the call. -/
structure script_result where
  iter : Nat
  raw : std_string
  line : Nat
  column : Nat
  deriving DecidableEq, Repr

/-- The member function `parser::parse_until_closing_tag` on the input `[begin, end)`. -/
def parse_until_closing_tag (acceptId : std_string → Bool) (input : List Char)
    (line column : Nat) : Option script_result :=
  match parse_until_closing_tag_loop acceptId
      ⟨script_state.reading_script, [], [], []⟩ 0 line column input with
  | none => none
  | some (v, iter, line1, column1) =>
      some ⟨iter, v.param1 ++ v.param2 ++ v.param3, line1, column1⟩

/-! ## Vocabulary of the statements -/

/-- A tag or attribute name: an alphabetic character followed by name characters. -/
def valid_name : std_string → Bool
  | [] => false
  | c :: cs => is_starting_name c && cs.all is_name

/-- A run of whitespace characters (possibly empty). -/
def all_space (w : std_string) : Bool := w.all is_space

/-- A spelling of the keyword `DOCTYPE` in which every letter is upper or lower case. -/
def doctype_spelling : std_string → Bool
  | [c1, c2, c3, c4, c5, c6, c7] =>
      (c1 == 'D' || c1 == 'd') && (c2 == 'O' || c2 == 'o') && (c3 == 'C' || c3 == 'c') &&
      (c4 == 'T' || c4 == 't') && (c5 == 'Y' || c5 == 'y') && (c6 == 'P' || c6 == 'p') &&
      (c7 == 'E' || c7 == 'e')
  | _ => false

/-- The source text of one double-quoted attribute:
`ws1 ++ key ++ ws2 ++ "=" ++ ws3 ++ "\"" ++ value ++ "\""`. -/
structure attribute_source where
  ws1 : std_string
  key : std_string
  ws2 : std_string
  ws3 : std_string
  value : std_string
  deriving DecidableEq, Repr

/-- The leading whitespace is non-empty, the key is a valid name, the value holds no `'"'`. -/
def attribute_source.well_formed (a : attribute_source) : Bool :=
  !a.ws1.isEmpty && all_space a.ws1 && valid_name a.key && all_space a.ws2 && all_space a.ws3 &&
    a.value.all (fun c => !(c == '"'))

/-- The characters of the attribute as they stand in the input. -/
def attribute_source.render (a : attribute_source) : std_string :=
  a.ws1 ++ a.key ++ a.ws2 ++ ['='] ++ a.ws3 ++ ['"'] ++ a.value ++ ['"']

/-- The (name, value) pair the attribute stands for. -/
def attribute_source.pair (a : attribute_source) : std_string × std_string := (a.key, a.value)

/-- The source text of a list of attributes, in order. -/
def render_attributes : List attribute_source → std_string
  | [] => []
  | a :: as => a.render ++ render_attributes as

/-- The loop started with local variables `v` consumes all of `s` (every round advancing the
iterator) and then stands at the local variables `w`, whatever follows `s`. -/
def Reaches (p : parser) (v : locals) (s : List Char) (w : locals) : Prop :=
  ∀ (iter line column : Nat) (rest : List Char),
    p.parse_loop v iter line column (s ++ rest) =
      p.parse_loop w (iter + s.length) (advance (line, column) s).1
        (advance (line, column) s).2 rest

/-- A state of the markup part of the machine: any state but `initial`, `characters`, `text`. -/
def markup_state (s : state_type) : Bool := !(s == initial || s == characters || s == text)

/-- The token is one of the seven markup tokens (neither `Text` nor `Unknown`). -/
def is_markup_token : tag_token → Bool
  | tag_token.text _ => false
  | tag_token.unknown_tag _ => false
  | _ => true

/-- The token is an `Unknown` token. -/
def is_unknown_token : tag_token → Bool
  | tag_token.unknown_tag _ => true
  | _ => false

/-- The returned iterator and token of a call, without the counters. -/
def cursor_and_token (r : Option parse_result) : Option (Nat × tag_token) :=
  r.map (fun x => (x.iter, x.token))

/-- A spelling of the keyword `CDATA` in which every letter is upper or lower case. -/
def cdata_spelling : std_string → Bool
  | [c1, c2, c3, c4, c5] =>
      (c1 == 'C' || c1 == 'c') && (c2 == 'D' || c2 == 'd') && (c3 == 'A' || c3 == 'a') &&
      (c4 == 'T' || c4 == 't') && (c5 == 'A' || c5 == 'a')
  | _ => false

/-- The character `c` that follows `pre` has no valid transition: the loop reads all of `pre`
without error and without reaching an accepting state, and the switch sets `error` on `c`. -/
def offending (p : parser) (pre : List Char) (c : Char) : Bool :=
  match p.parse_loop initial_locals 0 0 0 pre with
  | some (v, _) =>
      !(is_accepting_state v.state || v.error) &&
        (match p.switch_body v c with
         | some w => w.error
         | none => false)
  | none => false

/-- The 1-based line of the character that follows `pre` in a document. -/
def line_number (pre : List Char) : Nat := pre.count '\n' + 1

/-- The 1-based column of the character that follows `pre` in a document. -/
def column_number (pre : List Char) : Nat :=
  (pre.reverse.takeWhile (fun c => !(c == '\n'))).length + 1

/-- A character of an unquoted attribute value as the statements use it: not whitespace and
none of `/`, `>`, `<`, `=`, `"`, the single quote and the backtick. -/
def unquoted_value_char (c : Char) : Bool :=
  !is_space c && c != '/' && c != '>' && c != '<' && c != '=' && c != '"' &&
    c != Char.ofNat 39 && c != Char.ofNat 96

/-- The source text of one attribute with an unquoted value: `ws ++ key ++ "=" ++ value`. -/
structure unquoted_source where
  ws : std_string
  key : std_string
  value : std_string
  deriving DecidableEq, Repr

/-- The whitespace is non-empty, the key is a valid name, the value is a non-empty string of
unquoted-value characters. -/
def unquoted_source.well_formed (a : unquoted_source) : Bool :=
  !a.ws.isEmpty && all_space a.ws && valid_name a.key && !a.value.isEmpty &&
    a.value.all unquoted_value_char

/-- The characters of the attribute as they stand in the input. -/
def unquoted_source.render (a : unquoted_source) : std_string :=
  a.ws ++ a.key ++ ['='] ++ a.value

/-- The (name, value) pair the attribute stands for. -/
def unquoted_source.pair (a : unquoted_source) : std_string × std_string := (a.key, a.value)

/-- The source text of a list of attributes with unquoted values, in order. -/
def render_unquoted : List unquoted_source → std_string
  | [] => []
  | a :: as => a.render ++ render_unquoted as

/-- A double-quoted attribute that may follow the previous value without whitespace: as
`attribute_source.well_formed`, but the leading whitespace may be empty. -/
def attribute_source.well_formed_tail (a : attribute_source) : Bool :=
  all_space a.ws1 && valid_name a.key && all_space a.ws2 && all_space a.ws3 &&
    a.value.all (fun c => !(c == '"'))

/-- The result with the content of a Text token replaced by the empty string. -/
def erase_text (r : parse_result) : parse_result :=
  match r.token with
  | tag_token.text _ => { r with token := tag_token.text [] }
  | _ => r

/-- The result with the content of a CData token replaced by the empty string. -/
def erase_cdata (r : parse_result) : parse_result :=
  match r.token with
  | tag_token.cdata _ => { r with token := tag_token.cdata [] }
  | _ => r

/-- The local variables with `param1` emptied in the states `characters` and `text`. -/
def text_forget (v : locals) : locals :=
  if v.state = characters ∨ v.state = text then { v with param1 := [] } else v

/-- The states of a CDATA section after its keyword: the body states and `cdata`. -/
def cdata_body_state (s : state_type) : Bool :=
  s == open_abracket__exclamation_mark__sbracket__big_c__big_d__big_a__big_t__big_a__open_sbracket ||
  s == open_abracket__exclamation_mark__sbracket__big_c__big_d__big_a__big_t__big_a__open_sbracket__closed_sbracket ||
  s == open_abracket__exclamation_mark__sbracket__big_c__big_d__big_a__big_t__big_a__open_sbracket__closed_sbracket__closed_sbracket ||
  s == cdata

/-- The local variables with `param1` emptied in the CDATA body states and in `cdata`. -/
def cdata_forget (v : locals) : locals :=
  if cdata_body_state v.state then { v with param1 := [] } else v

/-- The states in which nothing has been written to `param1` yet: the start, `'<'`, `"<!"` and
the prefixes of `"<![CDATA"`. -/
def cdata_keyword_state (s : state_type) : Bool :=
  s == initial || s == open_abracket || s == open_abracket__exclamation_mark ||
  s == open_abracket__exclamation_mark__sbracket ||
  s == open_abracket__exclamation_mark__sbracket__big_c ||
  s == open_abracket__exclamation_mark__sbracket__big_c__big_d ||
  s == open_abracket__exclamation_mark__sbracket__big_c__big_d__big_a ||
  s == open_abracket__exclamation_mark__sbracket__big_c__big_d__big_a__big_t ||
  s == open_abracket__exclamation_mark__sbracket__big_c__big_d__big_a__big_t__big_a

/-- The states inside the body of a comment or of a processing instruction. -/
def comment_pi_body_state (s : state_type) : Bool :=
  s == open_abracket__exclamation_mark__bar__bar ||
  s == open_abracket__exclamation_mark__bar__bar__bar ||
  s == open_abracket__exclamation_mark__bar__bar__bar__bar ||
  s == open_abracket__question_mark__name__space ||
  s == open_abracket__question_mark__name__code ||
  s == open_abracket__question_mark__name__code__question_mark

/-! ## Getters and setters of the configuration -/

/-- The getter `parser::skip_text() const`. -/
def parser.skip_text (p : parser) : Bool := p.skipping_text

/-- The getter `parser::skip_cdata() const`. -/
def parser.skip_cdata (p : parser) : Bool := p.skipping_cdata

/-- The getter `parser::skip_comment() const`. -/
def parser.skip_comment (p : parser) : Bool := p.skipping_comment

/-- The getter `parser::skip_pi() const`. -/
def parser.skip_pi (p : parser) : Bool := p.skipping_pi

/-- The getter `parser::allow_weak_comment_coding() const`. -/
def parser.allow_weak_comment_coding (p : parser) : Bool := p.allowing_weak_comment_coding

/-- The getter `parser::allow_weak_pi_coding() const`. -/
def parser.allow_weak_pi_coding (p : parser) : Bool := p.allowing_weak_pi_coding

/-- The getter `parser::allow_weak_double_quote_coding() const`. -/
def parser.allow_weak_double_quote_coding (p : parser) : Bool := p.allowing_weak_double_quote_coding

/-- The getter `parser::allow_weak_single_quote_coding() const`. -/
def parser.allow_weak_single_quote_coding (p : parser) : Bool := p.allowing_weak_single_quote_coding

/-- The getter `parser::allow_unquoted_attribute_value() const`. -/
def parser.allow_unquoted_attribute_value (p : parser) : Bool := p.allowing_unquoted_attribute_value

/-- The getter `parser::allow_concated_attribute() const`. -/
def parser.allow_concated_attribute (p : parser) : Bool := p.allowing_concated_attribute

/-- The setter `parser::skip_text(const bool skip)`. -/
def parser.set_skip_text (p : parser) (skip : Bool) : parser :=
  { p with skipping_text := skip }

/-- The setter `parser::skip_cdata(const bool skip)`. -/
def parser.set_skip_cdata (p : parser) (skip : Bool) : parser :=
  { p with skipping_cdata := skip }

/-- The setter `parser::skip_comment(const bool skip)`. -/
def parser.set_skip_comment (p : parser) (skip : Bool) : parser :=
  { p with skipping_comment := skip }

/-- The setter `parser::skip_pi(const bool skip)`. -/
def parser.set_skip_pi (p : parser) (skip : Bool) : parser :=
  { p with skipping_pi := skip }

/-- The setter `parser::allow_weak_comment_coding(const bool allow)`. -/
def parser.set_allow_weak_comment_coding (p : parser) (allow : Bool) : parser :=
  { p with allowing_weak_comment_coding := allow }

/-- The setter `parser::allow_weak_pi_coding(const bool allow)`. -/
def parser.set_allow_weak_pi_coding (p : parser) (allow : Bool) : parser :=
  { p with allowing_weak_pi_coding := allow }

/-- The setter `parser::allow_weak_double_quote_coding(const bool allow)`. -/
def parser.set_allow_weak_double_quote_coding (p : parser) (allow : Bool) : parser :=
  { p with allowing_weak_double_quote_coding := allow }

/-- The setter `parser::allow_weak_single_quote_coding(const bool allow)`. -/
def parser.set_allow_weak_single_quote_coding (p : parser) (allow : Bool) : parser :=
  { p with allowing_weak_single_quote_coding := allow }

/-- The setter `parser::allow_unquoted_attribute_value(const bool allow)`. -/
def parser.set_allow_unquoted_attribute_value (p : parser) (allow : Bool) : parser :=
  { p with allowing_unquoted_attribute_value := allow }

/-- The setter `parser::allow_concated_attribute(const bool allow)`. -/
def parser.set_allow_concated_attribute (p : parser) (allow : Bool) : parser :=
  { p with allowing_concated_attribute := allow }

/-- The character is one of the two quote characters. -/
def is_quote (q : Char) : Bool := q == '"' || q == Char.ofNat 39

/-- The tolerance flag that belongs to values delimited by the quote character `q`. -/
def weak_quote_flag (p : parser) (q : Char) : Bool :=
  if q = '"' then p.allowing_weak_double_quote_coding
  else p.allowing_weak_single_quote_coding

/-- The state in which a value delimited by the quote character `q` is read. -/
def quote_state (q : Char) : state_type :=
  if q = '"' then open_abracket__name__dq else open_abracket__name__sq

/-! ## Vocabulary for the raw-text scanner -/

/-- The local variables of `parser::parse_until_closing_tag` on entry. -/
def script_initial : script_locals := ⟨script_state.reading_script, [], [], []⟩

/-- The scanner started with local variables `v` consumes all of `s` and then stands at the
local variables `w`, whatever follows `s`. -/
def ScriptReaches (acceptId : std_string → Bool) (v : script_locals) (s : List Char)
    (w : script_locals) : Prop :=
  ∀ (iter line column : Nat) (rest : List Char),
    parse_until_closing_tag_loop acceptId v iter line column (s ++ rest) =
      parse_until_closing_tag_loop acceptId w (iter + s.length) (advance (line, column) s).1
        (advance (line, column) s).2 rest

/-- The state in which the scanner is after it has run on `b` alone. -/
def script_state_after (acceptId : std_string → Bool) (b : List Char) : script_state :=
  match parse_until_closing_tag_loop acceptId script_initial 0 0 0 b with
  | some (v, _) => v.state
  | none => script_state.closing_tag

/-- The characters of a closing-tag candidate that the scanner has consumed and not yet
written to the raw text. -/
def script_pending (v : script_locals) : List Char :=
  match v.state with
  | script_state.reading_script => []
  | script_state.open_abracket => ['<']
  | script_state.open_abracket__slash => ['<', '/']
  | script_state.open_abracket__slash__name => '<' :: '/' :: v.param2
  | script_state.open_abracket__slash__name__space => '<' :: '/' :: (v.param2 ++ v.param3)
  | script_state.closing_tag => []

/-- The buffers that a state does not use are empty. -/
def script_wf (v : script_locals) : Bool :=
  match v.state with
  | script_state.reading_script => v.param2.isEmpty && v.param3.isEmpty
  | script_state.open_abracket => v.param2.isEmpty && v.param3.isEmpty
  | script_state.open_abracket__slash => v.param2.isEmpty && v.param3.isEmpty
  | script_state.open_abracket__slash__name => v.param3.isEmpty
  | _ => true

/-- A stretch of raw text without `'<'` followed by a complete closing tag
`"</" ++ name ++ ws ++ ">"`. -/
structure raw_segment where
  text : std_string
  name : std_string
  ws : std_string
  deriving DecidableEq, Repr

/-- The text holds no `'<'`, the name is a valid name that the predicate rejects, and `ws` is
whitespace. -/
def raw_segment.rejected (acceptId : std_string → Bool) (g : raw_segment) : Bool :=
  g.text.all (fun c => !(c == '<')) && valid_name g.name && !acceptId g.name && all_space g.ws

/-- The characters of the segment as they stand in the input. -/
def raw_segment.render (g : raw_segment) : std_string :=
  g.text ++ '<' :: '/' :: (g.name ++ g.ws ++ ['>'])

/-- The source text of a list of segments, in order. -/
def render_segments : List raw_segment → std_string
  | [] => []
  | g :: gs => g.render ++ render_segments gs

/-! ## Vocabulary for the name invariant -/

/-- The round on `c` ends a tag right after an attribute name without a value: the `'>'` and
`'/'` branches of the states `open_abracket__name__attrname` and
`open_abracket__name__attrname__space`, the branches that hand `param1` over with
`std::move`. -/
def moves_tag_name (v : locals) (c : Char) : Bool :=
  (v.state == open_abracket__name__attrname ||
    v.state == open_abracket__name__attrname__space) && (c == '>' || c == '/')

/-- No round of the loop on the input, started with the local variables `v`, is one of the
rounds `moves_tag_name`. -/
def parser.keeps_tag_name (p : parser) : locals → List Char → Bool
  | _, [] => true
  | v, c :: rest =>
      if is_accepting_state v.state || v.error then true
      else
        !moves_tag_name v c &&
          (match p.switch_body v c with
           | none => true
           | some w => parser.keeps_tag_name p w rest)

/-- What the local variables hold in each state: the tag name or target in `param1` and the
attribute name in `param2` are valid names where the state has read them, empty where it has
not started them, and every recorded attribute name is a valid name. -/
def name_invariant (v : locals) : Bool :=
  v.pairs1.all (fun x => valid_name x.1) &&
  (match v.state with
   | initial => v.param1.isEmpty && v.param2.isEmpty
   | open_abracket => v.param1.isEmpty && v.param2.isEmpty
   | open_abracket__question_mark => v.param1.isEmpty
   | open_abracket__slash => v.param1.isEmpty
   | open_abracket__exclamation_mark => v.param1.isEmpty
   | open_abracket__exclamation_mark__big_d => v.param1.isEmpty
   | open_abracket__exclamation_mark__big_do => v.param1.isEmpty
   | open_abracket__exclamation_mark__big_doc => v.param1.isEmpty
   | open_abracket__exclamation_mark__big_doct => v.param1.isEmpty
   | open_abracket__exclamation_mark__big_docty => v.param1.isEmpty
   | open_abracket__exclamation_mark__big_doctyp => v.param1.isEmpty
   | open_abracket__exclamation_mark__big_doctype => v.param1.isEmpty
   | dtd => v.param1.isEmpty
   | open_abracket__question_mark__name => valid_name v.param1
   | open_abracket__question_mark__name__space => valid_name v.param1
   | open_abracket__question_mark__name__code => valid_name v.param1
   | open_abracket__question_mark__name__code__question_mark => valid_name v.param1
   | process_instruction => valid_name v.param1
   | open_abracket__slash__name => valid_name v.param1
   | open_abracket__slash__name__space => valid_name v.param1
   | closed_tag => valid_name v.param1
   | open_abracket__name => valid_name v.param1 && v.param2.isEmpty
   | open_abracket__name__space => valid_name v.param1 && v.param2.isEmpty
   | open_abracket__name__slash => valid_name v.param1
   | empty_tag => valid_name v.param1
   | open_abracket__name__attrname => valid_name v.param1 && valid_name v.param2
   | open_abracket__name__attrname__space => valid_name v.param1 && valid_name v.param2
   | open_abracket__name__attrequal => valid_name v.param1 && valid_name v.param2
   | open_abracket__name__dq => valid_name v.param1 && valid_name v.param2
   | open_abracket__name__sq => valid_name v.param1 && valid_name v.param2
   | open_abracket__name__uq => valid_name v.param1 && valid_name v.param2
   | open_abracket__name__attrend => valid_name v.param1 && valid_name v.param2
   | open_tag => valid_name v.param1
   | _ => true)

/-- The property of the names of a returned token: the name of an OpenTag, ClosingTag or
EmptyTag and the target of a ProcessingInstruction are valid names, the name of a Doctype
token is empty, and every attribute name is a valid name. -/
def token_names_valid : tag_token → Bool
  | tag_token.open_tag id attributes => valid_name id && attributes.all (fun x => valid_name x.1)
  | tag_token.empty_tag id attributes =>
      valid_name id && attributes.all (fun x => valid_name x.1)
  | tag_token.closing_tag id => valid_name id
  | tag_token.pi id _ => valid_name id
  | tag_token.dtd id => id.isEmpty
  | _ => true

/-- A state that has a `case` in the switch or is accepting: every state but the three
DOCTYPE states after the keyword that no transition enters. -/
def state_has_case (s : state_type) : Bool :=
  !(s == open_abracket__exclamation_mark__big_doctype__space ||
    s == open_abracket__exclamation_mark__big_doctype__space__name ||
    s == open_abracket__exclamation_mark__big_doctype__space__name__space)

/-- The state has a `case`, and if `error` is set the state has a diagnostic. -/
def assert_free (v : locals) : Bool :=
  state_has_case v.state && (!v.error || (formulate_error v.state).isSome)

/-! # Theorems -/

/-! ## Facts on the character classes -/

theorem is_name_toNat {c : Char} (h : is_name c = true) :
    c.toNat = 45 ∨ c.toNat = 46 ∨ (48 ≤ c.toNat ∧ c.toNat ≤ 57) ∨
      (65 ≤ c.toNat ∧ c.toNat ≤ 90) ∨ (97 ≤ c.toNat ∧ c.toNat ≤ 122) := by
  simp only [is_name, isalnum, isalpha, isdigit, Bool.or_eq_true, Bool.and_eq_true,
    decide_eq_true_eq, beq_iff_eq] at h
  rcases h with ((h | h) | h) | h
  · omega
  · omega
  · subst h; exact Or.inr (Or.inl (by decide))
  · subst h; exact Or.inl (by decide)

theorem is_space_toNat {c : Char} (h : is_space c = true) :
    c.toNat = 32 ∨ (9 ≤ c.toNat ∧ c.toNat ≤ 13) := by
  simpa only [is_space, isspace, Bool.or_eq_true, Bool.and_eq_true,
    decide_eq_true_eq, beq_iff_eq] using h

theorem is_starting_name_is_name {c : Char} (h : is_starting_name c = true) :
    is_name c = true := by
  simp only [is_starting_name] at h
  simp [is_name, isalnum, h]

theorem is_name_not_space {c : Char} (h : is_name c = true) : is_space c = false := by
  cases hs : is_space c with
  | false => rfl
  | true =>
    have h1 := is_name_toNat h
    have h2 := is_space_toNat hs
    omega

theorem is_name_ne {c d : Char} (h : is_name c = true) (hd : is_name d = false) : c ≠ d := by
  rintro rfl
  simp [h] at hd

theorem is_space_ne {c d : Char} (h : is_space c = true) (hd : is_space d = false) : c ≠ d := by
  rintro rfl
  simp [h] at hd

theorem is_space_not_starting_name {c : Char} (h : is_space c = true) : is_starting_name c = false := by
  cases hs : is_starting_name c with
  | false => rfl
  | true => simp [is_name_not_space (is_starting_name_is_name hs)] at h

/-! ## The loop, one round at a time -/

theorem parse_loop_nil (p : parser) (v : locals) (iter line column : Nat) :
    p.parse_loop v iter line column [] = some (v, iter, line, column) := rfl

theorem parse_loop_stop (p : parser) (v : locals) (iter line column : Nat) (rest : List Char)
    (h : (is_accepting_state v.state || v.error) = true) :
    p.parse_loop v iter line column rest = some (v, iter, line, column) := by
  cases rest with
  | nil => rfl
  | cons c cs => simp only [parser.parse_loop, h, if_true]

theorem parse_loop_cons (p : parser) (v w : locals) (iter line column : Nat) (c : Char)
    (rest : List Char) (h : (is_accepting_state v.state || v.error) = false)
    (hw : p.switch_body v c = some w) :
    p.parse_loop v iter line column (c :: rest) =
      p.parse_loop w (if w.state = text then iter else iter + 1)
        (count_char (line, column) c).1 (count_char (line, column) c).2 rest := by
  simp [parser.parse_loop, h, hw]

theorem advance_nil (lc : Nat × Nat) : advance lc [] = lc := rfl

theorem advance_cons (lc : Nat × Nat) (c : Char) (s : List Char) :
    advance lc (c :: s) = advance (count_char lc c) s := rfl

theorem advance_append (lc : Nat × Nat) (s t : List Char) :
    advance lc (s ++ t) = advance (advance lc s) t := by
  simp [advance, List.foldl_append]

theorem Reaches.refl (p : parser) (v : locals) : Reaches p v [] v := by
  intro iter line column rest
  simp [advance]

theorem Reaches.trans {p : parser} {u v w : locals} {s t : List Char}
    (h1 : Reaches p u s v) (h2 : Reaches p v t w) : Reaches p u (s ++ t) w := by
  intro iter line column rest
  rw [List.append_assoc, h1, h2, advance_append, List.length_append, Nat.add_assoc]

theorem Reaches.single {p : parser} {v w : locals} {c : Char}
    (h : (is_accepting_state v.state || v.error) = false)
    (hw : p.switch_body v c = some w) (ht : w.state ≠ text) : Reaches p v [c] w := by
  intro iter line column rest
  rw [List.singleton_append, parse_loop_cons p v w iter line column c rest h hw, if_neg ht]
  rfl

theorem Reaches.cons {p : parser} {u v w : locals} {c : Char} {t : List Char}
    (h1 : Reaches p u [c] v) (h2 : Reaches p v t w) : Reaches p u (c :: t) w :=
  Reaches.trans h1 h2

/-- A self-loop: characters of a class that leave the local variables unchanged. -/
theorem Reaches.loop {p : parser} {v : locals} {P : Char → Bool}
    (h : ∀ c, P c = true → Reaches p v [c] v) :
    ∀ s : List Char, s.all P = true → Reaches p v s v
  | [], _ => Reaches.refl p v
  | c :: cs, hs => by
      simp only [List.all_cons, Bool.and_eq_true] at hs
      exact Reaches.cons (h c hs.1) (Reaches.loop h cs hs.2)

/-- An accumulating loop: characters of a class that are appended to one buffer. -/
theorem Reaches.accumulate {p : parser} {g : std_string → locals} {P : Char → Bool}
    (h : ∀ acc c, P c = true → Reaches p (g acc) [c] (g (acc ++ [c]))) :
    ∀ (s : List Char) (acc : std_string), s.all P = true → Reaches p (g acc) s (g (acc ++ s))
  | [], acc, _ => by simpa using Reaches.refl p (g acc)
  | c :: cs, acc, hs => by
      simp only [List.all_cons, Bool.and_eq_true] at hs
      have := Reaches.cons (h acc c hs.1) (Reaches.accumulate h cs (acc ++ [c]) hs.2)
      simpa using this

/-- The result of `parse` when the loop reaches an accepting state after consuming `s`. -/
theorem parse_of_reaches {p : parser} {s : List Char} {w : locals}
    (h : Reaches p initial_locals s w) (hacc : is_accepting_state w.state = true)
    (rest : List Char) (line column : Nat) :
    p.parse (s ++ rest) line column =
      parser.select_result w s.length (advance (line, column) s).1
        (advance (line, column) s).2 := by
  unfold parser.parse
  rw [h 0 line column rest, parse_loop_stop p w _ _ _ rest (by simp [hacc])]
  simp


theorem valid_name_cases {n : std_string} (h : valid_name n = true) :
    ∃ c cs, n = c :: cs ∧ is_starting_name c = true ∧ cs.all is_name = true := by
  cases n with
  | nil => simp [valid_name] at h
  | cons c cs =>
    simp only [valid_name, Bool.and_eq_true] at h
    exact ⟨c, cs, rfl, h.1, h.2⟩

/-! ## Closing tags -/

theorem reaches_open_abracket (p : parser) :
    Reaches p initial_locals ['<'] ⟨open_abracket, [], [], [], [], false⟩ :=
  Reaches.single rfl (by simp [parser.switch_body, initial_locals, is_open_abracket])
    (by simp)

theorem reaches_slash (p : parser) :
    Reaches p ⟨open_abracket, [], [], [], [], false⟩ ['/']
      ⟨open_abracket__slash, [], [], [], [], false⟩ :=
  Reaches.single rfl
    (by simp [parser.switch_body, is_exclamation_mark, is_question_mark, is_slash]) (by simp)

theorem reaches_slash_name_start (p : parser) {c : Char} (h : is_starting_name c = true) :
    Reaches p ⟨open_abracket__slash, [], [], [], [], false⟩ [c]
      ⟨open_abracket__slash__name, [c], [], [], [], false⟩ :=
  Reaches.single rfl (by simp [parser.switch_body, h]) (by simp)

theorem reaches_slash_name (p : parser) (s acc : std_string) (h : s.all is_name = true) :
    Reaches p ⟨open_abracket__slash__name, acc, [], [], [], false⟩ s
      ⟨open_abracket__slash__name, acc ++ s, [], [], [], false⟩ := by
  refine Reaches.accumulate (g := fun a => ⟨open_abracket__slash__name, a, [], [], [], false⟩)
    (P := is_name) ?_ s acc h
  intro a c hc
  have h1 := is_name_not_space hc
  have h2 : c ≠ '>' := is_name_ne hc (by decide)
  exact Reaches.single rfl
    (by simp [parser.switch_body, h1, h2, hc, is_closed_abracket]) (by simp)

theorem reaches_closed_tag (p : parser) (acc : std_string) :
    Reaches p ⟨open_abracket__slash__name, acc, [], [], [], false⟩ ['>']
      ⟨closed_tag, acc, [], [], [], false⟩ :=
  Reaches.single rfl
    (by simp [parser.switch_body, is_space, isspace, is_closed_abracket]) (by simp)

/-- Claim C4. Closing tag: for every configuration, every valid name `n` and every rest `r`, parsing
`"</" ++ n ++ ">" ++ r` returns `ClosingTag{name = n}` with the cursor immediately after the
`'>'` (offset `|n| + 3`); the counters have advanced over exactly the consumed characters. -/
theorem C4_closing_tag (p : parser) (n r : std_string) (line column : Nat)
    (hn : valid_name n = true) :
    p.parse ('<' :: '/' :: (n ++ '>' :: r)) line column =
      some ⟨n.length + 3, tag_token.closing_tag n,
        (advance (line, column) ('<' :: '/' :: (n ++ ['>']))).1,
        (advance (line, column) ('<' :: '/' :: (n ++ ['>']))).2⟩ := by
  obtain ⟨c, cs, rfl, hc, hcs⟩ := valid_name_cases hn
  have hr : Reaches p initial_locals ('<' :: '/' :: ((c :: cs) ++ ['>']))
      ⟨closed_tag, c :: cs, [], [], [], false⟩ :=
    Reaches.cons (reaches_open_abracket p) (Reaches.cons (reaches_slash p)
      (Reaches.cons (reaches_slash_name_start p hc)
        (Reaches.trans (reaches_slash_name p cs [c] hcs) (reaches_closed_tag p _))))
  have := parse_of_reaches hr rfl r line column
  simpa [parser.select_result] using this

/-- Claim C4, at the name `a` and an empty rest: `"</a>"` gives `ClosingTag "a"` at offset 4. -/
theorem C4_closing_tag_witness :
    valid_name "a".toList = true ∧
    ({} : parser).parse "</a>".toList 1 0 =
      some ⟨4, tag_token.closing_tag "a".toList, 1, 4⟩ :=
  ⟨by decide, (C4_closing_tag {} "a".toList [] 1 0 (by decide)).trans (by decide)⟩


/-! ## Text -/

theorem reaches_characters_start (p : parser) (hskip : p.skipping_text = false) {c : Char}
    (h : c ≠ '<') :
    Reaches p initial_locals [c] ⟨characters, [c], [], [], [], false⟩ :=
  Reaches.single rfl
    (by simp [parser.switch_body, initial_locals, is_open_abracket, h, hskip]) (by simp)

theorem reaches_characters (p : parser) (hskip : p.skipping_text = false) (s acc : std_string)
    (h : s.all (fun c => !is_open_abracket c) = true) :
    Reaches p ⟨characters, acc, [], [], [], false⟩ s
      ⟨characters, acc ++ s, [], [], [], false⟩ := by
  refine Reaches.accumulate (g := fun a => ⟨characters, a, [], [], [], false⟩)
    (P := fun c => !is_open_abracket c) ?_ s acc h
  intro a c hc
  simp only [Bool.not_eq_true', is_open_abracket, beq_eq_false_iff_ne, ne_eq] at hc
  exact Reaches.single rfl (by simp [parser.switch_body, is_open_abracket, hc, hskip]) (by simp)

theorem parse_loop_text (p : parser) (acc : std_string) (iter line column : Nat)
    (rest : List Char) :
    p.parse_loop ⟨characters, acc, [], [], [], false⟩ iter line column ('<' :: rest) =
      some (⟨text, acc, [], [], [], false⟩, iter, (count_char (line, column) '<').1,
        (count_char (line, column) '<').2) := by
  rw [parse_loop_cons p ⟨characters, acc, [], [], [], false⟩ ⟨text, acc, [], [], [], false⟩
    iter line column '<' rest rfl (by simp [parser.switch_body, is_open_abracket]),
    parse_loop_stop p ⟨text, acc, [], [], [], false⟩ _ _ _ _ rfl]
  simp

/-- Claim C1. Text lookahead: with `skip_text = false`, on an input `t ++ "<" ++ r` with `t` non-empty
and free of `'<'`, `parse` returns `Text{content = t}` and the cursor `|t|`; the input at that
cursor is `'<' :: r` (the `'<'` is not consumed), and a second call from that cursor is the loop
continued in state `open_abracket` (tag recognition) after the `'<'`. -/
theorem C1_text_lookahead (p : parser) (t r : std_string) (line column : Nat)
    (hskip : p.skipping_text = false) (ht : t ≠ []) (hlt : '<' ∉ t) :
    p.parse (t ++ '<' :: r) line column =
        some ⟨t.length, tag_token.text t, (advance (line, column) (t ++ ['<'])).1,
          (advance (line, column) (t ++ ['<'])).2⟩ ∧
      (t ++ '<' :: r).drop t.length = '<' :: r ∧
      ∀ l c : Nat, p.parse ((t ++ '<' :: r).drop t.length) l c =
        match p.parse_loop ⟨open_abracket, [], [], [], [], false⟩ 1 l ((c + 1) % size_max) r with
        | none => none
        | some (v, iter, l1, c1) => parser.select_result v iter l1 c1 := by
  have hdrop : (t ++ '<' :: r).drop t.length = '<' :: r := by simp
  refine ⟨?_, hdrop, ?_⟩
  · cases t with
    | nil => exact absurd rfl ht
    | cons c cs =>
      have hc : c ≠ '<' := fun h => hlt (by simp [h])
      have hcs : cs.all (fun c => !is_open_abracket c) = true := by
        simp only [List.all_eq_true, Bool.not_eq_true', is_open_abracket, beq_eq_false_iff_ne]
        intro x hx hxe
        subst hxe
        exact hlt (List.mem_cons_of_mem _ hx)
      have hr : Reaches p initial_locals (c :: cs) ⟨characters, c :: cs, [], [], [], false⟩ :=
        Reaches.cons (reaches_characters_start p hskip hc) (reaches_characters p hskip cs [c] hcs)
      unfold parser.parse
      rw [hr 0 line column ('<' :: r), parse_loop_text]
      simp [parser.select_result, advance_append, advance]
  · intro l c
    rw [hdrop]
    unfold parser.parse
    have h := reaches_open_abracket p 0 l c r
    simp only [List.singleton_append, List.length_singleton, Nat.zero_add] at h
    rw [h]
    rfl


/-- Claim C1 at `"hello<a>"`: the first call gives `Text "hello"` with the cursor 5 (at the `'<'`),
the second call from there gives `OpenTag "a"`. -/
theorem C1_text_lookahead_witness :
    ({} : parser).parse "hello<a>".toList 1 0 =
        some ⟨5, tag_token.text "hello".toList, 1, 6⟩ ∧
      ({} : parser).parse ("hello<a>".toList.drop 5) 1 6 =
        some ⟨3, tag_token.open_tag "a".toList [], 1, 9⟩ :=
  ⟨(C1_text_lookahead {} "hello".toList "a>".toList 1 0 rfl (by decide) (by decide)).1.trans
      (by decide),
    by decide⟩

/-! ## DOCTYPE -/

theorem doctype_spelling_cases {k : std_string} (h : doctype_spelling k = true) :
    ∃ c1 c2 c3 c4 c5 c6 c7, k = [c1, c2, c3, c4, c5, c6, c7] ∧
      (c1 = 'D' ∨ c1 = 'd') ∧ (c2 = 'O' ∨ c2 = 'o') ∧ (c3 = 'C' ∨ c3 = 'c') ∧
      (c4 = 'T' ∨ c4 = 't') ∧ (c5 = 'Y' ∨ c5 = 'y') ∧ (c6 = 'P' ∨ c6 = 'p') ∧
      (c7 = 'E' ∨ c7 = 'e') := by
  match k, h with
  | [c1, c2, c3, c4, c5, c6, c7], h =>
    simp only [doctype_spelling, Bool.and_eq_true, Bool.or_eq_true, beq_iff_eq] at h
    obtain ⟨⟨⟨⟨⟨⟨h1, h2⟩, h3⟩, h4⟩, h5⟩, h6⟩, h7⟩ := h
    exact ⟨c1, c2, c3, c4, c5, c6, c7, rfl, h1, h2, h3, h4, h5, h6, h7⟩

theorem reaches_exclamation_mark (p : parser) :
    Reaches p ⟨open_abracket, [], [], [], [], false⟩ ['!']
      ⟨open_abracket__exclamation_mark, [], [], [], [], false⟩ :=
  Reaches.single rfl (by simp [parser.switch_body, is_exclamation_mark]) (by simp)

theorem reaches_big_doctype (p : parser) {k : std_string} (hk : doctype_spelling k = true) :
    Reaches p ⟨open_abracket__exclamation_mark, [], [], [], [], false⟩ k
      ⟨open_abracket__exclamation_mark__big_doctype, [], [], [], [], false⟩ := by
  obtain ⟨c1, c2, c3, c4, c5, c6, c7, rfl, h1, h2, h3, h4, h5, h6, h7⟩ :=
    doctype_spelling_cases hk
  have e1 : Reaches p ⟨open_abracket__exclamation_mark, [], [], [], [], false⟩ [c1]
      ⟨open_abracket__exclamation_mark__big_d, [], [], [], [], false⟩ := by
    refine Reaches.single rfl ?_ (by simp)
    rcases h1 with rfl | rfl <;>
      simp [parser.switch_body, is_bar, is_open_sbracket]
  have e2 : Reaches p ⟨open_abracket__exclamation_mark__big_d, [], [], [], [], false⟩ [c2]
      ⟨open_abracket__exclamation_mark__big_do, [], [], [], [], false⟩ :=
    Reaches.single rfl (by simp [parser.switch_body, h2]) (by simp)
  have e3 : Reaches p ⟨open_abracket__exclamation_mark__big_do, [], [], [], [], false⟩ [c3]
      ⟨open_abracket__exclamation_mark__big_doc, [], [], [], [], false⟩ :=
    Reaches.single rfl (by simp [parser.switch_body, h3]) (by simp)
  have e4 : Reaches p ⟨open_abracket__exclamation_mark__big_doc, [], [], [], [], false⟩ [c4]
      ⟨open_abracket__exclamation_mark__big_doct, [], [], [], [], false⟩ :=
    Reaches.single rfl (by simp [parser.switch_body, h4]) (by simp)
  have e5 : Reaches p ⟨open_abracket__exclamation_mark__big_doct, [], [], [], [], false⟩ [c5]
      ⟨open_abracket__exclamation_mark__big_docty, [], [], [], [], false⟩ :=
    Reaches.single rfl (by simp [parser.switch_body, h5]) (by simp)
  have e6 : Reaches p ⟨open_abracket__exclamation_mark__big_docty, [], [], [], [], false⟩ [c6]
      ⟨open_abracket__exclamation_mark__big_doctyp, [], [], [], [], false⟩ :=
    Reaches.single rfl (by simp [parser.switch_body, h6]) (by simp)
  have e7 : Reaches p ⟨open_abracket__exclamation_mark__big_doctyp, [], [], [], [], false⟩ [c7]
      ⟨open_abracket__exclamation_mark__big_doctype, [], [], [], [], false⟩ :=
    Reaches.single rfl (by simp [parser.switch_body, h7]) (by simp)
  exact Reaches.cons e1 (Reaches.cons e2 (Reaches.cons e3 (Reaches.cons e4
    (Reaches.cons e5 (Reaches.cons e6 e7)))))

theorem reaches_doctype_body (p : parser) (d : std_string)
    (h : d.all (fun c => !is_closed_abracket c) = true) :
    Reaches p ⟨open_abracket__exclamation_mark__big_doctype, [], [], [], [], false⟩ d
      ⟨open_abracket__exclamation_mark__big_doctype, [], [], [], [], false⟩ := by
  refine Reaches.loop (P := fun c => !is_closed_abracket c) ?_ d h
  intro c hc
  simp only [Bool.not_eq_true', is_closed_abracket, beq_eq_false_iff_ne, ne_eq] at hc
  exact Reaches.single rfl (by simp [parser.switch_body, hc]) (by simp)

theorem reaches_dtd (p : parser) :
    Reaches p ⟨open_abracket__exclamation_mark__big_doctype, [], [], [], [], false⟩ ['>']
      ⟨dtd, [], [], [], [], false⟩ :=
  Reaches.single rfl (by simp [parser.switch_body]) (by simp)

theorem not_mem_all_ne {a : Char} {s : List Char} (h : a ∉ s) :
    s.all (fun c => !(c == a)) = true := by
  simp only [List.all_eq_true, Bool.not_eq_true', beq_eq_false_iff_ne]
  intro x hx hxe
  exact h (hxe ▸ hx)

/-- Claim C10. DOCTYPE recognition: for every configuration, every upper/lower-case spelling `k` of
`DOCTYPE`, every `d` without `'>'` and every rest `r`, parsing `"<!" ++ k ++ d ++ ">" ++ r`
returns a Doctype token with the cursor immediately after the first `'>'`, whatever `d` holds
(brackets and quotes included). -/
theorem C10_doctype (p : parser) (k d r : std_string) (line column : Nat)
    (hk : doctype_spelling k = true) (hd : '>' ∉ d) :
    p.parse ('<' :: '!' :: (k ++ d ++ '>' :: r)) line column =
      some ⟨k.length + d.length + 3, tag_token.dtd [],
        (advance (line, column) ('<' :: '!' :: (k ++ d ++ ['>']))).1,
        (advance (line, column) ('<' :: '!' :: (k ++ d ++ ['>']))).2⟩ := by
  have hr : Reaches p initial_locals ('<' :: '!' :: (k ++ d ++ ['>']))
      ⟨dtd, [], [], [], [], false⟩ :=
    Reaches.cons (reaches_open_abracket p) (Reaches.cons (reaches_exclamation_mark p)
      (Reaches.trans (Reaches.trans (reaches_big_doctype p hk)
        (reaches_doctype_body p d (not_mem_all_ne hd))) (reaches_dtd p)))
  have := parse_of_reaches hr rfl r line column
  simpa [parser.select_result, Nat.add_assoc] using this

/-- Claim C10 at `"<!DocType [a \"b\"]>zz"`: a Doctype token, cursor 18 (just after the `'>'`). -/
theorem C10_doctype_witness :
    (doctype_spelling "DocType".toList = true ∧ '>' ∉ " [a \"b\"]".toList) ∧
    ({} : parser).parse "<!DocType [a \"b\"]>zz".toList 1 0 =
      some ⟨18, tag_token.dtd [], 1, 18⟩ :=
  ⟨⟨by decide, by decide⟩,
    (C10_doctype {} "DocType".toList " [a \"b\"]".toList "zz".toList 1 0
      (by decide) (by decide)).trans (by decide)⟩


/-! ## Opening and empty tags with double-quoted attributes -/

theorem reaches_name_start (p : parser) {c : Char} (h : is_starting_name c = true) :
    Reaches p ⟨open_abracket, [], [], [], [], false⟩ [c]
      ⟨open_abracket__name, [c], [], [], [], false⟩ := by
  have hn := is_starting_name_is_name h
  have h1 : c ≠ '!' := is_name_ne hn (by decide)
  have h2 : c ≠ '?' := is_name_ne hn (by decide)
  have h3 : c ≠ '/' := is_name_ne hn (by decide)
  exact Reaches.single rfl
    (by simp [parser.switch_body, is_exclamation_mark, is_question_mark, is_slash, h1, h2, h3, h])
    (by simp)

theorem reaches_name (p : parser) (s acc : std_string) (h : s.all is_name = true) :
    Reaches p ⟨open_abracket__name, acc, [], [], [], false⟩ s
      ⟨open_abracket__name, acc ++ s, [], [], [], false⟩ := by
  refine Reaches.accumulate (g := fun a => ⟨open_abracket__name, a, [], [], [], false⟩)
    (P := is_name) ?_ s acc h
  intro a c hc
  have h1 := is_name_not_space hc
  have h2 : c ≠ '>' := is_name_ne hc (by decide)
  have h3 : c ≠ '/' := is_name_ne hc (by decide)
  exact Reaches.single rfl
    (by simp [parser.switch_body, h1, h2, h3, hc, is_closed_abracket, is_slash]) (by simp)

/-- From the start of the input, `'<'` and a valid name lead to state `open_abracket__name`. -/
theorem reaches_tag_name (p : parser) {n : std_string} (hn : valid_name n = true) :
    Reaches p initial_locals ('<' :: n) ⟨open_abracket__name, n, [], [], [], false⟩ := by
  obtain ⟨c, cs, rfl, hc, hcs⟩ := valid_name_cases hn
  exact Reaches.cons (reaches_open_abracket p)
    (Reaches.cons (reaches_name_start p hc) (reaches_name p cs [c] hcs))

theorem reaches_name_space (p : parser) (n : std_string)
    (ps : List (std_string × std_string)) (ws : std_string) (h : all_space ws = true) :
    Reaches p ⟨open_abracket__name__space, n, [], [], ps, false⟩ ws
      ⟨open_abracket__name__space, n, [], [], ps, false⟩ := by
  refine Reaches.loop (P := is_space) ?_ ws h
  intro c hc
  exact Reaches.single rfl (by simp [parser.switch_body, hc]) (by simp)

theorem reaches_attrname (p : parser) (n : std_string) (ps : List (std_string × std_string))
    {k : std_string} (hk : valid_name k = true) :
    Reaches p ⟨open_abracket__name__space, n, [], [], ps, false⟩ k
      ⟨open_abracket__name__attrname, n, k, [], ps, false⟩ := by
  obtain ⟨c, cs, rfl, hc, hcs⟩ := valid_name_cases hk
  have hn := is_starting_name_is_name hc
  have h0 := is_name_not_space hn
  have h1 : c ≠ '>' := is_name_ne hn (by decide)
  have h2 : c ≠ '/' := is_name_ne hn (by decide)
  refine Reaches.cons (v := ⟨open_abracket__name__attrname, n, [c], [], ps, false⟩)
    (Reaches.single rfl
      (by simp [parser.switch_body, h0, h1, h2, hc, is_closed_abracket, is_slash]) (by simp)) ?_
  refine Reaches.accumulate
    (g := fun a => ⟨open_abracket__name__attrname, n, a, [], ps, false⟩)
    (P := is_name) ?_ cs [c] hcs
  intro a x hx
  have g0 := is_name_not_space hx
  have g1 : x ≠ '=' := is_name_ne hx (by decide)
  exact Reaches.single rfl (by simp [parser.switch_body, g0, g1, hx, is_assignment]) (by simp)

theorem reaches_attrequal (p : parser) (n k : std_string)
    (ps : List (std_string × std_string)) (ws : std_string) (h : all_space ws = true) :
    Reaches p ⟨open_abracket__name__attrname, n, k, [], ps, false⟩ (ws ++ ['='])
      ⟨open_abracket__name__attrequal, n, k, [], ps, false⟩ := by
  have heq : is_space '=' = false := by decide
  cases ws with
  | nil =>
    exact Reaches.single rfl (by simp [parser.switch_body, heq, is_assignment]) (by simp)
  | cons c cs =>
    simp only [all_space, List.all_cons, Bool.and_eq_true] at h
    have e1 : Reaches p ⟨open_abracket__name__attrname, n, k, [], ps, false⟩ [c]
        ⟨open_abracket__name__attrname__space, n, k, [], ps, false⟩ :=
      Reaches.single rfl (by simp [parser.switch_body, h.1]) (by simp)
    have e2 : Reaches p ⟨open_abracket__name__attrname__space, n, k, [], ps, false⟩ cs
        ⟨open_abracket__name__attrname__space, n, k, [], ps, false⟩ := by
      refine Reaches.loop (P := is_space) ?_ cs h.2
      intro x hx
      exact Reaches.single rfl (by simp [parser.switch_body, hx]) (by simp)
    have e3 : Reaches p ⟨open_abracket__name__attrname__space, n, k, [], ps, false⟩ ['=']
        ⟨open_abracket__name__attrequal, n, k, [], ps, false⟩ :=
      Reaches.single rfl
        (by simp [parser.switch_body, heq, is_assignment,
          (by decide : is_starting_name '=' = false)]) (by simp)
    exact Reaches.cons e1 (Reaches.trans e2 e3)

theorem reaches_dq (p : parser) (n k : std_string) (ps : List (std_string × std_string))
    (ws : std_string) (h : all_space ws = true) :
    Reaches p ⟨open_abracket__name__attrequal, n, k, [], ps, false⟩ (ws ++ ['"'])
      ⟨open_abracket__name__dq, n, k, [], ps, false⟩ := by
  have e1 : Reaches p ⟨open_abracket__name__attrequal, n, k, [], ps, false⟩ ws
      ⟨open_abracket__name__attrequal, n, k, [], ps, false⟩ := by
    refine Reaches.loop (P := is_space) ?_ ws h
    intro x hx
    exact Reaches.single rfl (by simp [parser.switch_body, hx]) (by simp)
  refine Reaches.trans e1 ?_
  exact Reaches.single rfl
    (by simp [parser.switch_body, is_double_quote, (by decide : is_space '"' = false)])
    (by simp)

theorem reaches_dq_value (p : parser) (hdq : p.allowing_weak_double_quote_coding = true)
    (n k : std_string) (ps : List (std_string × std_string)) (v : std_string)
    (h : v.all (fun c => !(c == '"')) = true) :
    Reaches p ⟨open_abracket__name__dq, n, k, [], ps, false⟩ (v ++ ['"'])
      ⟨open_abracket__name__attrend, n, k, v, ps, false⟩ := by
  have e1 : Reaches p ⟨open_abracket__name__dq, n, k, [], ps, false⟩ v
      ⟨open_abracket__name__dq, n, k, [] ++ v, ps, false⟩ := by
    refine Reaches.accumulate (g := fun a => ⟨open_abracket__name__dq, n, k, a, ps, false⟩)
      (P := fun c => !(c == '"')) ?_ v [] h
    intro a x hx
    simp only [Bool.not_eq_true', beq_eq_false_iff_ne, ne_eq] at hx
    exact Reaches.single rfl (by simp [parser.switch_body, is_double_quote, hx, hdq]) (by simp)
  rw [List.nil_append] at e1
  exact Reaches.trans e1
    (Reaches.single rfl (by simp [parser.switch_body, is_double_quote]) (by simp))

/-- One attribute (after the first character of its leading whitespace), read from state
`open_abracket__name__space`, leaves the loop in state `open_abracket__name__attrend` with the
key in `param2` and the value in `param3`. -/
theorem reaches_attribute (p : parser) (hdq : p.allowing_weak_double_quote_coding = true)
    (n : std_string) (ps : List (std_string × std_string)) (ws k ws2 ws3 v : std_string)
    (hws : all_space ws = true) (hk : valid_name k = true) (hws2 : all_space ws2 = true)
    (hws3 : all_space ws3 = true) (hv : v.all (fun c => !(c == '"')) = true) :
    Reaches p ⟨open_abracket__name__space, n, [], [], ps, false⟩
      (ws ++ k ++ ws2 ++ ['='] ++ ws3 ++ ['"'] ++ v ++ ['"'])
      ⟨open_abracket__name__attrend, n, k, v, ps, false⟩ := by
  have e := Reaches.trans (Reaches.trans (Reaches.trans (Reaches.trans
    (reaches_name_space p n ps ws hws) (reaches_attrname p n ps hk))
    (reaches_attrequal p n k ps ws2 hws2)) (reaches_dq p n k ps ws3 hws3))
    (reaches_dq_value p hdq n k ps v hv)
  simpa [List.append_assoc] using e


theorem well_formed_cases {a : attribute_source} (h : a.well_formed = true) :
    (∃ c cs, a.ws1 = c :: cs ∧ is_space c = true ∧ all_space cs = true) ∧
      valid_name a.key = true ∧ all_space a.ws2 = true ∧ all_space a.ws3 = true ∧
      a.value.all (fun c => !(c == '"')) = true := by
  simp only [attribute_source.well_formed, Bool.and_eq_true] at h
  obtain ⟨⟨⟨⟨⟨h1, h2⟩, h3⟩, h4⟩, h5⟩, h6⟩ := h
  refine ⟨?_, h3, h4, h5, h6⟩
  cases hw : a.ws1 with
  | nil => simp [hw] at h1
  | cons c cs =>
    rw [hw] at h2
    simp only [all_space, List.all_cons, Bool.and_eq_true] at h2
    exact ⟨c, cs, rfl, h2.1, h2.2⟩

/-- One whole attribute read from a state `u` in which a whitespace character leads to state
`open_abracket__name__space` with the attribute list `ps`. -/
theorem reaches_attribute_from (p : parser) (hdq : p.allowing_weak_double_quote_coding = true)
    (u : locals) (n : std_string) (ps : List (std_string × std_string))
    (hu : ∀ c, is_space c = true →
      Reaches p u [c] ⟨open_abracket__name__space, n, [], [], ps, false⟩)
    {a : attribute_source} (ha : a.well_formed = true) :
    Reaches p u a.render ⟨open_abracket__name__attrend, n, a.key, a.value, ps, false⟩ := by
  obtain ⟨⟨c, cs, hw, hc, hcs⟩, hk, h2, h3, hv⟩ := well_formed_cases ha
  have e := Reaches.cons (hu c hc)
    (reaches_attribute p hdq n ps cs a.key a.ws2 a.ws3 a.value hcs hk h2 h3 hv)
  simpa [attribute_source.render, hw, List.append_assoc] using e

theorem reaches_attrend_space (p : parser) (n k v : std_string)
    (ps : List (std_string × std_string)) (c : Char) (hc : is_space c = true) :
    Reaches p ⟨open_abracket__name__attrend, n, k, v, ps, false⟩ [c]
      ⟨open_abracket__name__space, n, [], [], ps ++ [(k, v)], false⟩ :=
  Reaches.single rfl (by simp [parser.switch_body, hc]) (by simp)

theorem reaches_name_to_space (p : parser) (n : std_string) (c : Char)
    (hc : is_space c = true) :
    Reaches p ⟨open_abracket__name, n, [], [], [], false⟩ [c]
      ⟨open_abracket__name__space, n, [], [], [], false⟩ :=
  Reaches.single rfl (by simp [parser.switch_body, hc]) (by simp)

/-- Further attributes read from state `open_abracket__name__attrend`: the loop is again in
that state, and the pending attribute closes the list of all attributes read so far. -/
theorem reaches_attributes_attrend (p : parser)
    (hdq : p.allowing_weak_double_quote_coding = true) (n : std_string) :
    ∀ (as : List attribute_source) (k v : std_string) (ps : List (std_string × std_string)),
      as.all attribute_source.well_formed = true →
      ∃ k1 v1 ps1,
        Reaches p ⟨open_abracket__name__attrend, n, k, v, ps, false⟩ (render_attributes as)
          ⟨open_abracket__name__attrend, n, k1, v1, ps1, false⟩ ∧
        ps1 ++ [(k1, v1)] = ps ++ (k, v) :: as.map attribute_source.pair
  | [], k, v, ps, _ => ⟨k, v, ps, Reaches.refl p _, by simp⟩
  | a :: as, k, v, ps, h => by
      simp only [List.all_cons, Bool.and_eq_true] at h
      obtain ⟨k1, v1, ps1, e, hps⟩ :=
        reaches_attributes_attrend p hdq n as a.key a.value (ps ++ [(k, v)]) h.2
      refine ⟨k1, v1, ps1, ?_, ?_⟩
      · exact Reaches.trans
          (reaches_attribute_from p hdq _ n (ps ++ [(k, v)])
            (reaches_attrend_space p n k v ps) h.1) e
      · simpa [attribute_source.pair] using hps

/-- A non-empty list of attributes read after the tag name. -/
theorem reaches_attributes_name (p : parser)
    (hdq : p.allowing_weak_double_quote_coding = true) (n : std_string)
    (a : attribute_source) (as : List attribute_source)
    (h : (a :: as).all attribute_source.well_formed = true) :
    ∃ k1 v1 ps1,
      Reaches p ⟨open_abracket__name, n, [], [], [], false⟩ (render_attributes (a :: as))
        ⟨open_abracket__name__attrend, n, k1, v1, ps1, false⟩ ∧
      ps1 ++ [(k1, v1)] = (a :: as).map attribute_source.pair := by
  simp only [List.all_cons, Bool.and_eq_true] at h
  obtain ⟨k1, v1, ps1, e, hps⟩ := reaches_attributes_attrend p hdq n as a.key a.value [] h.2
  refine ⟨k1, v1, ps1, ?_, ?_⟩
  · exact Reaches.trans
      (reaches_attribute_from p hdq _ n [] (reaches_name_to_space p n) h.1) e
  · simpa [attribute_source.pair] using hps

/-- The end `ws ++ ">"` of an opening tag, after the tag name. -/
theorem reaches_open_tag_name (p : parser) (n ws : std_string) (h : all_space ws = true) :
    Reaches p ⟨open_abracket__name, n, [], [], [], false⟩ (ws ++ ['>'])
      ⟨open_tag, n, [], [], [], false⟩ := by
  have hgt : is_space '>' = false := by decide
  cases ws with
  | nil =>
    exact Reaches.single rfl (by simp [parser.switch_body, hgt, is_closed_abracket]) (by simp)
  | cons c cs =>
    simp only [all_space, List.all_cons, Bool.and_eq_true] at h
    exact Reaches.cons (reaches_name_to_space p n c h.1)
      (Reaches.trans (reaches_name_space p n [] cs h.2)
        (Reaches.single rfl (by simp [parser.switch_body, hgt, is_closed_abracket]) (by simp)))

/-- The end `ws ++ ">"` of an opening tag, after an attribute value. -/
theorem reaches_open_tag_attrend (p : parser) (n k v : std_string)
    (ps : List (std_string × std_string)) (ws : std_string) (h : all_space ws = true) :
    Reaches p ⟨open_abracket__name__attrend, n, k, v, ps, false⟩ (ws ++ ['>'])
      ⟨open_tag, n, [], [], ps ++ [(k, v)], false⟩ := by
  have hgt : is_space '>' = false := by decide
  have hsl : is_slash '>' = false := by decide
  cases ws with
  | nil =>
    exact Reaches.single rfl
      (by simp [parser.switch_body, hgt, hsl, is_closed_abracket]) (by simp)
  | cons c cs =>
    simp only [all_space, List.all_cons, Bool.and_eq_true] at h
    exact Reaches.cons (reaches_attrend_space p n k v ps c h.1)
      (Reaches.trans (reaches_name_space p n _ cs h.2)
        (Reaches.single rfl (by simp [parser.switch_body, hgt, is_closed_abracket]) (by simp)))

/-- The end `"/>"` of an empty tag, after the tag name. -/
theorem reaches_empty_tag_name (p : parser) (n : std_string) :
    Reaches p ⟨open_abracket__name, n, [], [], [], false⟩ ['/', '>']
      ⟨empty_tag, n, [], [], [], false⟩ :=
  Reaches.cons (v := ⟨open_abracket__name__slash, n, [], [], [], false⟩)
    (Reaches.single rfl
      (by simp [parser.switch_body, is_slash, is_closed_abracket,
        (by decide : is_space '/' = false)]) (by simp))
    (Reaches.single rfl (by simp [parser.switch_body, is_closed_abracket]) (by simp))

/-- The end `"/>"` of an empty tag, after an attribute value. -/
theorem reaches_empty_tag_attrend (p : parser) (n k v : std_string)
    (ps : List (std_string × std_string)) :
    Reaches p ⟨open_abracket__name__attrend, n, k, v, ps, false⟩ ['/', '>']
      ⟨empty_tag, n, [], [], ps ++ [(k, v)], false⟩ :=
  Reaches.cons (v := ⟨open_abracket__name__slash, n, [], [], ps ++ [(k, v)], false⟩)
    (Reaches.single rfl
      (by simp [parser.switch_body, is_slash, (by decide : is_space '/' = false)]) (by simp))
    (Reaches.single rfl (by simp [parser.switch_body, is_closed_abracket]) (by simp))

/-- An opening tag with double-quoted attributes, for any configuration that has
`allow_weak_double_quote_coding` set. -/
theorem reaches_open_tag (p : parser) (hdq : p.allowing_weak_double_quote_coding = true)
    (n : std_string) (as : List attribute_source) (ws : std_string)
    (hn : valid_name n = true) (has : as.all attribute_source.well_formed = true)
    (hws : all_space ws = true) :
    Reaches p initial_locals ('<' :: (n ++ render_attributes as ++ ws ++ ['>']))
      ⟨open_tag, n, [], [], as.map attribute_source.pair, false⟩ := by
  cases as with
  | nil =>
    have e := Reaches.trans (reaches_tag_name p hn) (reaches_open_tag_name p n ws hws)
    simpa [render_attributes] using e
  | cons a as =>
    obtain ⟨k1, v1, ps1, e, hps⟩ := reaches_attributes_name p hdq n a as has
    have e2 := Reaches.trans (Reaches.trans (reaches_tag_name p hn) e)
      (reaches_open_tag_attrend p n k1 v1 ps1 ws hws)
    rw [hps] at e2
    simpa [List.append_assoc] using e2

/-- An empty tag with double-quoted attributes, for any configuration that has
`allow_weak_double_quote_coding` set. -/
theorem reaches_empty_tag (p : parser) (hdq : p.allowing_weak_double_quote_coding = true)
    (n : std_string) (as : List attribute_source)
    (hn : valid_name n = true) (has : as.all attribute_source.well_formed = true) :
    Reaches p initial_locals ('<' :: (n ++ render_attributes as ++ ['/', '>']))
      ⟨empty_tag, n, [], [], as.map attribute_source.pair, false⟩ := by
  cases as with
  | nil =>
    have e := Reaches.trans (reaches_tag_name p hn) (reaches_empty_tag_name p n)
    simpa [render_attributes] using e
  | cons a as =>
    obtain ⟨k1, v1, ps1, e, hps⟩ := reaches_attributes_name p hdq n a as has
    have e2 := Reaches.trans (Reaches.trans (reaches_tag_name p hn) e)
      (reaches_empty_tag_attrend p n k1 v1 ps1)
    rw [hps] at e2
    simpa [List.append_assoc] using e2

/-- Claim C2. Open-tag round trip: under the default configuration, for every valid name `n`, every
list of double-quoted attributes (non-empty leading whitespace, valid key, optional whitespace
around `'='`, value without `'"'`), every whitespace run `ws` and every rest `r`, parsing
`"<" ++ n ++ attributes ++ ws ++ ">" ++ r` returns `OpenTag{name = n, attributes}` with the
pairs in source order (duplicates kept) and the cursor immediately after the `'>'`. -/
theorem C2_open_tag_round_trip (n : std_string) (as : List attribute_source)
    (ws r : std_string) (line column : Nat)
    (hn : valid_name n = true) (has : as.all attribute_source.well_formed = true)
    (hws : all_space ws = true) :
    ({} : parser).parse ('<' :: (n ++ render_attributes as ++ ws ++ ['>']) ++ r) line column =
      some ⟨('<' :: (n ++ render_attributes as ++ ws ++ ['>'])).length,
        tag_token.open_tag n (as.map attribute_source.pair),
        (advance (line, column) ('<' :: (n ++ render_attributes as ++ ws ++ ['>']))).1,
        (advance (line, column) ('<' :: (n ++ render_attributes as ++ ws ++ ['>']))).2⟩ := by
  have := parse_of_reaches (reaches_open_tag {} rfl n as ws hn has hws) rfl r line column
  rw [this]
  simp [parser.select_result]

/-- Claim C6. Empty tag: under the default configuration, for every valid name `n`, every list of
double-quoted attributes as in the open-tag round trip and every rest `r`, parsing
`"<" ++ n ++ attributes ++ "/>" ++ r` returns `EmptyTag{name = n, attributes}` with the pairs in
source order and the cursor immediately after the `'>'`. -/
theorem C6_empty_tag (n : std_string) (as : List attribute_source) (r : std_string)
    (line column : Nat)
    (hn : valid_name n = true) (has : as.all attribute_source.well_formed = true) :
    ({} : parser).parse ('<' :: (n ++ render_attributes as ++ ['/', '>']) ++ r) line column =
      some ⟨('<' :: (n ++ render_attributes as ++ ['/', '>'])).length,
        tag_token.empty_tag n (as.map attribute_source.pair),
        (advance (line, column) ('<' :: (n ++ render_attributes as ++ ['/', '>']))).1,
        (advance (line, column) ('<' :: (n ++ render_attributes as ++ ['/', '>']))).2⟩ := by
  have := parse_of_reaches (reaches_empty_tag {} rfl n as hn has) rfl r line column
  rw [this]
  simp [parser.select_result]

/-! ## Witnesses and the code at the inputs where it departs from the claims -/

/-- Claim C2 at `<a b="1"` newline ` b = "x<y" >zz`: two attributes with the same key, kept in
source order; the cursor 21 is just after the `'>'`. -/
theorem C2_open_tag_round_trip_witness :
    (valid_name "a".toList = true ∧
      [(⟨" ".toList, "b".toList, [], [], "1".toList⟩ : attribute_source),
        ⟨"\n ".toList, "b".toList, " ".toList, " ".toList, "x<y".toList⟩].all
          attribute_source.well_formed = true ∧
      all_space " ".toList = true) ∧
    ({} : parser).parse "<a b=\"1\"\n b = \"x<y\" >zz".toList 1 0 =
      some ⟨21, tag_token.open_tag "a".toList
        [("b".toList, "1".toList), ("b".toList, "x<y".toList)], 2, 12⟩ :=
  ⟨⟨by decide, by decide, by decide⟩,
    (C2_open_tag_round_trip "a".toList
      [⟨" ".toList, "b".toList, [], [], "1".toList⟩,
        ⟨"\n ".toList, "b".toList, " ".toList, " ".toList, "x<y".toList⟩]
      " ".toList "zz".toList 1 0 (by decide) (by decide) (by decide)).trans (by decide)⟩

/-- Claim C6 at `"<a/>"` (no attribute) and at `<br x="1"/>zz`. -/
theorem C6_empty_tag_witness :
    (valid_name "a".toList = true ∧ valid_name "br".toList = true ∧
      [(⟨" ".toList, "x".toList, [], [], "1".toList⟩ : attribute_source)].all
        attribute_source.well_formed = true) ∧
    ({} : parser).parse "<a/>".toList 1 0 =
      some ⟨4, tag_token.empty_tag "a".toList [], 1, 4⟩ ∧
    ({} : parser).parse "<br x=\"1\"/>zz".toList 1 0 =
      some ⟨11, tag_token.empty_tag "br".toList [("x".toList, "1".toList)], 1, 11⟩ :=
  ⟨⟨by decide, by decide, by decide⟩,
    (C6_empty_tag "a".toList [] [] 1 0 (by decide) (by decide)).trans (by decide),
    (C6_empty_tag "br".toList [⟨" ".toList, "x".toList, [], [], "1".toList⟩] "zz".toList 1 0
      (by decide) (by decide)).trans (by decide)⟩

/-- Claim C3, the code at the claim's own example and at two further value-less attributes:
`<a b="1" c>` comes back as a closing tag with an empty name (the tag name was moved into the
attribute list in place of the attribute name `c`); `<a c/>` and `<a c d>` lose the tag name
in the same way. -/
theorem C3_valueless_attribute_code :
    ({} : parser).parse "<a b=\"1\" c>".toList 1 0 =
      some ⟨11, tag_token.closing_tag [], 1, 11⟩ ∧
    ({} : parser).parse "<a c/>".toList 1 0 =
      some ⟨6, tag_token.empty_tag [] [("a".toList, [])], 1, 6⟩ ∧
    ({} : parser).parse "<a c d>".toList 1 0 =
      some ⟨7, tag_token.closing_tag [], 1, 7⟩ := by
  refine ⟨by decide, by decide, by decide⟩

/-- Claim C5, the code on two whitespace characters before the `'>'`: `"</a  >"` is rejected
at the second space with the diagnostic of state `open_abracket__slash__name__space`, while one
whitespace character is accepted. -/
theorem C5_closing_tag_whitespace_code :
    ({} : parser).parse "</a  >".toList 1 0 =
      some ⟨5, tag_token.unknown_tag
        "expecting some space or closing angle bracket! at 1,5".toList, 1, 5⟩ ∧
    ({} : parser).parse "</a >".toList 1 0 =
      some ⟨5, tag_token.closing_tag "a".toList, 1, 5⟩ := by
  refine ⟨by decide, by decide⟩

/-- Claim C7, the code at the claim's own example: `"<!--x--y-->"` comes back as the comment
`"x-y"` (one of the two buffered dashes is lost); and on `"<!--x--->"` the terminator after
`"x-"` is not seen, the call ends as incomplete. -/
theorem C7_comment_code :
    ({} : parser).parse "<!--x--y-->".toList 1 0 =
      some ⟨11, tag_token.comment "x-y".toList, 1, 11⟩ ∧
    ({} : parser).parse "<!--x--->".toList 1 0 =
      some ⟨0, tag_token.unknown_tag incomplete_message, 1, 9⟩ := by
  refine ⟨by decide, by decide⟩

/-- Claim C8, the code on a `']'` right before the terminator: on `"<![CDATA[a]]]>"` the
terminator `"]]>"` after `"a]"` is not seen and the call ends as incomplete; on
`"<![CDATA[a]]]>b]]>"` the token is `CData "a]]]>b"` with the cursor 18 instead of
`CData "a]"` with the cursor 14. The claim's own example gives `CData "a]]b"`. -/
theorem C8_cdata_code :
    ({} : parser).parse "<![CDATA[a]]]>".toList 1 0 =
      some ⟨0, tag_token.unknown_tag incomplete_message, 1, 14⟩ ∧
    ({} : parser).parse "<![CDATA[a]]]>b]]>".toList 1 0 =
      some ⟨18, tag_token.cdata "a]]]>b".toList, 1, 18⟩ ∧
    ({} : parser).parse "<![CDATA[a]]b]]>".toList 1 0 =
      some ⟨16, tag_token.cdata "a]]b".toList, 1, 16⟩ := by
  refine ⟨by decide, by decide, by decide⟩

/-- Claim C9, the code on a body that ends in `'?'`: on `"<?a x??>"` (target `a`, body
`"x?"`) the terminator is not seen and the call ends as incomplete; on `"<?a x??>?>"` the
token is the processing instruction with body `"x??>"` and the cursor 10 instead of body
`"x?"` and the cursor 8. A body without a trailing `'?'` is returned as the claim says. -/
theorem C9_processing_instruction_code :
    ({} : parser).parse "<?a x??>".toList 1 0 =
      some ⟨0, tag_token.unknown_tag incomplete_message, 1, 8⟩ ∧
    ({} : parser).parse "<?a x??>?>".toList 1 0 =
      some ⟨10, tag_token.pi "a".toList "x??>".toList, 1, 10⟩ ∧
    ({} : parser).parse "<?a x?y?>z".toList 1 0 =
      some ⟨9, tag_token.pi "a".toList "x?y".toList, 1, 9⟩ := by
  refine ⟨by decide, by decide, by decide⟩

/-! ## The loop on arbitrary input -/

/-- The loop on `s ++ rest` is the loop on `s` continued on `rest`. -/
theorem parse_loop_append (p : parser) :
    ∀ (s : List Char) (v : locals) (iter line column : Nat) (rest : List Char),
      p.parse_loop v iter line column (s ++ rest) =
        (p.parse_loop v iter line column s).bind
          (fun x => p.parse_loop x.1 x.2.1 x.2.2.1 x.2.2.2 rest)
  | [], v, iter, line, column, rest => by simp [parser.parse_loop]
  | c :: cs, v, iter, line, column, rest => by
      cases hstop : (is_accepting_state v.state || v.error) with
      | true =>
        rw [List.cons_append, parse_loop_stop p v iter line column _ hstop,
          parse_loop_stop p v iter line column _ hstop]
        simp [parse_loop_stop p v iter line column rest hstop]
      | false =>
        cases hw : p.switch_body v c with
        | none => simp [parser.parse_loop, hstop, hw]
        | some w =>
          rw [List.cons_append, parse_loop_cons p v w iter line column c _ hstop hw,
            parse_loop_cons p v w iter line column c _ hstop hw]
          exact parse_loop_append p cs w _ _ _ rest

/-- What the loop has done when it is left: it has run on the first `k` characters, the
counters have advanced over exactly these, the iterator has advanced by `k` (unless the loop
was left in state `text`), and `k` is the whole input unless the loop stopped. -/
theorem parse_loop_trace (p : parser) :
    ∀ (input : List Char) (v w : locals) (iter line column it l1 c1 : Nat),
      p.parse_loop v iter line column input = some (w, it, l1, c1) →
      ∃ k, k ≤ input.length ∧ (l1, c1) = advance (line, column) (input.take k) ∧
        it ≤ iter + k ∧ (w.state ≠ text → it = iter + k) ∧
        ((is_accepting_state w.state || w.error) = false → k = input.length)
  | [], v, w, iter, line, column, it, l1, c1, h => by
      simp only [parser.parse_loop, Option.some.injEq, Prod.mk.injEq] at h
      obtain ⟨rfl, rfl, rfl, rfl⟩ := h
      exact ⟨0, by simp [advance]⟩
  | c :: cs, v, w, iter, line, column, it, l1, c1, h => by
      cases hstop : (is_accepting_state v.state || v.error) with
      | true =>
        rw [parse_loop_stop p v iter line column _ hstop] at h
        simp only [Option.some.injEq, Prod.mk.injEq] at h
        obtain ⟨rfl, rfl, rfl, rfl⟩ := h
        exact ⟨0, by simp [advance, hstop]⟩
      | false =>
        cases hw : p.switch_body v c with
        | none => simp [parser.parse_loop, hstop, hw] at h
        | some u =>
          rw [parse_loop_cons p v u iter line column c _ hstop hw] at h
          obtain ⟨k, hk, hadv, hle, heq, hall⟩ := parse_loop_trace p cs u w _ _ _ it l1 c1 h
          refine ⟨k + 1, by simpa using hk, ?_, ?_, ?_, ?_⟩
          · simpa [advance_cons] using hadv
          · by_cases ht : u.state = text
            · rw [if_pos ht] at hle; omega
            · rw [if_neg ht] at hle; omega
          · intro hwt
            by_cases ht : u.state = text
            · have hu : (is_accepting_state u.state || u.error) = true := by
                simp [ht, is_accepting_state]
              rw [parse_loop_stop p u _ _ _ cs hu] at h
              simp only [Option.some.injEq, Prod.mk.injEq] at h
              exact absurd (h.1 ▸ ht) hwt
            · rw [if_neg ht] at heq
              have := heq hwt
              omega
          · intro hns
            simpa using hall hns

/-- The local variables and the iterator do not depend on the counters. -/
theorem parse_loop_counters (p : parser) :
    ∀ (input : List Char) (v : locals) (iter line column line2 column2 : Nat),
      (p.parse_loop v iter line column input).map (fun x => (x.1, x.2.1)) =
        (p.parse_loop v iter line2 column2 input).map (fun x => (x.1, x.2.1))
  | [], v, iter, line, column, line2, column2 => by simp [parser.parse_loop]
  | c :: cs, v, iter, line, column, line2, column2 => by
      cases hstop : (is_accepting_state v.state || v.error) with
      | true =>
        rw [parse_loop_stop p v iter line column _ hstop,
          parse_loop_stop p v iter line2 column2 _ hstop]
        rfl
      | false =>
        cases hw : p.switch_body v c with
        | none => simp [parser.parse_loop, hstop, hw]
        | some u =>
          rw [parse_loop_cons p v u iter line column c _ hstop hw,
            parse_loop_cons p v u iter line2 column2 c _ hstop hw]
          exact parse_loop_counters p cs u _ _ _ _ _
/-! ## Facts on the switch, state by state -/

/-- Markup states are closed under the switch. -/
theorem switch_body_markup (p : parser) (v w : locals) (c : Char)
    (hm : markup_state v.state = true) (h : p.switch_body v c = some w) :
    markup_state w.state = true := by
  obtain ⟨st, p1, p2, p3, ps, e⟩ := v
  cases st <;> simp only [parser.switch_body] at h <;> (repeat' split at h) <;> cases h <;>
    first
    | rfl
    | exact hm

/-- A round that sets `error` leaves the state as it is, and that state has a diagnostic. -/
theorem switch_body_error (p : parser) (v w : locals) (c : Char)
    (hv : v.error = false) (h : p.switch_body v c = some w) (he : w.error = true) :
    w.state = v.state ∧ ∃ msg, formulate_error v.state = some msg := by
  obtain ⟨st, p1, p2, p3, ps, e⟩ := v
  simp only at hv
  subst hv
  cases st <;> simp only [parser.switch_body] at h <;> (repeat' split at h) <;> cases h <;>
    first
    | (simp at he; done)
    | exact ⟨rfl, _, rfl⟩
/-- A round without error is the same under a configuration that has the same skip flags and at
least the same tolerance flags. -/
theorem switch_body_mono (p q : parser) (v w : locals) (c : Char)
    (h1 : p.skipping_text = q.skipping_text) (h2 : p.skipping_cdata = q.skipping_cdata)
    (h3 : p.skipping_comment = q.skipping_comment) (h4 : p.skipping_pi = q.skipping_pi)
    (h5 : p.allowing_weak_double_quote_coding = true →
      q.allowing_weak_double_quote_coding = true)
    (h6 : p.allowing_weak_single_quote_coding = true →
      q.allowing_weak_single_quote_coding = true)
    (h7 : p.allowing_unquoted_attribute_value = true →
      q.allowing_unquoted_attribute_value = true)
    (h8 : p.allowing_concated_attribute = true → q.allowing_concated_attribute = true)
    (hv : v.error = false) (h : p.switch_body v c = some w) (he : w.error = false) :
    q.switch_body v c = some w := by
  obtain ⟨st, p1, p2, p3, ps, e⟩ := v
  obtain ⟨a1, a2, a3, a4, a5, a6, a7, a8, a9, a10⟩ := p
  obtain ⟨b1, b2, b3, b4, b5, b6, b7, b8, b9, b10⟩ := q
  simp only at hv h1 h2 h3 h4 h5 h6 h7 h8
  subst hv h1 h2 h3 h4
  cases st <;> simp only [parser.switch_body, is_char, Bool.true_or, if_true] at h ⊢ <;>
    first
    | exact h
    | (repeat' split at h) <;> cases h <;>
        first
        | (simp at he; done)
        | (simp_all; done)
        | (simp_all
           intro hx
           simp_all)
/-! ## Facts on the result selection -/

theorem select_result_error (v : locals) (it l c : Nat) (he : v.error = true) :
    parser.select_result v it l c =
      (formulate_error v.state).map (fun msg =>
        (⟨it, tag_token.unknown_tag
          (msg ++ " at ".toList ++ to_string l ++ ",".toList ++ to_string c), l, c⟩ :
            parse_result)) := by
  unfold parser.select_result
  rw [if_pos he]
  cases formulate_error v.state <;> rfl

theorem select_result_incomplete (v : locals) (it l c : Nat) (he : v.error = false)
    (ha : is_accepting_state v.state = false) (hm : markup_state v.state = true) :
    parser.select_result v it l c =
      some ⟨0, tag_token.unknown_tag incomplete_message, l, c⟩ := by
  obtain ⟨st, p1, p2, p3, ps, e⟩ := v
  simp only at he ha hm
  subst he
  cases st <;> first
    | rfl
    | exact False.elim (Bool.false_ne_true hm)
    | exact False.elim (Bool.false_ne_true ha.symm)

theorem select_result_accepting (v : locals) (it l c : Nat) (he : v.error = false)
    (ha : is_accepting_state v.state = true) :
    ∃ tok, parser.select_result v it l c = some ⟨it, tok, l, c⟩ ∧
      is_unknown_token tok = false := by
  obtain ⟨st, p1, p2, p3, ps, e⟩ := v
  simp only at he ha
  subst he
  cases st <;> first
    | exact ⟨_, rfl, rfl⟩
    | exact False.elim (Bool.false_ne_true ha)

theorem select_result_markup_token (v : locals) (it l c : Nat) (res : parse_result)
    (h : parser.select_result v it l c = some res) (hm : is_markup_token res.token = true) :
    v.error = false ∧ v.state ≠ text ∧ res.iter = it ∧ res.line = l ∧ res.column = c := by
  obtain ⟨st, p1, p2, p3, ps, e⟩ := v
  cases e with
  | true =>
    rw [select_result_error _ _ _ _ rfl] at h
    cases hf : formulate_error st with
    | none => simp [hf] at h
    | some msg =>
      simp only [hf, Option.map_some', Option.some.injEq] at h
      subst h
      simp [is_markup_token] at hm
  | false =>
    cases st <;> simp only [parser.select_result] at h <;> simp at h <;> subst h <;>
      first
      | (simp [is_markup_token] at hm; done)
      | simp

theorem select_result_not_unknown (v : locals) (it l c : Nat) (res : parse_result)
    (h : parser.select_result v it l c = some res) (hu : is_unknown_token res.token = false) :
    v.error = false ∧ res.line = l ∧ res.column = c ∧
      ∀ l2 c2, parser.select_result v it l2 c2 = some ⟨res.iter, res.token, l2, c2⟩ := by
  obtain ⟨st, p1, p2, p3, ps, e⟩ := v
  cases e with
  | true =>
    rw [select_result_error _ _ _ _ rfl] at h
    cases hf : formulate_error st with
    | none => simp [hf] at h
    | some msg =>
      simp only [hf, Option.map_some', Option.some.injEq] at h
      subst h
      simp [is_unknown_token] at hu
  | false =>
    cases st <;> simp only [parser.select_result] at h <;> simp at h <;> subst h <;>
      first
      | (simp [is_unknown_token] at hu; done)
      | simp [parser.select_result]

/-! ## Position tracking -/

/-- Claim C17. Position tracking for markup tokens: whenever `parse` returns an OpenTag,
ClosingTag, EmptyTag, Comment, CData, ProcessingInstruction or Doctype token, the returned
cursor lies within the input and the counters after the call are the counters on entry advanced
(newline: column 0 and next line; otherwise next column) over exactly the characters between
the start position and the returned cursor. -/
theorem C17_position_tracking (p : parser) (input : List Char) (line column : Nat)
    (res : parse_result) (h : p.parse input line column = some res)
    (hm : is_markup_token res.token = true) :
    res.iter ≤ input.length ∧
      (res.line, res.column) = advance (line, column) (input.take res.iter) := by
  unfold parser.parse at h
  cases hl : p.parse_loop initial_locals 0 line column input with
  | none => simp [hl] at h
  | some x =>
    obtain ⟨w, it, l1, c1⟩ := x
    simp only [hl] at h
    obtain ⟨_, hwt, hit, hline, hcol⟩ := select_result_markup_token w it l1 c1 res h hm
    obtain ⟨k, hk, hadv, _, heq, _⟩ := parse_loop_trace p input _ w 0 line column it l1 c1 hl
    have hitk : it = k := by simpa using heq hwt
    subst hitk
    rw [hit, hline, hcol]
    exact ⟨hk, hadv⟩

/-- Claim C17 at `<a x="1">` followed by `zz`, entered at line 3, column 7. -/
theorem C17_position_tracking_witness :
    (({} : parser).parse "<a\nx=\"1\">zz".toList 3 7 =
        some ⟨9, tag_token.open_tag "a".toList [("x".toList, "1".toList)], 4, 6⟩ ∧
      is_markup_token (tag_token.open_tag "a".toList [("x".toList, "1".toList)]) = true) ∧
    ((9 : Nat) ≤ "<a\nx=\"1\">zz".toList.length ∧
      ((4 : Nat), (6 : Nat)) = advance (3, 7) ("<a\nx=\"1\">zz".toList.take 9)) :=
  ⟨⟨by decide, by decide⟩,
    C17_position_tracking {} "<a\nx=\"1\">zz".toList 3 7
      ⟨9, tag_token.open_tag "a".toList [("x".toList, "1".toList)], 4, 6⟩
      (by decide) (by decide)⟩

/-! ## Tolerance flags -/

theorem parse_loop_mono (p q : parser)
    (h1 : p.skipping_text = q.skipping_text) (h2 : p.skipping_cdata = q.skipping_cdata)
    (h3 : p.skipping_comment = q.skipping_comment) (h4 : p.skipping_pi = q.skipping_pi)
    (h5 : p.allowing_weak_double_quote_coding = true →
      q.allowing_weak_double_quote_coding = true)
    (h6 : p.allowing_weak_single_quote_coding = true →
      q.allowing_weak_single_quote_coding = true)
    (h7 : p.allowing_unquoted_attribute_value = true →
      q.allowing_unquoted_attribute_value = true)
    (h8 : p.allowing_concated_attribute = true → q.allowing_concated_attribute = true) :
    ∀ (input : List Char) (v w : locals) (iter line column it l1 c1 : Nat),
      v.error = false →
      p.parse_loop v iter line column input = some (w, it, l1, c1) → w.error = false →
      q.parse_loop v iter line column input = some (w, it, l1, c1)
  | [], v, w, iter, line, column, it, l1, c1, _, h, _ => by
      simpa [parser.parse_loop] using h
  | c :: cs, v, w, iter, line, column, it, l1, c1, hv, h, he => by
      cases hstop : (is_accepting_state v.state || v.error) with
      | true =>
        rw [parse_loop_stop p v iter line column _ hstop] at h
        rw [parse_loop_stop q v iter line column _ hstop]
        exact h
      | false =>
        cases hw : p.switch_body v c with
        | none => simp [parser.parse_loop, hstop, hw] at h
        | some u =>
          rw [parse_loop_cons p v u iter line column c _ hstop hw] at h
          cases hue : u.error with
          | true =>
            rw [parse_loop_stop p u _ _ _ cs (by simp [hue])] at h
            simp only [Option.some.injEq, Prod.mk.injEq] at h
            rw [← h.1, hue] at he
            exact absurd he (by simp)
          | false =>
            have hq := switch_body_mono p q v u c h1 h2 h3 h4 h5 h6 h7 h8 hv hw hue
            rw [parse_loop_cons q v u iter line column c _ hstop hq]
            exact parse_loop_mono p q h1 h2 h3 h4 h5 h6 h7 h8 cs u w _ _ _ it l1 c1 hue h he

/-- Claim C20. Tolerance monotonicity: for every input and every two configurations `p`, `q`
with identical skip flags where every tolerance flag set in `p` is also set in `q`: if `parse`
under `p` returns a token other than Unknown, then `parse` under `q` returns the same result
(the identical token, the same cursor, and the same counters). -/
theorem C20_tolerance_monotonicity (p q : parser) (input : List Char) (line column : Nat)
    (res : parse_result)
    (h1 : p.skipping_text = q.skipping_text) (h2 : p.skipping_cdata = q.skipping_cdata)
    (h3 : p.skipping_comment = q.skipping_comment) (h4 : p.skipping_pi = q.skipping_pi)
    (_h9 : p.allowing_weak_comment_coding = true → q.allowing_weak_comment_coding = true)
    (_h10 : p.allowing_weak_pi_coding = true → q.allowing_weak_pi_coding = true)
    (h5 : p.allowing_weak_double_quote_coding = true →
      q.allowing_weak_double_quote_coding = true)
    (h6 : p.allowing_weak_single_quote_coding = true →
      q.allowing_weak_single_quote_coding = true)
    (h7 : p.allowing_unquoted_attribute_value = true →
      q.allowing_unquoted_attribute_value = true)
    (h8 : p.allowing_concated_attribute = true → q.allowing_concated_attribute = true)
    (h : p.parse input line column = some res) (hu : is_unknown_token res.token = false) :
    q.parse input line column = some res := by
  unfold parser.parse at h ⊢
  cases hl : p.parse_loop initial_locals 0 line column input with
  | none => simp [hl] at h
  | some x =>
    obtain ⟨w, it, l1, c1⟩ := x
    simp only [hl] at h
    have he := (select_result_not_unknown w it l1 c1 res h hu).1
    rw [parse_loop_mono p q h1 h2 h3 h4 h5 h6 h7 h8 input _ w 0 line column it l1 c1 rfl hl he]
    exact h

/-- Claim C20 at `<a x=1 y="<">`: accepted with all tolerance flags but
`allow_unquoted_attribute_value` and `allow_weak_double_quote_coding` off, and the same result
with all of them on. -/
theorem C20_tolerance_monotonicity_witness :
    (({ allowing_weak_comment_coding := false, allowing_weak_pi_coding := false,
        allowing_weak_single_quote_coding := false,
        allowing_concated_attribute := false } : parser).parse
        "<a x=1 y=\"<\">".toList 1 0 =
      some ⟨13, tag_token.open_tag "a".toList
        [("x".toList, "1".toList), ("y".toList, "<".toList)], 1, 13⟩) ∧
    ({} : parser).parse "<a x=1 y=\"<\">".toList 1 0 =
      some ⟨13, tag_token.open_tag "a".toList
        [("x".toList, "1".toList), ("y".toList, "<".toList)], 1, 13⟩ :=
  ⟨by decide,
    C20_tolerance_monotonicity
      { allowing_weak_comment_coding := false, allowing_weak_pi_coding := false,
        allowing_weak_single_quote_coding := false, allowing_concated_attribute := false }
      {} "<a x=1 y=\"<\">".toList 1 0 _ rfl rfl rfl rfl (by decide) (by decide) (by decide)
      (by decide) (by decide) (by decide) (by decide) (by decide)⟩
/-! ## Truncated input -/

theorem parse_loop_markup (p : parser) :
    ∀ (input : List Char) (v w : locals) (iter line column it l1 c1 : Nat),
      markup_state v.state = true →
      p.parse_loop v iter line column input = some (w, it, l1, c1) →
      markup_state w.state = true
  | [], v, w, iter, line, column, it, l1, c1, hm, h => by
      simp only [parser.parse_loop, Option.some.injEq, Prod.mk.injEq] at h
      rw [← h.1]
      exact hm
  | c :: cs, v, w, iter, line, column, it, l1, c1, hm, h => by
      cases hstop : (is_accepting_state v.state || v.error) with
      | true =>
        rw [parse_loop_stop p v iter line column _ hstop] at h
        simp only [Option.some.injEq, Prod.mk.injEq] at h
        rw [← h.1]
        exact hm
      | false =>
        cases hw : p.switch_body v c with
        | none => simp [parser.parse_loop, hstop, hw] at h
        | some u =>
          rw [parse_loop_cons p v u iter line column c _ hstop hw] at h
          exact parse_loop_markup p cs u w _ _ _ it l1 c1 (switch_body_markup p v u c hm hw) h

/-- On an input that starts with `'<'` the loop is left in a markup state. -/
theorem parse_loop_markup_of_open (p : parser) (s : List Char) (w : locals)
    (line column it l1 c1 : Nat)
    (h : p.parse_loop initial_locals 0 line column ('<' :: s) = some (w, it, l1, c1)) :
    markup_state w.state = true := by
  have e := reaches_open_abracket p 0 line column s
  rw [List.singleton_append] at e
  rw [e] at h
  exact parse_loop_markup p s ⟨open_abracket, [], [], [], [], false⟩ w _ _ _ it l1 c1 rfl h

/-- The cursor and the token of a result that is not an Unknown token do not depend on the
counters on entry. -/
theorem parse_counters (p : parser) (input : List Char) (line column : Nat)
    (res : parse_result) (h : p.parse input line column = some res)
    (hu : is_unknown_token res.token = false) (l c : Nat) :
    cursor_and_token (p.parse input l c) = some (res.iter, res.token) := by
  unfold parser.parse at h ⊢
  cases hl : p.parse_loop initial_locals 0 line column input with
  | none => simp [hl] at h
  | some x =>
    obtain ⟨w, it, l1, c1⟩ := x
    simp only [hl] at h
    have hc := parse_loop_counters p input initial_locals 0 line column l c
    rw [hl] at hc
    cases hl2 : p.parse_loop initial_locals 0 l c input with
    | none => simp [hl2] at hc
    | some y =>
      obtain ⟨w2, it2, l2, c2⟩ := y
      simp only [hl2, Option.map_some', Option.some.injEq, Prod.mk.injEq] at hc
      obtain ⟨rfl, rfl⟩ := hc
      simp only [(select_result_not_unknown _ _ l1 c1 res h hu).2.2.2 l2 c2]
      rfl

theorem truncation_core (p : parser) (pre suf : List Char) (line column : Nat)
    (res : parse_result) (hpre : pre ≠ []) (hsuf : suf ≠ [])
    (hlt : (pre ++ suf).head? = some '<')
    (h : p.parse (pre ++ suf) line column = some res)
    (hu : is_unknown_token res.token = false) (hend : res.iter = (pre ++ suf).length) :
    cursor_and_token (p.parse pre line column) =
      some (0, tag_token.unknown_tag incomplete_message) := by
  obtain ⟨c0, s, rfl⟩ := List.exists_cons_of_ne_nil hpre
  simp only [List.cons_append, List.head?_cons, Option.some.injEq] at hlt
  subst hlt
  unfold parser.parse at h ⊢
  rw [parse_loop_append] at h
  cases hl : p.parse_loop initial_locals 0 line column ('<' :: s) with
  | none => simp [hl] at h
  | some x =>
    obtain ⟨u, it, l1, c1⟩ := x
    simp only [hl, Option.some_bind] at h
    obtain ⟨k, hk, _, hle, _, _⟩ := parse_loop_trace p _ _ u 0 line column it l1 c1 hl
    have hm := parse_loop_markup_of_open p s u line column it l1 c1 hl
    have hlen : it < (('<' :: s) ++ suf).length := by
      have : 0 < suf.length := List.length_pos.mpr hsuf
      simp only [List.length_append]
      omega
    cases hstop : (is_accepting_state u.state || u.error) with
    | true =>
      rw [parse_loop_stop p u it l1 c1 suf hstop] at h
      simp only at h
      have he := (select_result_not_unknown u it l1 c1 res h hu).1
      have ha : is_accepting_state u.state = true := by simpa [he] using hstop
      obtain ⟨tok, ht, _⟩ := select_result_accepting u it l1 c1 he ha
      rw [ht] at h
      simp only [Option.some.injEq] at h
      subst h
      simp only at hend
      omega
    | false =>
      simp only [Bool.or_eq_false_iff] at hstop
      simp only [select_result_incomplete u it l1 c1 hstop.2 hstop.1 hm]
      rfl

/-- Claim C14. Truncation of markup tokens: for every configuration and every input
`S = pre ++ suf` that begins with `'<'` and on which `parse` returns a token other than Unknown
with the cursor at the end of `S`, parsing the proper non-empty prefix `pre` returns the start
position (offset 0) and the incomplete Unknown token, and parsing `pre` extended by `suf`
returns the same token and cursor as the one-shot call, whatever the counters on entry. -/
theorem C14_truncation (p : parser) (pre suf : List Char) (line column : Nat)
    (res : parse_result) (hpre : pre ≠ []) (hsuf : suf ≠ [])
    (hlt : (pre ++ suf).head? = some '<')
    (h : p.parse (pre ++ suf) line column = some res)
    (hu : is_unknown_token res.token = false) (hend : res.iter = (pre ++ suf).length) :
    (∀ l c : Nat, cursor_and_token (p.parse pre l c) =
        some (0, tag_token.unknown_tag incomplete_message)) ∧
      (∀ l c : Nat, cursor_and_token (p.parse (pre ++ suf) l c) =
        some (res.iter, res.token)) := by
  have hall := parse_counters p (pre ++ suf) line column res h hu
  refine ⟨fun l c => ?_, hall⟩
  have hlc := hall l c
  cases hr : p.parse (pre ++ suf) l c with
  | none => simp [hr, cursor_and_token] at hlc
  | some res2 =>
    simp only [hr, cursor_and_token, Option.map_some', Option.some.injEq, Prod.mk.injEq] at hlc
    exact truncation_core p pre suf l c res2 hpre hsuf hlt hr (by rw [hlc.2]; exact hu)
      (by rw [hlc.1]; exact hend)

/-- Claim C14 at `S = <a x="1">`: the prefix `<a x="` is incomplete, the whole gives the tag. -/
theorem C14_truncation_witness :
    (("<a x=\"".toList ≠ [] ∧ "1\">".toList ≠ [] ∧
      ("<a x=\"".toList ++ "1\">".toList).head? = some '<') ∧
      ({} : parser).parse ("<a x=\"".toList ++ "1\">".toList) 1 0 =
        some ⟨9, tag_token.open_tag "a".toList [("x".toList, "1".toList)], 1, 9⟩) ∧
    (∀ l c : Nat, cursor_and_token (({} : parser).parse "<a x=\"".toList l c) =
        some (0, tag_token.unknown_tag incomplete_message)) ∧
    (∀ l c : Nat, cursor_and_token
        (({} : parser).parse ("<a x=\"".toList ++ "1\">".toList) l c) =
        some (9, tag_token.open_tag "a".toList [("x".toList, "1".toList)])) :=
  ⟨⟨⟨by decide, by decide, by decide⟩, by decide⟩,
    C14_truncation {} "<a x=\"".toList "1\">".toList 1 0
      ⟨9, tag_token.open_tag "a".toList [("x".toList, "1".toList)], 1, 9⟩
      (by decide) (by decide) (by decide) (by decide) (by decide) (by decide)⟩
/-! ## Input without markup -/

/-- The loop in state `characters`: when it is left in a state that is not accepting, the
input held no `'<'`, all of it was read, and the state is still `characters`. -/
theorem parse_loop_characters (p : parser) :
    ∀ (s acc : List Char) (w : locals) (iter line column it l1 c1 : Nat),
      p.parse_loop ⟨characters, acc, [], [], [], false⟩ iter line column s =
        some (w, it, l1, c1) →
      is_accepting_state w.state = false →
      w = ⟨characters, if p.skipping_text then acc else acc ++ s, [], [], [], false⟩ ∧
        it = iter + s.length
  | [], acc, w, iter, line, column, it, l1, c1, h, _ => by
      simp only [parser.parse_loop, Option.some.injEq, Prod.mk.injEq] at h
      obtain ⟨rfl, rfl, _, _⟩ := h
      simp
  | x :: xs, acc, w, iter, line, column, it, l1, c1, h, ha => by
      by_cases hx : x = '<'
      · subst hx
        rw [parse_loop_text] at h
        simp only [Option.some.injEq, Prod.mk.injEq] at h
        rw [← h.1] at ha
        exact False.elim (Bool.false_ne_true ha.symm)
      · cases hs : p.skipping_text with
        | true =>
          rw [parse_loop_cons p ⟨characters, acc, [], [], [], false⟩
            ⟨characters, acc, [], [], [], false⟩ iter line column x xs rfl
            (by simp [parser.switch_body, is_open_abracket, hx, hs])] at h
          have := parse_loop_characters p xs acc w _ _ _ it l1 c1 h ha
          simp only [hs, if_true] at this
          refine ⟨by simpa using this.1, ?_⟩
          have h2 := this.2
          simp only [show (characters = text) = False from by simp, if_false] at h2
          simp only [List.length_cons]
          omega
        | false =>
          rw [parse_loop_cons p ⟨characters, acc, [], [], [], false⟩
            ⟨characters, acc ++ [x], [], [], [], false⟩ iter line column x xs rfl (by simp [parser.switch_body, is_open_abracket, hx, hs])] at h
          have := parse_loop_characters p xs (acc ++ [x]) w _ _ _ it l1 c1 h ha
          simp only [hs] at this
          refine ⟨by simpa using this.1, ?_⟩
          have h2 := this.2
          simp only [show (characters = text) = False from by simp, if_false] at h2
          simp only [List.length_cons]
          omega

/-- Claim C13, amended. Incomplete signal: for every configuration and every input on which
the loop runs out of input before an accepting state is reached and without a malformed
character, `parse` returns the start position (offset 0) and the incomplete Unknown token when
the input begins with `'<'`; otherwise (empty input, or text characters only) it returns a Text
token with the characters read (none under `skip_text`) and the cursor at the end of the
input. -/
theorem C13_incomplete_signal (p : parser) (input : List Char) (line column : Nat)
    (v : locals) (it l1 c1 : Nat)
    (hrun : p.parse_loop initial_locals 0 line column input = some (v, it, l1, c1))
    (he : v.error = false) (ha : is_accepting_state v.state = false) :
    cursor_and_token (p.parse input line column) =
      if input.head? = some '<' then some (0, tag_token.unknown_tag incomplete_message)
      else some (input.length,
        tag_token.text (if p.skipping_text then [] else input)) := by
  unfold parser.parse
  rw [hrun]
  cases input with
  | nil =>
    simp only [parser.parse_loop, Option.some.injEq, Prod.mk.injEq] at hrun
    obtain ⟨rfl, rfl, _, _⟩ := hrun
    simp [cursor_and_token, parser.select_result, initial_locals]
  | cons x xs =>
    by_cases hx : x = '<'
    · subst hx
      have hm := parse_loop_markup_of_open p xs v line column it l1 c1 hrun
      simp [select_result_incomplete v it l1 c1 he ha hm, cursor_and_token]
    · have hstep : p.switch_body initial_locals x =
          some ⟨characters, if p.skipping_text then [] else [x], [], [], [], false⟩ := by
        cases hs : p.skipping_text <;>
          simp [parser.switch_body, initial_locals, is_open_abracket, hx, hs]
      rw [parse_loop_cons p initial_locals _ 0 line column x xs rfl hstep] at hrun
      obtain ⟨hv, hit⟩ := parse_loop_characters p xs _ v _ _ _ it l1 c1 hrun ha
      subst hv
      have hit2 : it = (x :: xs).length := by
        simp only [show (characters = text) = False from by simp, if_false] at hit
        simp only [List.length_cons]
        omega
      subst hit2
      cases hs : p.skipping_text <;>
        simp [cursor_and_token, parser.select_result, hx, hs]

/-- Claim C13, amended, at `"<a"` (incomplete Unknown token, start position), at `"hello"`
(Text token, cursor at the end) and at the empty input (empty Text token). -/
theorem C13_incomplete_signal_witness :
    cursor_and_token (({} : parser).parse "<a".toList 1 0) =
        some (0, tag_token.unknown_tag incomplete_message) ∧
      cursor_and_token (({} : parser).parse "hello".toList 1 0) =
        some (5, tag_token.text "hello".toList) ∧
      cursor_and_token (({} : parser).parse [] 1 0) = some (0, tag_token.text []) :=
  ⟨(C13_incomplete_signal {} "<a".toList 1 0
      ⟨open_abracket__name, "a".toList, [], [], [], false⟩ 2 1 2
      (by decide) (by decide) (by decide)).trans (by decide),
    (C13_incomplete_signal {} "hello".toList 1 0
      ⟨characters, "hello".toList, [], [], [], false⟩ 5 1 5
      (by decide) (by decide) (by decide)).trans (by decide),
    (C13_incomplete_signal {} [] 1 0 initial_locals 0 1 0
      (by decide) (by decide) (by decide)).trans (by decide)⟩

/-- Claim C13 as stated fails on text-only and empty input: on `"hello"` the loop runs out of
input in state `characters` without error, and `parse` returns `Text "hello"` with the cursor 5
instead of the start position and the incomplete Unknown token; on the empty input it returns
an empty Text token. -/
theorem C13_incomplete_signal_counterexample :
    (({} : parser).parse_loop initial_locals 0 1 0 "hello".toList =
        some (⟨characters, "hello".toList, [], [], [], false⟩, 5, 1, 5) ∧
      cursor_and_token (({} : parser).parse "hello".toList 1 0) ≠
        some (0, tag_token.unknown_tag incomplete_message)) ∧
    (({} : parser).parse_loop initial_locals 0 1 0 [] = some (initial_locals, 0, 1, 0) ∧
      cursor_and_token (({} : parser).parse [] 1 0) ≠
        some (0, tag_token.unknown_tag incomplete_message)) := by
  refine ⟨⟨by decide, by decide⟩, by decide, by decide⟩
/-! ## Malformed input -/

/-- The result of `parse` when the character `c` after `pre` has no valid transition: the
returned iterator is one past `c`, and the message is the diagnostic of the state followed by
the counters after `c` has been counted. -/
theorem parse_offending (p : parser) (pre : List Char) (c : Char) (rest : List Char)
    (line column : Nat) (h : offending p pre c = true) :
    ∃ st msg, formulate_error st = some msg ∧
      p.parse (pre ++ c :: rest) line column =
        some ⟨pre.length + 1,
          tag_token.unknown_tag (msg ++ " at ".toList ++
            to_string (advance (line, column) (pre ++ [c])).1 ++ ",".toList ++
            to_string (advance (line, column) (pre ++ [c])).2),
          (advance (line, column) (pre ++ [c])).1, (advance (line, column) (pre ++ [c])).2⟩ := by
  unfold offending at h
  cases h0 : p.parse_loop initial_locals 0 0 0 pre with
  | none => simp [h0] at h
  | some x0 =>
    obtain ⟨v, it0, l0, c0⟩ := x0
    simp only [h0, Bool.and_eq_true, Bool.not_eq_true'] at h
    obtain ⟨hstop, hw⟩ := h
    cases hsw : p.switch_body v c with
    | none => simp [hsw] at hw
    | some w =>
      simp only [hsw] at hw
      have hc := parse_loop_counters p pre initial_locals 0 0 0 line column
      rw [h0] at hc
      cases h1 : p.parse_loop initial_locals 0 line column pre with
      | none => simp [h1] at hc
      | some x1 =>
        obtain ⟨v1, it, l1, c1⟩ := x1
        simp only [h1, Option.map_some', Option.some.injEq, Prod.mk.injEq] at hc
        obtain ⟨rfl, rfl⟩ := hc
        have hve : v.error = false := by
          simp only [Bool.or_eq_false_iff] at hstop
          exact hstop.2
        obtain ⟨hst, msg, hmsg⟩ := switch_body_error p v w c hve hsw hw
        have hvt : v.state ≠ text := by
          intro ht
          simp [ht, is_accepting_state] at hstop
        obtain ⟨k, _, hadv, _, heq, hall⟩ :=
          parse_loop_trace p pre _ v 0 line column it0 l1 c1 h1
        have hk := hall hstop
        have hit : it0 = pre.length := by
          have := heq hvt
          omega
        rw [hk, List.take_length] at hadv
        refine ⟨v.state, msg, hmsg, ?_⟩
        unfold parser.parse
        rw [parse_loop_append, h1, Option.some_bind,
          parse_loop_cons p v w it0 l1 c1 c rest hstop hsw,
          parse_loop_stop p w _ _ _ rest (by simp [hw])]
        simp only [if_neg (hst ▸ hvt)]
        rw [select_result_error w _ _ _ hw, hst, hmsg, advance_append, ← hadv, hit]
        rfl

/-- The counters of a call entered with line 1, column 0 at the start of a document are the
1-based line of the next character and the number of characters before it on that line. -/
theorem advance_position (pre : List Char) (h : pre.length + 1 < size_max) :
    advance (1, 0) pre = (line_number pre, column_number pre - 1) := by
  induction pre using List.reverseRecOn with
  | nil => rfl
  | append_singleton l a ih =>
    have hl : l.length + 2 < size_max := by simpa using h
    have hcount : l.count '\n' ≤ l.length := List.count_le_length _ _
    have htw : (l.reverse.takeWhile (fun c => !(c == '\n'))).length ≤ l.length := by
      have := List.Sublist.length_le
        (List.takeWhile_sublist (l := l.reverse) (fun c => !(c == '\n')))
      simpa using this
    rw [advance_append, ih (by omega), advance_cons, advance_nil]
    by_cases ha : a = '\n'
    · subst ha
      simp only [count_char, line_number, column_number, if_true]
      rw [Nat.mod_eq_of_lt (by omega)]
      simp
    · simp only [count_char, line_number, column_number, if_neg ha]
      rw [Nat.mod_eq_of_lt (by omega)]
      simp [ha, List.count_append, List.count_cons, Ne.symm ha]

/-- Claim C16, amended. Error position accuracy: when the call starts with line 1 and column 0
at the beginning of the input and the character `c` after `pre` has no valid transition, the
message ends with `" at L,C"` where `L` is the 1-based line and `C` the 1-based column of `c`
within the input, provided `c` is not a newline (and the input is shorter than `size_max`). -/
theorem C16_error_position (p : parser) (pre : List Char) (c : Char) (rest : List Char)
    (h : offending p pre c = true) (hc : c ≠ '\n') (hlen : pre.length + 1 < size_max) :
    ∃ res st msg, p.parse (pre ++ c :: rest) 1 0 = some res ∧
      formulate_error st = some msg ∧
      res.token = tag_token.unknown_tag (msg ++ " at ".toList ++
        to_string (line_number pre) ++ ",".toList ++ to_string (column_number pre)) := by
  obtain ⟨st, msg, hmsg, hp⟩ := parse_offending p pre c rest 1 0 h
  refine ⟨_, st, msg, hp, hmsg, ?_⟩
  have hpos : advance (1, 0) (pre ++ [c]) = (line_number pre, column_number pre) := by
    rw [advance_append, advance_position pre (by omega), advance_cons, advance_nil]
    have hcol : column_number pre - 1 + 1 = column_number pre := by
      simp [column_number]
    have hle : column_number pre ≤ pre.length + 1 := by
      have := List.Sublist.length_le
        (List.takeWhile_sublist (l := pre.reverse) (fun c => !(c == '\n')))
      simp only [List.length_reverse] at this
      simp only [column_number]
      omega
    simp only [count_char, if_neg hc, hcol]
    rw [Nat.mod_eq_of_lt (by omega)]
  simp only [hpos]

/-- Claim C16, amended, at the example of the specification: on `<a`, newline, two spaces and
`&>` the message ends with `at 2,3`, the line and column of the `'&'`. -/
theorem C16_error_position_witness :
    (offending {} "<a\n  ".toList '&' = true ∧ '&' ≠ '\n' ∧
      "<a\n  ".toList.length + 1 < size_max) ∧
    (line_number "<a\n  ".toList = 2 ∧ column_number "<a\n  ".toList = 3) ∧
    ∃ res st msg, ({} : parser).parse ("<a\n  ".toList ++ '&' :: ">".toList) 1 0 = some res ∧
      formulate_error st = some msg ∧
      res.token = tag_token.unknown_tag (msg ++ " at ".toList ++
        to_string (line_number "<a\n  ".toList) ++ ",".toList ++
        to_string (column_number "<a\n  ".toList)) :=
  ⟨⟨by decide, by decide, by decide⟩, ⟨by decide, by decide⟩,
    C16_error_position {} "<a\n  ".toList '&' ">".toList (by decide) (by decide) (by decide)⟩

/-- Claim C16 as stated fails for an offending newline: in `"</"` followed by a newline, the
newline stands on line 1 at column 3, and the message ends with `at 2,0`. -/
theorem C16_error_position_counterexample :
    offending {} "</".toList '\n' = true ∧
    line_number "</".toList = 1 ∧ column_number "</".toList = 3 ∧
    ({} : parser).parse "</\n".toList 1 0 =
      some ⟨3, tag_token.unknown_tag "expecting some id name! at 2,0".toList, 2, 0⟩ := by
  refine ⟨by decide, by decide, by decide, by decide⟩
/-! ## Keywords `DOCTYPE` and `CDATA` -/

/-- A DOCTYPE declaration up to and including its first `'>'` leads to state `dtd`; nothing is
written to `param1` on the way. -/
theorem reaches_doctype (p : parser) {k : std_string} (hk : doctype_spelling k = true)
    (d : std_string) (hd : '>' ∉ d) :
    Reaches p initial_locals ('<' :: '!' :: (k ++ d ++ ['>'])) ⟨dtd, [], [], [], [], false⟩ :=
  Reaches.cons (reaches_open_abracket p) (Reaches.cons (reaches_exclamation_mark p)
    (Reaches.trans (Reaches.trans (reaches_big_doctype p hk)
      (reaches_doctype_body p d (not_mem_all_ne hd))) (reaches_dtd p)))

/-- Claim C11, amended. DOCTYPE name: for every configuration and every input
`"<!DOCTYPE" ++ d ++ ">" ++ r` with `d` containing no `'>'`, the returned token is a Doctype
token whose name field is the empty string: the text `d` is consumed but not stored. -/
theorem C11_doctype_name (p : parser) (d r : std_string) (line column : Nat)
    (hd : '>' ∉ d) :
    cursor_and_token (p.parse ("<!DOCTYPE".toList ++ d ++ '>' :: r) line column) =
      some (d.length + 10, tag_token.dtd []) := by
  have hr := reaches_doctype p (k := "DOCTYPE".toList) (by decide) d hd
  have := parse_of_reaches hr rfl r line column
  have e : "<!DOCTYPE".toList ++ d ++ '>' :: r =
      ('<' :: '!' :: ("DOCTYPE".toList ++ d ++ ['>'])) ++ r := by simp
  rw [e, this]
  simp [parser.select_result, cursor_and_token]

/-- Claim C11, amended, at `"<!DOCTYPE html>"`: the name field is empty. -/
theorem C11_doctype_name_witness :
    '>' ∉ " html".toList ∧
    cursor_and_token (({} : parser).parse "<!DOCTYPE html>".toList 1 0) =
      some (15, tag_token.dtd []) :=
  ⟨by decide, (C11_doctype_name {} " html".toList [] 1 0 (by decide)).trans (by decide)⟩

/-- Claim C11 as stated fails at its own example: for `"<!DOCTYPE html>"` the name field of the
Doctype token is the empty string, not the text `" html"`. -/
theorem C11_doctype_name_counterexample :
    ({} : parser).parse "<!DOCTYPE html>".toList 1 0 = some ⟨15, tag_token.dtd [], 1, 15⟩ ∧
    ({} : parser).parse "<!DOCTYPE html>".toList 1 0 ≠
      some ⟨15, tag_token.dtd " html".toList, 1, 15⟩ := by
  refine ⟨by decide, by decide⟩

theorem reaches_sbracket (p : parser) :
    Reaches p initial_locals ['<', '!', '[']
      ⟨open_abracket__exclamation_mark__sbracket, [], [], [], [], false⟩ :=
  Reaches.cons (reaches_open_abracket p) (Reaches.cons (reaches_exclamation_mark p)
    (Reaches.single rfl (by simp [parser.switch_body, is_bar, is_open_sbracket]) (by simp)))

/-- The result of `parse` when, after the characters `s`, the switch sets `error` on `c`. -/
theorem parse_of_reaches_error {p : parser} {s : List Char} {v w : locals} {c : Char}
    (h : Reaches p initial_locals s v)
    (hv : (is_accepting_state v.state || v.error) = false)
    (hw : p.switch_body v c = some w) (he : w.error = true) (ht : w.state ≠ text)
    (rest : List Char) (line column : Nat) :
    p.parse (s ++ c :: rest) line column =
      parser.select_result w (s.length + 1) (advance (line, column) (s ++ [c])).1
        (advance (line, column) (s ++ [c])).2 := by
  unfold parser.parse
  rw [h 0 line column (c :: rest), parse_loop_cons p v w _ _ _ c rest hv hw,
    parse_loop_stop p w _ _ _ rest (by simp [he]), if_neg ht, advance_append]
  simp [advance]

/-- Claim C12. CDATA keyword is exact-case: for every configuration and every `k` of length 5
that equals `CDATA` up to the case of its letters but differs from `CDATA`, parsing
`"<![" ++ k ++ "[" ++ r` returns a malformed-input Unknown token: the diagnostic of one of the
keyword states (which letter was expected) followed by the position, the cursor not beyond the
keyword; whereas every case variant of `DOCTYPE` after `"<!"`, followed by text without `'>'`
and a `'>'`, is accepted as a Doctype token. -/
theorem C12_cdata_exact_case (p : parser) (k r : std_string) (line column : Nat)
    (hk : cdata_spelling k = true) (hne : k ≠ "CDATA".toList) :
    (∃ res msg, p.parse ('<' :: '!' :: '[' :: (k ++ '[' :: r)) line column = some res ∧
      res.token = tag_token.unknown_tag (msg ++ " at ".toList ++ to_string res.line ++
        ",".toList ++ to_string res.column) ∧
      msg ∈ ["expecting 'C'!".toList, "expecting 'D'!".toList, "expecting 'A'!".toList,
        "expecting 'T'!".toList] ∧
      4 ≤ res.iter ∧ res.iter ≤ 8) ∧
    (∀ (k2 d r2 : std_string) (l c : Nat), doctype_spelling k2 = true → '>' ∉ d →
      cursor_and_token (p.parse ('<' :: '!' :: (k2 ++ d ++ '>' :: r2)) l c) =
        some (k2.length + d.length + 3, tag_token.dtd [])) := by
  constructor
  · match k, hk with
    | [c1, c2, c3, c4, c5], hk =>
      simp only [cdata_spelling, Bool.and_eq_true, Bool.or_eq_true, beq_iff_eq] at hk
      obtain ⟨⟨⟨⟨h1, h2⟩, h3⟩, h4⟩, h5⟩ := hk
      have e0 := reaches_sbracket p
      rcases h1 with rfl | rfl
      swap
      · have := parse_of_reaches_error e0 rfl
          (w := ⟨open_abracket__exclamation_mark__sbracket, [], [], [], [], true⟩)
          (c := 'c') (by simp [parser.switch_body]) rfl (by simp)
          ([c2, c3, c4, c5] ++ '[' :: r) line column
        exact ⟨_, _, this, rfl, by simp, by simp, by simp⟩
      have e1 : Reaches p initial_locals ['<', '!', '[', 'C']
          ⟨open_abracket__exclamation_mark__sbracket__big_c, [], [], [], [], false⟩ :=
        Reaches.trans e0 (Reaches.single rfl (by simp [parser.switch_body]) (by simp))
      rcases h2 with rfl | rfl
      swap
      · have := parse_of_reaches_error e1 rfl
          (w := ⟨open_abracket__exclamation_mark__sbracket__big_c, [], [], [], [], true⟩)
          (c := 'd') (by simp [parser.switch_body]) rfl (by simp)
          ([c3, c4, c5] ++ '[' :: r) line column
        exact ⟨_, _, this, rfl, by simp, by simp, by simp⟩
      have e2 : Reaches p initial_locals ['<', '!', '[', 'C', 'D']
          ⟨open_abracket__exclamation_mark__sbracket__big_c__big_d, [], [], [], [], false⟩ :=
        Reaches.trans e1 (Reaches.single rfl (by simp [parser.switch_body]) (by simp))
      rcases h3 with rfl | rfl
      swap
      · have := parse_of_reaches_error e2 rfl
          (w := ⟨open_abracket__exclamation_mark__sbracket__big_c__big_d, [], [], [], [], true⟩)
          (c := 'a') (by simp [parser.switch_body]) rfl (by simp)
          ([c4, c5] ++ '[' :: r) line column
        exact ⟨_, _, this, rfl, by simp, by simp, by simp⟩
      have e3 : Reaches p initial_locals ['<', '!', '[', 'C', 'D', 'A']
          ⟨open_abracket__exclamation_mark__sbracket__big_c__big_d__big_a, [], [], [], [],
            false⟩ :=
        Reaches.trans e2 (Reaches.single rfl (by simp [parser.switch_body]) (by simp))
      rcases h4 with rfl | rfl
      swap
      · have := parse_of_reaches_error e3 rfl
          (w := ⟨open_abracket__exclamation_mark__sbracket__big_c__big_d__big_a, [], [], [],
            [], true⟩)
          (c := 't') (by simp [parser.switch_body]) rfl (by simp)
          ([c5] ++ '[' :: r) line column
        exact ⟨_, _, this, rfl, by simp, by simp, by simp⟩
      have e4 : Reaches p initial_locals ['<', '!', '[', 'C', 'D', 'A', 'T']
          ⟨open_abracket__exclamation_mark__sbracket__big_c__big_d__big_a__big_t, [], [], [],
            [], false⟩ :=
        Reaches.trans e3 (Reaches.single rfl (by simp [parser.switch_body]) (by simp))
      rcases h5 with rfl | rfl
      · exact absurd rfl hne
      · have := parse_of_reaches_error e4 rfl
          (w := ⟨open_abracket__exclamation_mark__sbracket__big_c__big_d__big_a__big_t, [], [],
            [], [], true⟩)
          (c := 'a') (by simp [parser.switch_body]) rfl (by simp)
          ('[' :: r) line column
        exact ⟨_, _, this, rfl, by simp, by simp, by simp⟩
  · intro k2 d r2 l c hk2 hd
    have := parse_of_reaches (reaches_doctype p hk2 d hd) rfl r2 l c
    have e : '<' :: '!' :: (k2 ++ d ++ '>' :: r2) = ('<' :: '!' :: (k2 ++ d ++ ['>'])) ++ r2 := by
      simp
    rw [e, this]
    simp [parser.select_result, cursor_and_token]
    omega

/-- Claim C12 at `<![cdata[x]]>` and `<![CDaTA[x]]>`: both are rejected, the second at its
lower-case letter. -/
theorem C12_cdata_exact_case_witness :
    (cdata_spelling "CDaTA".toList = true ∧ "CDaTA".toList ≠ "CDATA".toList) ∧
    ({} : parser).parse "<![CDaTA[x]]>".toList 1 0 =
      some ⟨6, tag_token.unknown_tag "expecting 'A'! at 1,6".toList, 1, 6⟩ ∧
    ∃ res msg, ({} : parser).parse ('<' :: '!' :: '[' :: ("CDaTA".toList ++ '[' :: "x]]>".toList))
        1 0 = some res ∧
      res.token = tag_token.unknown_tag (msg ++ " at ".toList ++ to_string res.line ++
        ",".toList ++ to_string res.column) ∧
      msg ∈ ["expecting 'C'!".toList, "expecting 'D'!".toList, "expecting 'A'!".toList,
        "expecting 'T'!".toList] ∧
      4 ≤ res.iter ∧ res.iter ≤ 8 :=
  ⟨⟨by decide, by decide⟩, by decide,
    (C12_cdata_exact_case {} "CDaTA".toList "x]]>".toList 1 0 (by decide) (by decide)).1⟩

/-! ## Counters and the held iterator -/

/-- Claim C18, the code at `"hello<a>"` entered with line 1, column 0: after the call that
returns `Text "hello"` (cursor 5) the column counter is 6, not 5: the unconsumed `'<'` has been
counted. The following call from the cursor counts it again and ends with column 9 for a
document of 8 characters, where the counters advanced over the whole document are (1, 8). -/
theorem C18_text_counters_code :
    ({} : parser).parse "hello<a>".toList 1 0 =
      some ⟨5, tag_token.text "hello".toList, 1, 6⟩ ∧
    advance (1, 0) "hello".toList = (1, 5) ∧
    ({} : parser).parse ("hello<a>".toList.drop 5) 1 6 =
      some ⟨3, tag_token.open_tag "a".toList [], 1, 9⟩ ∧
    advance (1, 0) "hello<a>".toList = (1, 8) := by
  refine ⟨by decide, by decide, by decide, by decide⟩

/-- Claim C19, the code at the truncated input `"<a"` entered with line 1, column 0: the call
returns the start position and the incomplete Unknown token, and the counters are (1, 2), not
(1, 0). The retry on `"<a>"` with these counters ends with column 5, a single call on `"<a>"`
with column 3. -/
theorem C19_truncation_counters_code :
    ({} : parser).parse "<a".toList 1 0 =
      some ⟨0, tag_token.unknown_tag incomplete_message, 1, 2⟩ ∧
    ({} : parser).parse "<a>".toList 1 2 =
      some ⟨3, tag_token.open_tag "a".toList [], 1, 5⟩ ∧
    ({} : parser).parse "<a>".toList 1 0 =
      some ⟨3, tag_token.open_tag "a".toList [], 1, 3⟩ := by
  refine ⟨by decide, by decide, by decide⟩

/-! ## Unquoted attribute values -/

theorem unquoted_value_char_cases {c : Char} (h : unquoted_value_char c = true) :
    is_space c = false ∧ c ≠ '/' ∧ c ≠ '>' ∧ is_double_quote c = false ∧
      is_single_quote c = false ∧ is_unquoted_attribute_value c = true := by
  simp only [unquoted_value_char, Bool.and_eq_true, Bool.not_eq_true', bne_iff_ne, ne_eq] at h
  obtain ⟨⟨⟨⟨⟨⟨⟨h1, h2⟩, h3⟩, h4⟩, h5⟩, h6⟩, h7⟩, h8⟩ := h
  refine ⟨h1, h2, h3, by simp [is_double_quote, h6], by simp [is_single_quote, h7], ?_⟩
  simp only [is_space] at h1
  simp [is_unquoted_attribute_value, h1, h3, h4, h5, h6, h7, h8]

/-- The first character of an unquoted value, read in state `open_abracket__name__attrequal`. -/
theorem reaches_uq_start (p : parser) (n k : std_string) (ps : List (std_string × std_string))
    {c : Char} (hc : unquoted_value_char c = true) :
    Reaches p ⟨open_abracket__name__attrequal, n, k, [], ps, false⟩ [c]
      ⟨open_abracket__name__uq, n, k, [c], ps, false⟩ := by
  obtain ⟨h1, _, _, h4, h5, h6⟩ := unquoted_value_char_cases hc
  exact Reaches.single rfl (by simp [parser.switch_body, h1, h4, h5, h6]) (by simp)

/-- Further characters of an unquoted value, read in state `open_abracket__name__uq`. -/
theorem reaches_uq (p : parser) (n k : std_string) (ps : List (std_string × std_string))
    (s acc : std_string) (h : s.all unquoted_value_char = true) :
    Reaches p ⟨open_abracket__name__uq, n, k, acc, ps, false⟩ s
      ⟨open_abracket__name__uq, n, k, acc ++ s, ps, false⟩ := by
  refine Reaches.accumulate (g := fun a => ⟨open_abracket__name__uq, n, k, a, ps, false⟩)
    (P := unquoted_value_char) ?_ s acc h
  intro a c hc
  obtain ⟨h1, h2, h3, _, _, h6⟩ := unquoted_value_char_cases hc
  exact Reaches.single rfl
    (by simp [parser.switch_body, h1, h2, h3, h6, is_closed_abracket, is_slash]) (by simp)

theorem reaches_uq_space (p : parser) (n k v : std_string)
    (ps : List (std_string × std_string)) (c : Char) (hc : is_space c = true) :
    Reaches p ⟨open_abracket__name__uq, n, k, v, ps, false⟩ [c]
      ⟨open_abracket__name__space, n, [], [], ps ++ [(k, v)], false⟩ :=
  Reaches.single rfl (by simp [parser.switch_body, hc]) (by simp)

theorem reaches_uq_closed (p : parser) (n k v : std_string)
    (ps : List (std_string × std_string)) :
    Reaches p ⟨open_abracket__name__uq, n, k, v, ps, false⟩ ['>']
      ⟨open_tag, n, [], [], ps ++ [(k, v)], false⟩ :=
  Reaches.single rfl
    (by simp [parser.switch_body, is_closed_abracket, (by decide : is_space '>' = false)])
    (by simp)

theorem reaches_uq_slash (p : parser) (n k v : std_string)
    (ps : List (std_string × std_string)) :
    Reaches p ⟨open_abracket__name__uq, n, k, v, ps, false⟩ ['/']
      ⟨open_abracket__name__slash, n, [], [], ps ++ [(k, v)], false⟩ :=
  Reaches.single rfl
    (by simp [parser.switch_body, is_closed_abracket, is_slash,
      (by decide : is_space '/' = false)])
    (by simp)

theorem unquoted_well_formed_cases {a : unquoted_source} (h : a.well_formed = true) :
    (∃ c cs, a.ws = c :: cs ∧ is_space c = true ∧ all_space cs = true) ∧
      valid_name a.key = true ∧
      ∃ x xs, a.value = x :: xs ∧ unquoted_value_char x = true ∧
        xs.all unquoted_value_char = true := by
  simp only [unquoted_source.well_formed, Bool.and_eq_true] at h
  obtain ⟨⟨⟨⟨h1, h2⟩, h3⟩, h4⟩, h5⟩ := h
  refine ⟨?_, h3, ?_⟩
  · cases hw : a.ws with
    | nil => simp [hw] at h1
    | cons c cs =>
      rw [hw] at h2
      simp only [all_space, List.all_cons, Bool.and_eq_true] at h2
      exact ⟨c, cs, rfl, h2.1, h2.2⟩
  · cases hv : a.value with
    | nil => simp [hv] at h4
    | cons x xs =>
      rw [hv] at h5
      simp only [List.all_cons, Bool.and_eq_true] at h5
      exact ⟨x, xs, rfl, h5.1, h5.2⟩

/-- One attribute with an unquoted value, read from a state `u` in which a whitespace character
leads to state `open_abracket__name__space` with the attribute list `ps`. -/
theorem reaches_unquoted_from (p : parser) (u : locals) (n : std_string)
    (ps : List (std_string × std_string))
    (hu : ∀ c, is_space c = true →
      Reaches p u [c] ⟨open_abracket__name__space, n, [], [], ps, false⟩)
    {a : unquoted_source} (ha : a.well_formed = true) :
    Reaches p u a.render ⟨open_abracket__name__uq, n, a.key, a.value, ps, false⟩ := by
  obtain ⟨⟨c, cs, hw, hc, hcs⟩, hk, x, xs, hv, hx, hxs⟩ := unquoted_well_formed_cases ha
  have e := Reaches.cons (hu c hc)
    (Reaches.trans (Reaches.trans (Reaches.trans (Reaches.trans
      (reaches_name_space p n ps cs hcs) (reaches_attrname p n ps hk))
      (reaches_attrequal p n a.key ps [] rfl)) (reaches_uq_start p n a.key ps hx))
      (reaches_uq p n a.key ps xs [x] hxs))
  simpa [unquoted_source.render, hw, hv, List.append_assoc] using e

theorem reaches_unquoted_uq (p : parser) (n : std_string) :
    ∀ (as : List unquoted_source) (k v : std_string) (ps : List (std_string × std_string)),
      as.all unquoted_source.well_formed = true →
      ∃ k1 v1 ps1,
        Reaches p ⟨open_abracket__name__uq, n, k, v, ps, false⟩ (render_unquoted as)
          ⟨open_abracket__name__uq, n, k1, v1, ps1, false⟩ ∧
        ps1 ++ [(k1, v1)] = ps ++ (k, v) :: as.map unquoted_source.pair
  | [], k, v, ps, _ => ⟨k, v, ps, Reaches.refl p _, by simp⟩
  | a :: as, k, v, ps, h => by
      simp only [List.all_cons, Bool.and_eq_true] at h
      obtain ⟨k1, v1, ps1, e, hps⟩ :=
        reaches_unquoted_uq p n as a.key a.value (ps ++ [(k, v)]) h.2
      refine ⟨k1, v1, ps1, ?_, ?_⟩
      · exact Reaches.trans
          (reaches_unquoted_from p _ n (ps ++ [(k, v)]) (reaches_uq_space p n k v ps) h.1) e
      · simpa [unquoted_source.pair] using hps

/-- An opening tag whose attributes all have unquoted values, for every configuration. -/
theorem reaches_open_tag_unquoted (p : parser) (n : std_string) (as : List unquoted_source)
    (hn : valid_name n = true) (has : as.all unquoted_source.well_formed = true) :
    Reaches p initial_locals ('<' :: (n ++ render_unquoted as ++ ['>']))
      ⟨open_tag, n, [], [], as.map unquoted_source.pair, false⟩ := by
  cases as with
  | nil =>
    have e := Reaches.trans (reaches_tag_name p hn) (reaches_open_tag_name p n [] rfl)
    simpa [render_unquoted] using e
  | cons a as =>
    simp only [List.all_cons, Bool.and_eq_true] at has
    obtain ⟨k1, v1, ps1, e, hps⟩ := reaches_unquoted_uq p n as a.key a.value [] has.2
    have e2 := Reaches.trans (Reaches.trans (Reaches.trans (reaches_tag_name p hn)
      (reaches_unquoted_from p _ n [] (reaches_name_to_space p n) has.1)) e)
      (reaches_uq_closed p n k1 v1 ps1)
    rw [hps] at e2
    simpa [render_unquoted, unquoted_source.pair, List.append_assoc] using e2

/-- Claim C21. Unquoted values accepted: with `allow_unquoted_attribute_value = true`, for every
tag `"<" ++ n ++ concat(ws ++ k_i ++ "=" ++ v_i) ++ ">"` with a valid name `n`, non-empty
whitespace `ws`, valid names `k_i` and non-empty values `v_i` of characters that are not
whitespace, `/`, `>`, `<`, `=`, `"`, the single quote or the backtick, `parse` returns
`OpenTag{n, [(k_1,v_1),...]}` with the cursor immediately after the `'>'`. -/
theorem C21_unquoted_values (p : parser) (n : std_string) (as : List unquoted_source)
    (r : std_string) (line column : Nat)
    (_hu : p.allowing_unquoted_attribute_value = true)
    (hn : valid_name n = true) (has : as.all unquoted_source.well_formed = true) :
    p.parse ('<' :: (n ++ render_unquoted as ++ ['>']) ++ r) line column =
      some ⟨('<' :: (n ++ render_unquoted as ++ ['>'])).length,
        tag_token.open_tag n (as.map unquoted_source.pair),
        (advance (line, column) ('<' :: (n ++ render_unquoted as ++ ['>']))).1,
        (advance (line, column) ('<' :: (n ++ render_unquoted as ++ ['>']))).2⟩ := by
  have := parse_of_reaches (reaches_open_tag_unquoted p n as hn has) rfl r line column
  rw [this]
  simp [parser.select_result]

/-- Claim C21 at `"<a x=1 y=2>"`: the attributes are `[("x","1"),("y","2")]`. -/
theorem C21_unquoted_values_witness :
    (({} : parser).allowing_unquoted_attribute_value = true ∧ valid_name "a".toList = true ∧
      [(⟨" ".toList, "x".toList, "1".toList⟩ : unquoted_source),
        ⟨" ".toList, "y".toList, "2".toList⟩].all unquoted_source.well_formed = true) ∧
    ({} : parser).parse "<a x=1 y=2>".toList 1 0 =
      some ⟨11, tag_token.open_tag "a".toList
        [("x".toList, "1".toList), ("y".toList, "2".toList)], 1, 11⟩ :=
  ⟨⟨rfl, by decide, by decide⟩,
    (C21_unquoted_values {} "a".toList
      [⟨" ".toList, "x".toList, "1".toList⟩, ⟨" ".toList, "y".toList, "2".toList⟩]
      [] 1 0 rfl (by decide) (by decide)).trans (by decide)⟩

/-- Claim C22, the code with `allow_unquoted_attribute_value = false` at the claim's own
example: `"<a x=1 y=2>"` is accepted with the attributes `[("x","1"),("y","2")]`, exactly as
with the flag set; no error is reported at the `'1'`. With the flag off only `=`, `<`, `>` and
the backtick are rejected as the first character of a value. -/
theorem C22_unquoted_disabled_code :
    ({ allowing_unquoted_attribute_value := false } : parser).parse "<a x=1 y=2>".toList 1 0 =
      some ⟨11, tag_token.open_tag "a".toList
        [("x".toList, "1".toList), ("y".toList, "2".toList)], 1, 11⟩ ∧
    ({ allowing_unquoted_attribute_value := false } : parser).parse "<a x==>".toList 1 0 =
      some ⟨6, tag_token.unknown_tag
        "expecting some space or ''' or '\"' or some attribute value character! at 1,6".toList,
        1, 6⟩ := by
  refine ⟨by decide, by decide⟩

/-! ## Configuration -/

/-- Claim C27. Default configuration: a parser constructed with no arguments has the four skip
flags false and the six tolerance flags true; and each setter changes exactly its own flag: the
getter then returns the value set, and the other nine getters return what they returned
before. -/
theorem C27_default_configuration (p : parser) (b : Bool) :
    (({} : parser).skip_text = false ∧
      ({} : parser).skip_cdata = false ∧
      ({} : parser).skip_comment = false ∧
      ({} : parser).skip_pi = false ∧
      ({} : parser).allow_weak_comment_coding = true ∧
      ({} : parser).allow_weak_pi_coding = true ∧
      ({} : parser).allow_weak_double_quote_coding = true ∧
      ({} : parser).allow_weak_single_quote_coding = true ∧
      ({} : parser).allow_unquoted_attribute_value = true ∧
      ({} : parser).allow_concated_attribute = true) ∧
    ((p.set_skip_text b).skip_text = b ∧
      (p.set_skip_text b).skip_cdata = p.skip_cdata ∧
      (p.set_skip_text b).skip_comment = p.skip_comment ∧
      (p.set_skip_text b).skip_pi = p.skip_pi ∧
      (p.set_skip_text b).allow_weak_comment_coding = p.allow_weak_comment_coding ∧
      (p.set_skip_text b).allow_weak_pi_coding = p.allow_weak_pi_coding ∧
      (p.set_skip_text b).allow_weak_double_quote_coding = p.allow_weak_double_quote_coding ∧
      (p.set_skip_text b).allow_weak_single_quote_coding = p.allow_weak_single_quote_coding ∧
      (p.set_skip_text b).allow_unquoted_attribute_value = p.allow_unquoted_attribute_value ∧
      (p.set_skip_text b).allow_concated_attribute = p.allow_concated_attribute) ∧
    ((p.set_skip_cdata b).skip_cdata = b ∧
      (p.set_skip_cdata b).skip_text = p.skip_text ∧
      (p.set_skip_cdata b).skip_comment = p.skip_comment ∧
      (p.set_skip_cdata b).skip_pi = p.skip_pi ∧
      (p.set_skip_cdata b).allow_weak_comment_coding = p.allow_weak_comment_coding ∧
      (p.set_skip_cdata b).allow_weak_pi_coding = p.allow_weak_pi_coding ∧
      (p.set_skip_cdata b).allow_weak_double_quote_coding = p.allow_weak_double_quote_coding ∧
      (p.set_skip_cdata b).allow_weak_single_quote_coding = p.allow_weak_single_quote_coding ∧
      (p.set_skip_cdata b).allow_unquoted_attribute_value = p.allow_unquoted_attribute_value ∧
      (p.set_skip_cdata b).allow_concated_attribute = p.allow_concated_attribute) ∧
    ((p.set_skip_comment b).skip_comment = b ∧
      (p.set_skip_comment b).skip_text = p.skip_text ∧
      (p.set_skip_comment b).skip_cdata = p.skip_cdata ∧
      (p.set_skip_comment b).skip_pi = p.skip_pi ∧
      (p.set_skip_comment b).allow_weak_comment_coding = p.allow_weak_comment_coding ∧
      (p.set_skip_comment b).allow_weak_pi_coding = p.allow_weak_pi_coding ∧
      (p.set_skip_comment b).allow_weak_double_quote_coding = p.allow_weak_double_quote_coding ∧
      (p.set_skip_comment b).allow_weak_single_quote_coding = p.allow_weak_single_quote_coding ∧
      (p.set_skip_comment b).allow_unquoted_attribute_value = p.allow_unquoted_attribute_value ∧
      (p.set_skip_comment b).allow_concated_attribute = p.allow_concated_attribute) ∧
    ((p.set_skip_pi b).skip_pi = b ∧
      (p.set_skip_pi b).skip_text = p.skip_text ∧
      (p.set_skip_pi b).skip_cdata = p.skip_cdata ∧
      (p.set_skip_pi b).skip_comment = p.skip_comment ∧
      (p.set_skip_pi b).allow_weak_comment_coding = p.allow_weak_comment_coding ∧
      (p.set_skip_pi b).allow_weak_pi_coding = p.allow_weak_pi_coding ∧
      (p.set_skip_pi b).allow_weak_double_quote_coding = p.allow_weak_double_quote_coding ∧
      (p.set_skip_pi b).allow_weak_single_quote_coding = p.allow_weak_single_quote_coding ∧
      (p.set_skip_pi b).allow_unquoted_attribute_value = p.allow_unquoted_attribute_value ∧
      (p.set_skip_pi b).allow_concated_attribute = p.allow_concated_attribute) ∧
    ((p.set_allow_weak_comment_coding b).allow_weak_comment_coding = b ∧
      (p.set_allow_weak_comment_coding b).skip_text = p.skip_text ∧
      (p.set_allow_weak_comment_coding b).skip_cdata = p.skip_cdata ∧
      (p.set_allow_weak_comment_coding b).skip_comment = p.skip_comment ∧
      (p.set_allow_weak_comment_coding b).skip_pi = p.skip_pi ∧
      (p.set_allow_weak_comment_coding b).allow_weak_pi_coding = p.allow_weak_pi_coding ∧
      (p.set_allow_weak_comment_coding b).allow_weak_double_quote_coding = p.allow_weak_double_quote_coding ∧
      (p.set_allow_weak_comment_coding b).allow_weak_single_quote_coding = p.allow_weak_single_quote_coding ∧
      (p.set_allow_weak_comment_coding b).allow_unquoted_attribute_value = p.allow_unquoted_attribute_value ∧
      (p.set_allow_weak_comment_coding b).allow_concated_attribute = p.allow_concated_attribute) ∧
    ((p.set_allow_weak_pi_coding b).allow_weak_pi_coding = b ∧
      (p.set_allow_weak_pi_coding b).skip_text = p.skip_text ∧
      (p.set_allow_weak_pi_coding b).skip_cdata = p.skip_cdata ∧
      (p.set_allow_weak_pi_coding b).skip_comment = p.skip_comment ∧
      (p.set_allow_weak_pi_coding b).skip_pi = p.skip_pi ∧
      (p.set_allow_weak_pi_coding b).allow_weak_comment_coding = p.allow_weak_comment_coding ∧
      (p.set_allow_weak_pi_coding b).allow_weak_double_quote_coding = p.allow_weak_double_quote_coding ∧
      (p.set_allow_weak_pi_coding b).allow_weak_single_quote_coding = p.allow_weak_single_quote_coding ∧
      (p.set_allow_weak_pi_coding b).allow_unquoted_attribute_value = p.allow_unquoted_attribute_value ∧
      (p.set_allow_weak_pi_coding b).allow_concated_attribute = p.allow_concated_attribute) ∧
    ((p.set_allow_weak_double_quote_coding b).allow_weak_double_quote_coding = b ∧
      (p.set_allow_weak_double_quote_coding b).skip_text = p.skip_text ∧
      (p.set_allow_weak_double_quote_coding b).skip_cdata = p.skip_cdata ∧
      (p.set_allow_weak_double_quote_coding b).skip_comment = p.skip_comment ∧
      (p.set_allow_weak_double_quote_coding b).skip_pi = p.skip_pi ∧
      (p.set_allow_weak_double_quote_coding b).allow_weak_comment_coding = p.allow_weak_comment_coding ∧
      (p.set_allow_weak_double_quote_coding b).allow_weak_pi_coding = p.allow_weak_pi_coding ∧
      (p.set_allow_weak_double_quote_coding b).allow_weak_single_quote_coding = p.allow_weak_single_quote_coding ∧
      (p.set_allow_weak_double_quote_coding b).allow_unquoted_attribute_value = p.allow_unquoted_attribute_value ∧
      (p.set_allow_weak_double_quote_coding b).allow_concated_attribute = p.allow_concated_attribute) ∧
    ((p.set_allow_weak_single_quote_coding b).allow_weak_single_quote_coding = b ∧
      (p.set_allow_weak_single_quote_coding b).skip_text = p.skip_text ∧
      (p.set_allow_weak_single_quote_coding b).skip_cdata = p.skip_cdata ∧
      (p.set_allow_weak_single_quote_coding b).skip_comment = p.skip_comment ∧
      (p.set_allow_weak_single_quote_coding b).skip_pi = p.skip_pi ∧
      (p.set_allow_weak_single_quote_coding b).allow_weak_comment_coding = p.allow_weak_comment_coding ∧
      (p.set_allow_weak_single_quote_coding b).allow_weak_pi_coding = p.allow_weak_pi_coding ∧
      (p.set_allow_weak_single_quote_coding b).allow_weak_double_quote_coding = p.allow_weak_double_quote_coding ∧
      (p.set_allow_weak_single_quote_coding b).allow_unquoted_attribute_value = p.allow_unquoted_attribute_value ∧
      (p.set_allow_weak_single_quote_coding b).allow_concated_attribute = p.allow_concated_attribute) ∧
    ((p.set_allow_unquoted_attribute_value b).allow_unquoted_attribute_value = b ∧
      (p.set_allow_unquoted_attribute_value b).skip_text = p.skip_text ∧
      (p.set_allow_unquoted_attribute_value b).skip_cdata = p.skip_cdata ∧
      (p.set_allow_unquoted_attribute_value b).skip_comment = p.skip_comment ∧
      (p.set_allow_unquoted_attribute_value b).skip_pi = p.skip_pi ∧
      (p.set_allow_unquoted_attribute_value b).allow_weak_comment_coding = p.allow_weak_comment_coding ∧
      (p.set_allow_unquoted_attribute_value b).allow_weak_pi_coding = p.allow_weak_pi_coding ∧
      (p.set_allow_unquoted_attribute_value b).allow_weak_double_quote_coding = p.allow_weak_double_quote_coding ∧
      (p.set_allow_unquoted_attribute_value b).allow_weak_single_quote_coding = p.allow_weak_single_quote_coding ∧
      (p.set_allow_unquoted_attribute_value b).allow_concated_attribute = p.allow_concated_attribute) ∧
    ((p.set_allow_concated_attribute b).allow_concated_attribute = b ∧
      (p.set_allow_concated_attribute b).skip_text = p.skip_text ∧
      (p.set_allow_concated_attribute b).skip_cdata = p.skip_cdata ∧
      (p.set_allow_concated_attribute b).skip_comment = p.skip_comment ∧
      (p.set_allow_concated_attribute b).skip_pi = p.skip_pi ∧
      (p.set_allow_concated_attribute b).allow_weak_comment_coding = p.allow_weak_comment_coding ∧
      (p.set_allow_concated_attribute b).allow_weak_pi_coding = p.allow_weak_pi_coding ∧
      (p.set_allow_concated_attribute b).allow_weak_double_quote_coding = p.allow_weak_double_quote_coding ∧
      (p.set_allow_concated_attribute b).allow_weak_single_quote_coding = p.allow_weak_single_quote_coding ∧
      (p.set_allow_concated_attribute b).allow_unquoted_attribute_value = p.allow_unquoted_attribute_value) := by
  refine ⟨⟨rfl, rfl, rfl, rfl, rfl, rfl, rfl, rfl, rfl, rfl⟩, ?_, ?_, ?_, ?_, ?_, ?_, ?_, ?_, ?_, ?_⟩ <;>
    exact ⟨rfl, rfl, rfl, rfl, rfl, rfl, rfl, rfl, rfl, rfl⟩

/-- The loop after the characters `s`, given that it reaches the local variables `w` there
without having stopped before. -/
theorem parse_loop_of_reaches {p : parser} {s : List Char} {w : locals}
    (h : Reaches p initial_locals s w) (line column : Nat) :
    p.parse_loop initial_locals 0 line column s =
      some (w, s.length, (advance (line, column) s).1, (advance (line, column) s).2) := by
  have := h 0 line column []
  simpa [parser.parse_loop] using this

/-- An opening tag up to and including the first character of an unquoted value that is
followed by further unquoted-value characters. -/
theorem reaches_uq_value (p : parser) (n ws k v : std_string)
    (hn : valid_name n = true) (hws : (!ws.isEmpty && all_space ws) = true)
    (hk : valid_name k = true) (hv : (!v.isEmpty && v.all unquoted_value_char) = true) :
    Reaches p initial_locals ('<' :: (n ++ ws ++ k ++ ['='] ++ v))
      ⟨open_abracket__name__uq, n, k, v, [], false⟩ := by
  have ha : (⟨ws, k, v⟩ : unquoted_source).well_formed = true := by
    simp only [Bool.and_eq_true] at hws hv
    simp [unquoted_source.well_formed, hws.1, hws.2, hk, hv.1, hv.2]
  have e := Reaches.trans (reaches_tag_name p hn)
    (reaches_unquoted_from p _ n [] (reaches_name_to_space p n) ha)
  simpa [unquoted_source.render, List.append_assoc] using e

/-- Every character is whitespace, `/` or `>`, or one of the five characters `"`, single
quote, `=`, `<`, backtick, or an unquoted-value character. -/
theorem unquoted_trichotomy (c : Char) :
    (is_space c = true ∨ c = '/' ∨ c = '>') ∨
      c ∈ ['"', Char.ofNat 39, '=', '<', Char.ofNat 96] ∨ unquoted_value_char c = true := by
  by_cases h1 : is_space c = true
  · exact Or.inl (Or.inl h1)
  by_cases h2 : c = '/'
  · exact Or.inl (Or.inr (Or.inl h2))
  by_cases h3 : c = '>'
  · exact Or.inl (Or.inr (Or.inr h3))
  by_cases h4 : c ∈ ['"', Char.ofNat 39, '=', '<', Char.ofNat 96]
  · exact Or.inr (Or.inl h4)
  · refine Or.inr (Or.inr ?_)
    simp only [List.mem_cons, List.mem_singleton, not_or, List.not_mem_nil, or_false] at h4
    simp only [Bool.not_eq_true] at h1
    simp [unquoted_value_char, h1, h2, h3, h4.1, h4.2.1, h4.2.2.1, h4.2.2.2.1, h4.2.2.2.2]

/-- Claim C23, amended. Unquoted value characters: for every configuration with
`allow_unquoted_attribute_value = true`, once an unquoted attribute value `v` has started (tag
name `n`, attribute name `k`), the next character `c` is handled as follows: an unquoted-value
character (not whitespace, `/`, `>`, `"`, single quote, `=`, `<`, backtick) is appended to the
value without error; one of the five characters `"`, single quote, `=`, `<`, backtick gives a
malformed-input Unknown token with the diagnostic of state `open_abracket__name__uq`;
whitespace, `/` and `>` end the value, which is recorded as the pair `(k, v)`. Every character
falls under one of the three cases. -/
theorem C23_unquoted_value_characters (p : parser) (n ws k v : std_string) (c : Char)
    (rest : List Char) (line column : Nat)
    (_hu : p.allowing_unquoted_attribute_value = true)
    (hn : valid_name n = true) (hws : (!ws.isEmpty && all_space ws) = true)
    (hk : valid_name k = true) (hv : (!v.isEmpty && v.all unquoted_value_char) = true) :
    (unquoted_value_char c = true →
      p.parse_loop initial_locals 0 line column ('<' :: (n ++ ws ++ k ++ ['='] ++ v) ++ [c]) =
        some (⟨open_abracket__name__uq, n, k, v ++ [c], [], false⟩,
          ('<' :: (n ++ ws ++ k ++ ['='] ++ v) ++ [c]).length,
          (advance (line, column) ('<' :: (n ++ ws ++ k ++ ['='] ++ v) ++ [c])).1,
          (advance (line, column) ('<' :: (n ++ ws ++ k ++ ['='] ++ v) ++ [c])).2)) ∧
    (c ∈ ['"', Char.ofNat 39, '=', '<', Char.ofNat 96] →
      p.parse ('<' :: (n ++ ws ++ k ++ ['='] ++ v) ++ c :: rest) line column =
        some ⟨('<' :: (n ++ ws ++ k ++ ['='] ++ v)).length + 1,
          tag_token.unknown_tag
            ("expecting some attribute value character or some space or '/' or '>'!".toList ++
              " at ".toList ++
              to_string (advance (line, column)
                ('<' :: (n ++ ws ++ k ++ ['='] ++ v) ++ [c])).1 ++ ",".toList ++
              to_string (advance (line, column)
                ('<' :: (n ++ ws ++ k ++ ['='] ++ v) ++ [c])).2),
          (advance (line, column) ('<' :: (n ++ ws ++ k ++ ['='] ++ v) ++ [c])).1,
          (advance (line, column) ('<' :: (n ++ ws ++ k ++ ['='] ++ v) ++ [c])).2⟩) ∧
    ((is_space c = true ∨ c = '/' ∨ c = '>') →
      p.parse_loop initial_locals 0 line column ('<' :: (n ++ ws ++ k ++ ['='] ++ v) ++ [c]) =
        some (⟨if c = '>' then open_tag
            else if c = '/' then open_abracket__name__slash else open_abracket__name__space,
            n, [], [], [(k, v)], false⟩,
          ('<' :: (n ++ ws ++ k ++ ['='] ++ v) ++ [c]).length,
          (advance (line, column) ('<' :: (n ++ ws ++ k ++ ['='] ++ v) ++ [c])).1,
          (advance (line, column) ('<' :: (n ++ ws ++ k ++ ['='] ++ v) ++ [c])).2)) ∧
    ((is_space c = true ∨ c = '/' ∨ c = '>') ∨
      c ∈ ['"', Char.ofNat 39, '=', '<', Char.ofNat 96] ∨ unquoted_value_char c = true) := by
  have hr := reaches_uq_value p n ws k v hn hws hk hv
  refine ⟨fun hc => ?_, fun hc => ?_, fun hc => ?_, unquoted_trichotomy c⟩
  · have e := Reaches.trans hr (reaches_uq p n k [] [c] v (by simp [hc]))
    exact parse_loop_of_reaches e line column
  · have hsw : p.switch_body ⟨open_abracket__name__uq, n, k, v, [], false⟩ c =
        some ⟨open_abracket__name__uq, n, k, v, [], true⟩ := by
      simp only [List.mem_cons, List.mem_singleton, List.not_mem_nil, or_false] at hc
      rcases hc with rfl | rfl | rfl | rfl | rfl <;>
        simp [parser.switch_body, is_space, isspace, is_closed_abracket, is_slash,
          is_unquoted_attribute_value]
    have := parse_of_reaches_error hr rfl hsw rfl (by simp) rest line column
    rw [this, select_result_error _ _ _ _ rfl]
    simp [formulate_error]
  · rcases hc with hc | rfl | rfl
    · have hc1 : c ≠ '>' := is_space_ne hc (by decide)
      have hc2 : c ≠ '/' := is_space_ne hc (by decide)
      have e := Reaches.trans hr (reaches_uq_space p n k v [] c hc)
      simpa [hc1, hc2] using parse_loop_of_reaches e line column
    · have e := Reaches.trans hr (reaches_uq_slash p n k v [])
      simpa using parse_loop_of_reaches e line column
    · have e := Reaches.trans hr (reaches_uq_closed p n k v [])
      simpa using parse_loop_of_reaches e line column

/-- Claim C23, amended, at the tag `<a x=1` followed by `=`: a malformed-input error. -/
theorem C23_unquoted_value_characters_witness :
    (({} : parser).allowing_unquoted_attribute_value = true ∧ valid_name "a".toList = true ∧
      (!" ".toList.isEmpty && all_space " ".toList) = true ∧ valid_name "x".toList = true ∧
      (!"1".toList.isEmpty && "1".toList.all unquoted_value_char) = true ∧
      '=' ∈ ['"', Char.ofNat 39, '=', '<', Char.ofNat 96]) ∧
    ({} : parser).parse "<a x=1=2>".toList 1 0 =
      some ⟨7, tag_token.unknown_tag
        "expecting some attribute value character or some space or '/' or '>'! at 1,7".toList,
        1, 7⟩ :=
  ⟨⟨rfl, by decide, by decide, by decide, by decide, by decide⟩,
    ((C23_unquoted_value_characters {} "a".toList " ".toList "x".toList "1".toList '='
      "2>".toList 1 0 rfl (by decide) (by decide) (by decide) (by decide)).2.1
        (by decide)).trans (by decide)⟩

/-- Claim C23 as stated fails: with `allow_unquoted_attribute_value = true`, in `"<a x=1=2>"`
the `'='` that follows the started value `"1"` is neither whitespace nor `/` nor `>`, yet it is
not appended: the call returns a malformed-input Unknown token. -/
theorem C23_unquoted_value_characters_counterexample :
    ({} : parser).allowing_unquoted_attribute_value = true ∧
    ({} : parser).parse "<a x=1=2>".toList 1 0 =
      some ⟨7, tag_token.unknown_tag
        "expecting some attribute value character or some space or '/' or '>'! at 1,7".toList,
        1, 7⟩ := by
  refine ⟨rfl, by decide⟩

/-! ## Concatenated attributes -/

/-- Further characters of an attribute name, read in state `open_abracket__name__attrname`. -/
theorem reaches_attrname_rest (p : parser) (n : std_string)
    (ps : List (std_string × std_string)) (s acc : std_string) (h : s.all is_name = true) :
    Reaches p ⟨open_abracket__name__attrname, n, acc, [], ps, false⟩ s
      ⟨open_abracket__name__attrname, n, acc ++ s, [], ps, false⟩ := by
  refine Reaches.accumulate
    (g := fun a => ⟨open_abracket__name__attrname, n, a, [], ps, false⟩)
    (P := is_name) ?_ s acc h
  intro a x hx
  have g0 := is_name_not_space hx
  have g1 : x ≠ '=' := is_name_ne hx (by decide)
  exact Reaches.single rfl (by simp [parser.switch_body, g0, g1, hx, is_assignment]) (by simp)

/-- The switch in state `open_abracket__name__attrend` on a name-start character. -/
theorem switch_body_attrend_name (p : parser) (n k v : std_string)
    (ps : List (std_string × std_string)) {c : Char} (hc : is_starting_name c = true) :
    p.switch_body ⟨open_abracket__name__attrend, n, k, v, ps, false⟩ c =
      some (if p.allowing_concated_attribute then
          ⟨open_abracket__name__attrname, n, [c], [], ps ++ [(k, v)], false⟩
        else ⟨open_abracket__name__attrend, n, [], [], ps ++ [(k, v)], true⟩) := by
  have hn := is_starting_name_is_name hc
  have h0 := is_name_not_space hn
  have h1 : c ≠ '>' := is_name_ne hn (by decide)
  have h2 : c ≠ '/' := is_name_ne hn (by decide)
  cases hf : p.allowing_concated_attribute <;>
    simp [parser.switch_body, h0, h1, h2, hc, hf, is_closed_abracket, is_slash]

/-- One double-quoted attribute read in state `open_abracket__name__attrend`, with or without
leading whitespace, when concatenated attributes are allowed. -/
theorem reaches_attribute_tail (p : parser) (hdq : p.allowing_weak_double_quote_coding = true)
    (hcat : p.allowing_concated_attribute = true) (n k v : std_string)
    (ps : List (std_string × std_string)) {a : attribute_source}
    (ha : a.well_formed_tail = true) :
    Reaches p ⟨open_abracket__name__attrend, n, k, v, ps, false⟩ a.render
      ⟨open_abracket__name__attrend, n, a.key, a.value, ps ++ [(k, v)], false⟩ := by
  have ha2 := ha
  simp only [attribute_source.well_formed_tail, Bool.and_eq_true] at ha2
  obtain ⟨⟨⟨⟨h1, h2⟩, h3⟩, h4⟩, h5⟩ := ha2
  cases hw : a.ws1 with
  | cons c cs =>
    have hwf : a.well_formed = true := by
      simp only [attribute_source.well_formed, Bool.and_eq_true]
      exact ⟨⟨⟨⟨⟨by simp [hw], h1⟩, h2⟩, h3⟩, h4⟩, h5⟩
    exact reaches_attribute_from p hdq _ n (ps ++ [(k, v)])
      (reaches_attrend_space p n k v ps) hwf
  | nil =>
    obtain ⟨c, cs, hkey, hc, hcs⟩ := valid_name_cases h2
    have e1 : Reaches p ⟨open_abracket__name__attrend, n, k, v, ps, false⟩ [c]
        ⟨open_abracket__name__attrname, n, [c], [], ps ++ [(k, v)], false⟩ :=
      Reaches.single rfl (by rw [switch_body_attrend_name p n k v ps hc, hcat]; rfl) (by simp)
    have e := Reaches.cons e1 (Reaches.trans (Reaches.trans (Reaches.trans
      (reaches_attrname_rest p n _ cs [c] hcs)
      (reaches_attrequal p n ([c] ++ cs) _ a.ws2 h3))
      (reaches_dq p n ([c] ++ cs) _ a.ws3 h4))
      (reaches_dq_value p hdq n ([c] ++ cs) _ a.value h5))
    simpa [attribute_source.render, hw, hkey, List.append_assoc] using e

theorem reaches_attributes_tail (p : parser)
    (hdq : p.allowing_weak_double_quote_coding = true)
    (hcat : p.allowing_concated_attribute = true) (n : std_string) :
    ∀ (as : List attribute_source) (k v : std_string) (ps : List (std_string × std_string)),
      as.all attribute_source.well_formed_tail = true →
      ∃ k1 v1 ps1,
        Reaches p ⟨open_abracket__name__attrend, n, k, v, ps, false⟩ (render_attributes as)
          ⟨open_abracket__name__attrend, n, k1, v1, ps1, false⟩ ∧
        ps1 ++ [(k1, v1)] = ps ++ (k, v) :: as.map attribute_source.pair
  | [], k, v, ps, _ => ⟨k, v, ps, Reaches.refl p _, by simp⟩
  | a :: as, k, v, ps, h => by
      simp only [List.all_cons, Bool.and_eq_true] at h
      obtain ⟨k1, v1, ps1, e, hps⟩ :=
        reaches_attributes_tail p hdq hcat n as a.key a.value (ps ++ [(k, v)]) h.2
      refine ⟨k1, v1, ps1, ?_, ?_⟩
      · exact Reaches.trans (reaches_attribute_tail p hdq hcat n k v ps h.1) e
      · simpa [attribute_source.pair] using hps

/-- Concatenated attributes that all have a double-quoted value (configuration with
`allow_weak_double_quote_coding` set): with `allow_concated_attribute = true` every attribute
after the first may follow its predecessor without whitespace, and `parse` returns the tag
with all attributes in order; with `allow_concated_attribute = false` a name-start character
`c` right after the attributes `a :: as` gives a malformed-input Unknown token with the
diagnostic of state `open_abracket__name__attrend`, reported at that character. -/
theorem concatenated_attributes_double_quoted (p : parser) (n : std_string) (a : attribute_source)
    (as bs : List attribute_source) (ws r : std_string) (c : Char) (rest : List Char)
    (line column : Nat)
    (hdq : p.allowing_weak_double_quote_coding = true)
    (hn : valid_name n = true) (ha : a.well_formed = true)
    (has : as.all attribute_source.well_formed = true)
    (hbs : bs.all attribute_source.well_formed_tail = true)
    (hws : all_space ws = true) (hc : is_starting_name c = true) :
    (p.allowing_concated_attribute = true →
      p.parse ('<' :: (n ++ render_attributes (a :: bs) ++ ws ++ ['>']) ++ r) line column =
        some ⟨('<' :: (n ++ render_attributes (a :: bs) ++ ws ++ ['>'])).length,
          tag_token.open_tag n ((a :: bs).map attribute_source.pair),
          (advance (line, column) ('<' :: (n ++ render_attributes (a :: bs) ++ ws ++ ['>']))).1,
          (advance (line, column)
            ('<' :: (n ++ render_attributes (a :: bs) ++ ws ++ ['>']))).2⟩) ∧
    (p.allowing_concated_attribute = false →
      p.parse ('<' :: (n ++ render_attributes (a :: as)) ++ c :: rest) line column =
        some ⟨('<' :: (n ++ render_attributes (a :: as))).length + 1,
          tag_token.unknown_tag ("expecting some space or '/' or '>'!".toList ++
            " at ".toList ++
            to_string (advance (line, column)
              ('<' :: (n ++ render_attributes (a :: as)) ++ [c])).1 ++ ",".toList ++
            to_string (advance (line, column)
              ('<' :: (n ++ render_attributes (a :: as)) ++ [c])).2),
          (advance (line, column) ('<' :: (n ++ render_attributes (a :: as)) ++ [c])).1,
          (advance (line, column) ('<' :: (n ++ render_attributes (a :: as)) ++ [c])).2⟩) := by
  constructor
  · intro hcat
    obtain ⟨k1, v1, ps1, e, hps⟩ := reaches_attributes_tail p hdq hcat n bs a.key a.value [] hbs
    have e2 := Reaches.trans (Reaches.trans (Reaches.trans (reaches_tag_name p hn)
      (reaches_attribute_from p hdq _ n [] (reaches_name_to_space p n) ha)) e)
      (reaches_open_tag_attrend p n k1 v1 ps1 ws hws)
    rw [hps] at e2
    have e3 : Reaches p initial_locals ('<' :: (n ++ render_attributes (a :: bs) ++ ws ++ ['>']))
        ⟨open_tag, n, [], [], (a :: bs).map attribute_source.pair, false⟩ := by
      simpa [render_attributes, attribute_source.pair, List.append_assoc] using e2
    rw [parse_of_reaches e3 rfl r line column]
    simp [parser.select_result]
  · intro hcat
    obtain ⟨k1, v1, ps1, e, _⟩ := reaches_attributes_name p hdq n a as
      (by simp [ha, has])
    have e2 := Reaches.trans (reaches_tag_name p hn) e
    have hsw := switch_body_attrend_name p n k1 v1 ps1 hc
    rw [hcat] at hsw
    have := parse_of_reaches_error e2 rfl hsw rfl (by simp) rest line column
    simp only [List.cons_append] at this ⊢
    rw [this, select_result_error _ _ _ _ rfl]
    simp [formulate_error]

/-- The input `<a b="1"c="2">`: both attributes in order when concatenation is allowed, an
error at the `c` (offset 8, cursor 9) when it is not. -/
theorem concatenated_attributes_double_quoted_example :
    (valid_name "a".toList = true ∧
      (⟨" ".toList, "b".toList, [], [], "1".toList⟩ : attribute_source).well_formed = true ∧
      [(⟨[], "c".toList, [], [], "2".toList⟩ : attribute_source)].all
        attribute_source.well_formed_tail = true ∧ is_starting_name 'c' = true) ∧
    ({} : parser).parse "<a b=\"1\"c=\"2\">".toList 1 0 =
      some ⟨14, tag_token.open_tag "a".toList
        [("b".toList, "1".toList), ("c".toList, "2".toList)], 1, 14⟩ ∧
    ({ allowing_concated_attribute := false } : parser).parse "<a b=\"1\"c=\"2\">".toList 1 0 =
      some ⟨9, tag_token.unknown_tag "expecting some space or '/' or '>'! at 1,9".toList,
        1, 9⟩ :=
  ⟨⟨by decide, by decide, by decide, by decide⟩,
    ((concatenated_attributes_double_quoted {} "a".toList ⟨" ".toList, "b".toList, [], [], "1".toList⟩
      [] [⟨[], "c".toList, [], [], "2".toList⟩] [] [] 'c' "=\"2\">".toList 1 0 rfl
      (by decide) (by decide) (by decide) (by decide) (by decide) (by decide)).1 rfl).trans
      (by decide),
    ((concatenated_attributes_double_quoted { allowing_concated_attribute := false } "a".toList
      ⟨" ".toList, "b".toList, [], [], "1".toList⟩
      [] [⟨[], "c".toList, [], [], "2".toList⟩] [] [] 'c' "=\"2\">".toList 1 0 rfl
      (by decide) (by decide) (by decide) (by decide) (by decide) (by decide)).2 rfl).trans
      (by decide)⟩

/-- Claim C24, the code on a tag whose concatenated attribute has no value: on `<a b="1"c>`
with `allow_concated_attribute = true` the `c` after the quoted value starts a new attribute,
but the call returns a ClosingTag with an empty name (cursor 10) and not the tag `a` with the
two attributes; on `<a b="1"c/>` it returns an EmptyTag with an empty name and the attributes
`("b", "1")`, `("a", "")`; with `allow_concated_attribute = false` the `c` gives the Unknown
token of state `open_abracket__name__attrend`. -/
theorem C24_concatenated_attributes_code :
    ({} : parser).parse "<a b=\"1\"c>".toList 1 0 =
        some ⟨10, tag_token.closing_tag [], 1, 10⟩ ∧
      ({} : parser).parse "<a b=\"1\"c/>".toList 1 0 =
        some ⟨11, tag_token.empty_tag [] [("b".toList, "1".toList), ("a".toList, [])],
          1, 11⟩ ∧
      ({ allowing_concated_attribute := false } : parser).parse "<a b=\"1\"c>".toList 1 0 =
        some ⟨9, tag_token.unknown_tag "expecting some space or '/' or '>'! at 1,9".toList,
          1, 9⟩ := by
  refine ⟨by decide, by decide, by decide⟩

/-! ## A `'<'` inside a quoted attribute value -/

/-- An opening tag up to and including the `'='` of its first attribute. -/
theorem reaches_first_attrequal (p : parser) (n ws k ws2 : std_string)
    (hn : valid_name n = true) (hws : (!ws.isEmpty && all_space ws) = true)
    (hk : valid_name k = true) (hws2 : all_space ws2 = true) :
    Reaches p initial_locals ('<' :: (n ++ ws ++ k ++ ws2 ++ ['=']))
      ⟨open_abracket__name__attrequal, n, k, [], [], false⟩ := by
  simp only [Bool.and_eq_true] at hws
  cases ws with
  | nil => simp at hws
  | cons c cs =>
    obtain ⟨_, hsp⟩ := hws
    simp only [all_space, List.all_cons, Bool.and_eq_true] at hsp
    have e := Reaches.trans (Reaches.trans (Reaches.trans (Reaches.trans
      (reaches_tag_name p hn) (reaches_name_to_space p n c hsp.1))
      (reaches_name_space p n [] cs hsp.2)) (reaches_attrname p n [] hk))
      (reaches_attrequal p n k [] ws2 hws2)
    simpa [List.append_assoc] using e

theorem reaches_sq (p : parser) (n k : std_string) (ps : List (std_string × std_string))
    (ws : std_string) (h : all_space ws = true) :
    Reaches p ⟨open_abracket__name__attrequal, n, k, [], ps, false⟩ (ws ++ [Char.ofNat 39])
      ⟨open_abracket__name__sq, n, k, [], ps, false⟩ := by
  have e1 : Reaches p ⟨open_abracket__name__attrequal, n, k, [], ps, false⟩ ws
      ⟨open_abracket__name__attrequal, n, k, [], ps, false⟩ := by
    refine Reaches.loop (P := is_space) ?_ ws h
    intro x hx
    exact Reaches.single rfl (by simp [parser.switch_body, hx]) (by simp)
  refine Reaches.trans e1 ?_
  exact Reaches.single rfl
    (by simp [parser.switch_body, is_double_quote, is_single_quote,
      (by decide : is_space (Char.ofNat 39) = false)])
    (by simp)

/-- Characters of a double-quoted value other than `'"'` and `'<'`, for every configuration. -/
theorem reaches_dq_plain (p : parser) (n k : std_string) (ps : List (std_string × std_string))
    (s acc : std_string) (h : s.all (fun c => !(c == '"') && !(c == '<')) = true) :
    Reaches p ⟨open_abracket__name__dq, n, k, acc, ps, false⟩ s
      ⟨open_abracket__name__dq, n, k, acc ++ s, ps, false⟩ := by
  refine Reaches.accumulate (g := fun a => ⟨open_abracket__name__dq, n, k, a, ps, false⟩)
    (P := fun c => !(c == '"') && !(c == '<')) ?_ s acc h
  intro a x hx
  simp only [Bool.and_eq_true, Bool.not_eq_true', beq_eq_false_iff_ne, ne_eq] at hx
  exact Reaches.single rfl
    (by simp [parser.switch_body, is_double_quote, is_open_abracket, hx.1, hx.2]) (by simp)

/-- Characters of a single-quoted value other than the single quote and `'<'`, for every
configuration. -/
theorem reaches_sq_plain (p : parser) (n k : std_string) (ps : List (std_string × std_string))
    (s acc : std_string)
    (h : s.all (fun c => !(c == Char.ofNat 39) && !(c == '<')) = true) :
    Reaches p ⟨open_abracket__name__sq, n, k, acc, ps, false⟩ s
      ⟨open_abracket__name__sq, n, k, acc ++ s, ps, false⟩ := by
  refine Reaches.accumulate (g := fun a => ⟨open_abracket__name__sq, n, k, a, ps, false⟩)
    (P := fun c => !(c == Char.ofNat 39) && !(c == '<')) ?_ s acc h
  intro a x hx
  simp only [Bool.and_eq_true, Bool.not_eq_true', beq_eq_false_iff_ne, ne_eq] at hx
  exact Reaches.single rfl
    (by simp [parser.switch_body, is_single_quote, is_open_abracket, hx.1, hx.2]) (by simp)

/-- Characters of a double-quoted value other than `'"'`, from any buffer, when
`allow_weak_double_quote_coding` is set; then the closing quote. -/
theorem reaches_dq_weak (p : parser) (hdq : p.allowing_weak_double_quote_coding = true)
    (n k : std_string) (ps : List (std_string × std_string)) (s acc : std_string)
    (h : s.all (fun c => !(c == '"')) = true) :
    Reaches p ⟨open_abracket__name__dq, n, k, acc, ps, false⟩ (s ++ ['"'])
      ⟨open_abracket__name__attrend, n, k, acc ++ s, ps, false⟩ := by
  have e1 : Reaches p ⟨open_abracket__name__dq, n, k, acc, ps, false⟩ s
      ⟨open_abracket__name__dq, n, k, acc ++ s, ps, false⟩ := by
    refine Reaches.accumulate (g := fun a => ⟨open_abracket__name__dq, n, k, a, ps, false⟩)
      (P := fun c => !(c == '"')) ?_ s acc h
    intro a x hx
    simp only [Bool.not_eq_true', beq_eq_false_iff_ne, ne_eq] at hx
    exact Reaches.single rfl (by simp [parser.switch_body, is_double_quote, hx, hdq]) (by simp)
  exact Reaches.trans e1
    (Reaches.single rfl (by simp [parser.switch_body, is_double_quote]) (by simp))

/-- Characters of a single-quoted value other than the single quote, from any buffer, when
`allow_weak_single_quote_coding` is set; then the closing quote. -/
theorem reaches_sq_weak (p : parser) (hsq : p.allowing_weak_single_quote_coding = true)
    (n k : std_string) (ps : List (std_string × std_string)) (s acc : std_string)
    (h : s.all (fun c => !(c == Char.ofNat 39)) = true) :
    Reaches p ⟨open_abracket__name__sq, n, k, acc, ps, false⟩ (s ++ [Char.ofNat 39])
      ⟨open_abracket__name__attrend, n, k, acc ++ s, ps, false⟩ := by
  have e1 : Reaches p ⟨open_abracket__name__sq, n, k, acc, ps, false⟩ s
      ⟨open_abracket__name__sq, n, k, acc ++ s, ps, false⟩ := by
    refine Reaches.accumulate (g := fun a => ⟨open_abracket__name__sq, n, k, a, ps, false⟩)
      (P := fun c => !(c == Char.ofNat 39)) ?_ s acc h
    intro a x hx
    simp only [Bool.not_eq_true', beq_eq_false_iff_ne, ne_eq] at hx
    exact Reaches.single rfl (by simp [parser.switch_body, is_single_quote, hx, hsq]) (by simp)
  exact Reaches.trans e1
    (Reaches.single rfl (by simp [parser.switch_body, is_single_quote]) (by simp))

/-- Claim C25. Weak quote coding: for every configuration, every quote character `q` (double
or single) and every tag with one attribute whose `q`-quoted value is `v1 ++ "<" ++ v2` (`v1`
without `q` and `'<'`, `v2` without `q`): when the tolerance flag of `q` is set, `parse` keeps
the `'<'` in the value and returns the tag; when it is not set, `parse` returns a
malformed-input Unknown token with the diagnostic of the state of `q`, reported at the `'<'`.
Only the flag of `q` itself enters: the other quote flag is arbitrary. -/
theorem C25_weak_quote_coding (p : parser) (q : Char) (n ws k ws2 ws3 v1 v2 r : std_string)
    (rest : List Char) (line column : Nat)
    (hq : is_quote q = true)
    (hn : valid_name n = true) (hws : (!ws.isEmpty && all_space ws) = true)
    (hk : valid_name k = true) (hws2 : all_space ws2 = true) (hws3 : all_space ws3 = true)
    (hv1 : v1.all (fun c => !(c == q) && !(c == '<')) = true)
    (hv2 : v2.all (fun c => !(c == q)) = true) :
    (weak_quote_flag p q = true →
      p.parse ('<' :: (n ++ ws ++ k ++ ws2 ++ ['='] ++ ws3 ++ [q] ++ v1 ++ ['<'] ++ v2 ++ [q] ++
          ['>']) ++ r) line column =
        some ⟨('<' :: (n ++ ws ++ k ++ ws2 ++ ['='] ++ ws3 ++ [q] ++ v1 ++ ['<'] ++ v2 ++ [q] ++
            ['>'])).length,
          tag_token.open_tag n [(k, v1 ++ '<' :: v2)],
          (advance (line, column) ('<' :: (n ++ ws ++ k ++ ws2 ++ ['='] ++ ws3 ++ [q] ++ v1 ++
            ['<'] ++ v2 ++ [q] ++ ['>']))).1,
          (advance (line, column) ('<' :: (n ++ ws ++ k ++ ws2 ++ ['='] ++ ws3 ++ [q] ++ v1 ++
            ['<'] ++ v2 ++ [q] ++ ['>']))).2⟩) ∧
    (weak_quote_flag p q = false →
      ∃ msg, formulate_error (quote_state q) = some msg ∧
        p.parse ('<' :: (n ++ ws ++ k ++ ws2 ++ ['='] ++ ws3 ++ [q] ++ v1) ++ '<' :: rest)
            line column =
          some ⟨('<' :: (n ++ ws ++ k ++ ws2 ++ ['='] ++ ws3 ++ [q] ++ v1)).length + 1,
            tag_token.unknown_tag (msg ++ " at ".toList ++
              to_string (advance (line, column)
                ('<' :: (n ++ ws ++ k ++ ws2 ++ ['='] ++ ws3 ++ [q] ++ v1) ++ ['<'])).1 ++
              ",".toList ++
              to_string (advance (line, column)
                ('<' :: (n ++ ws ++ k ++ ws2 ++ ['='] ++ ws3 ++ [q] ++ v1) ++ ['<'])).2),
            (advance (line, column)
              ('<' :: (n ++ ws ++ k ++ ws2 ++ ['='] ++ ws3 ++ [q] ++ v1) ++ ['<'])).1,
            (advance (line, column)
              ('<' :: (n ++ ws ++ k ++ ws2 ++ ['='] ++ ws3 ++ [q] ++ v1) ++ ['<'])).2⟩) := by
  have e0 := reaches_first_attrequal p n ws k ws2 hn hws hk hws2
  have hv1q : v1.all (fun c => !(c == q)) = true := by
    simp only [List.all_eq_true, Bool.and_eq_true] at hv1 ⊢
    exact fun x hx => (hv1 x hx).1
  simp only [is_quote, Bool.or_eq_true, beq_iff_eq] at hq
  rcases hq with rfl | rfl
  · have e1 : Reaches p initial_locals ('<' :: (n ++ ws ++ k ++ ws2 ++ ['='] ++ ws3 ++ ['"'] ++ v1))
        ⟨open_abracket__name__dq, n, k, v1, [], false⟩ := by
      have := Reaches.trans (Reaches.trans e0 (reaches_dq p n k [] ws3 hws3))
        (reaches_dq_plain p n k [] v1 [] hv1)
      simpa [List.append_assoc] using this
    constructor
    · intro hf
      have hdq : p.allowing_weak_double_quote_coding = true := by
        simpa [weak_quote_flag] using hf
      have hv : ('<' :: v2).all (fun c => !(c == '"')) = true := by
        simp only [List.all_cons, Bool.and_eq_true]
        exact ⟨by decide, hv2⟩
      have e2 := Reaches.trans (Reaches.trans e1 (reaches_dq_weak p hdq n k [] ('<' :: v2) v1 hv))
        (reaches_open_tag_attrend p n k (v1 ++ '<' :: v2) [] [] rfl)
      have e3 : Reaches p initial_locals ('<' :: (n ++ ws ++ k ++ ws2 ++ ['='] ++ ws3 ++ ['"'] ++
          v1 ++ ['<'] ++ v2 ++ ['"'] ++ ['>']))
          ⟨open_tag, n, [], [], [(k, v1 ++ '<' :: v2)], false⟩ := by
        simpa [List.append_assoc] using e2
      rw [parse_of_reaches e3 rfl r line column]
      simp [parser.select_result]
    · intro hf
      have hdq : p.allowing_weak_double_quote_coding = false := by
        simpa [weak_quote_flag] using hf
      refine ⟨_, rfl, ?_⟩
      have := parse_of_reaches_error e1 rfl
        (w := ⟨open_abracket__name__dq, n, k, v1, [], true⟩) (c := '<')
        (by simp [parser.switch_body, is_double_quote, is_open_abracket, hdq]) rfl (by simp)
        rest line column
      rw [this, select_result_error _ _ _ _ rfl]
      simp [formulate_error, quote_state]
  · have e1 : Reaches p initial_locals
        ('<' :: (n ++ ws ++ k ++ ws2 ++ ['='] ++ ws3 ++ [Char.ofNat 39] ++ v1))
        ⟨open_abracket__name__sq, n, k, v1, [], false⟩ := by
      have := Reaches.trans (Reaches.trans e0 (reaches_sq p n k [] ws3 hws3))
        (reaches_sq_plain p n k [] v1 [] hv1)
      simpa [List.append_assoc] using this
    constructor
    · intro hf
      have hsq : p.allowing_weak_single_quote_coding = true := by
        simpa [weak_quote_flag] using hf
      have hv : ('<' :: v2).all (fun c => !(c == Char.ofNat 39)) = true := by
        simp only [List.all_cons, Bool.and_eq_true]
        exact ⟨by decide, hv2⟩
      have e2 := Reaches.trans (Reaches.trans e1 (reaches_sq_weak p hsq n k [] ('<' :: v2) v1 hv))
        (reaches_open_tag_attrend p n k (v1 ++ '<' :: v2) [] [] rfl)
      have e3 : Reaches p initial_locals ('<' :: (n ++ ws ++ k ++ ws2 ++ ['='] ++ ws3 ++
          [Char.ofNat 39] ++ v1 ++ ['<'] ++ v2 ++ [Char.ofNat 39] ++ ['>']))
          ⟨open_tag, n, [], [], [(k, v1 ++ '<' :: v2)], false⟩ := by
        simpa [List.append_assoc] using e2
      rw [parse_of_reaches e3 rfl r line column]
      simp [parser.select_result]
    · intro hf
      have hsq : p.allowing_weak_single_quote_coding = false := by
        simpa [weak_quote_flag] using hf
      refine ⟨_, rfl, ?_⟩
      have := parse_of_reaches_error e1 rfl
        (w := ⟨open_abracket__name__sq, n, k, v1, [], true⟩) (c := '<')
        (by simp [parser.switch_body, is_single_quote, is_open_abracket, hsq]) rfl (by simp)
        rest line column
      rw [this, select_result_error _ _ _ _ rfl]
      simp [formulate_error, quote_state]

/-- Claim C25 at `<a x="1<2">` and `<a x='1<2'>`: with both flags set the `'<'` is kept in the
value; with only the double-quote flag off the double-quoted value is rejected at the `'<'`
(offset 7, cursor 8) and the single-quoted one is still accepted. -/
theorem C25_weak_quote_coding_witness :
    (is_quote '"' = true ∧ is_quote (Char.ofNat 39) = true ∧ valid_name "a".toList = true ∧
      (!" ".toList.isEmpty && all_space " ".toList) = true ∧ valid_name "x".toList = true) ∧
    ({} : parser).parse "<a x=\"1<2\">".toList 1 0 =
      some ⟨11, tag_token.open_tag "a".toList [("x".toList, "1<2".toList)], 1, 11⟩ ∧
    ({ allowing_weak_double_quote_coding := false } : parser).parse "<a x=\"1<2\">".toList 1 0 =
      some ⟨8, tag_token.unknown_tag
        "expecting some attribute value character or '\"'! at 1,8".toList, 1, 8⟩ ∧
    ({ allowing_weak_double_quote_coding := false } : parser).parse
        ("<a x=".toList ++ [Char.ofNat 39] ++ "1<2".toList ++ [Char.ofNat 39] ++ ">".toList)
        1 0 =
      some ⟨11, tag_token.open_tag "a".toList [("x".toList, "1<2".toList)], 1, 11⟩ :=
  ⟨⟨by decide, by decide, by decide, by decide, by decide⟩,
    ((C25_weak_quote_coding {} '"' "a".toList " ".toList "x".toList [] [] "1".toList
      "2".toList [] [] 1 0 (by decide) (by decide) (by decide) (by decide) (by decide)
      (by decide) (by decide) (by decide)).1 (by decide)).trans (by decide),
    (by
      obtain ⟨msg, hm, hp⟩ := (C25_weak_quote_coding
        { allowing_weak_double_quote_coding := false } '"' "a".toList " ".toList "x".toList
        [] [] "1".toList "2".toList [] "2\">".toList 1 0 (by decide) (by decide) (by decide)
        (by decide) (by decide) (by decide) (by decide) (by decide)).2 (by decide)
      have hmsg : some msg = some "expecting some attribute value character or '\"'!".toList :=
        hm.symm.trans (by decide)
      cases hmsg
      exact hp.trans (by decide)),
    ((C25_weak_quote_coding { allowing_weak_double_quote_coding := false } (Char.ofNat 39)
      "a".toList " ".toList "x".toList [] [] "1".toList "2".toList [] [] 1 0 (by decide)
      (by decide) (by decide) (by decide) (by decide) (by decide) (by decide)
      (by decide)).1 (by decide)).trans (by decide)⟩

/-! ## Flags that do not change the run -/

theorem switch_body_weak_flags (p : parser) (b1 b2 : Bool) (v : locals) (c : Char) :
    ({ p with allowing_weak_comment_coding := b1, allowing_weak_pi_coding := b2 } :
        parser).switch_body v c = p.switch_body v c := by
  obtain ⟨st, p1, p2, p3, ps, e⟩ := v
  cases st <;> simp [parser.switch_body, is_char]

theorem parse_loop_weak_flags (p : parser) (b1 b2 : Bool) :
    ∀ (input : List Char) (v : locals) (iter line column : Nat),
      ({ p with allowing_weak_comment_coding := b1, allowing_weak_pi_coding := b2 } :
          parser).parse_loop v iter line column input = p.parse_loop v iter line column input
  | [], v, iter, line, column => rfl
  | c :: cs, v, iter, line, column => by
      simp only [parser.parse_loop, switch_body_weak_flags]
      split
      · rfl
      · cases p.switch_body v c with
        | none => rfl
        | some w => exact parse_loop_weak_flags p b1 b2 cs w _ _ _

/-- Claim C26. Comment/PI tolerance flags are inert: for every configuration and every input,
the result of `parse` (cursor, token and counters) is the same for every value of
`allow_weak_comment_coding` and `allow_weak_pi_coding`; and in the body states of a comment or
of a processing instruction the switch has a transition without error for every character. -/
theorem C26_comment_pi_flags_inert (p : parser) (b1 b2 : Bool) (input : List Char)
    (line column : Nat) :
    ({ p with allowing_weak_comment_coding := b1, allowing_weak_pi_coding := b2 } :
        parser).parse input line column = p.parse input line column ∧
    ∀ (v : locals) (c : Char), comment_pi_body_state v.state = true → v.error = false →
      ∃ w, p.switch_body v c = some w ∧ w.error = false := by
  constructor
  · simp only [parser.parse, parse_loop_weak_flags]
  · intro v c hs he
    obtain ⟨st, p1, p2, p3, ps, e⟩ := v
    simp only at hs he
    subst he
    cases st <;> first
      | exact False.elim (Bool.false_ne_true hs)
      | (simp only [parser.switch_body, is_char, Bool.true_or, if_true]
         repeat' split
         all_goals exact ⟨_, rfl, rfl⟩)

/-- Claim C26 at a comment and a processing instruction parsed with both flags off and with
the defaults, and at a body character in the comment body state. -/
theorem C26_comment_pi_flags_inert_witness :
    (({ allowing_weak_comment_coding := false, allowing_weak_pi_coding := false } :
        parser).parse "<!--a<b&-->".toList 1 0 =
      ({} : parser).parse "<!--a<b&-->".toList 1 0) ∧
    ({} : parser).parse "<!--a<b&-->".toList 1 0 =
      some ⟨11, tag_token.comment "a<b&".toList, 1, 11⟩ ∧
    ∃ w, ({} : parser).switch_body
        ⟨open_abracket__exclamation_mark__bar__bar, [], [], [], [], false⟩ '<' = some w ∧
      w.error = false :=
  ⟨(C26_comment_pi_flags_inert {} false false "<!--a<b&-->".toList 1 0).1, by decide,
    (C26_comment_pi_flags_inert {} false false [] 0 0).2
      ⟨open_abracket__exclamation_mark__bar__bar, [], [], [], [], false⟩ '<' rfl rfl⟩

/-! ## `skip_text` -/

theorem switch_body_not_initial (p : parser) (v w : locals) (c : Char)
    (h : p.switch_body v c = some w) : w.state ≠ initial := by
  obtain ⟨st, p1, p2, p3, ps, e⟩ := v
  cases st <;> simp only [parser.switch_body] at h <;> (repeat' split at h) <;> cases h <;>
    simp

/-- One round under `skip_text = true` on the emptied local variables is the round under
`skip_text = false`, emptied. -/
theorem switch_body_skip_text (p : parser) (v : locals) (c : Char)
    (hv : v.state = initial → v.param1 = []) :
    ({ p with skipping_text := true } : parser).switch_body (text_forget v) c =
      (({ p with skipping_text := false } : parser).switch_body v c).map text_forget := by
  obtain ⟨st, p1, p2, p3, ps, e⟩ := v
  cases st
  case initial =>
    have hp1 : p1 = [] := hv rfl
    subst hp1
    rw [show text_forget (⟨initial, [], p2, p3, ps, e⟩ : locals) = ⟨initial, [], p2, p3, ps, e⟩
      from rfl]
    simp only [parser.switch_body]
    split <;> simp [text_forget]
  case characters =>
    rw [show text_forget (⟨characters, p1, p2, p3, ps, e⟩ : locals) =
      ⟨characters, [], p2, p3, ps, e⟩ from rfl]
    simp only [parser.switch_body]
    split <;> simp [text_forget]
  case text => rfl
  all_goals
    rw [show ∀ x : locals, text_forget x = if x.state = characters ∨ x.state = text then
      { x with param1 := [] } else x from fun _ => rfl]
    simp only [reduceCtorEq, or_self, if_false]
    simp only [parser.switch_body, apply_ite (Option.map text_forget),
      Option.map_some', Option.map_none']
    try simp [text_forget]

theorem parse_loop_skip_text (p : parser) :
    ∀ (input : List Char) (v : locals) (iter line column : Nat),
      (v.state = initial → v.param1 = []) →
      ({ p with skipping_text := true } : parser).parse_loop (text_forget v) iter line column
          input =
        (({ p with skipping_text := false } : parser).parse_loop v iter line column input).map
          (fun x => (text_forget x.1, x.2))
  | [], v, iter, line, column, _ => rfl
  | c :: cs, v, iter, line, column, hv => by
      have hst : (text_forget v).state = v.state := by
        simp only [text_forget]; split <;> rfl
      have her : (text_forget v).error = v.error := by
        simp only [text_forget]; split <;> rfl
      cases hstop : (is_accepting_state v.state || v.error) with
      | true =>
        rw [parse_loop_stop _ v iter line column _ hstop,
          parse_loop_stop _ (text_forget v) iter line column _ (by rw [hst, her]; exact hstop)]
        rfl
      | false =>
        have hsw := switch_body_skip_text p v c hv
        cases hw : ({ p with skipping_text := false } : parser).switch_body v c with
        | none =>
          rw [hw] at hsw
          simp only [parser.parse_loop, hst, her, hstop, hsw, hw]
          rfl
        | some w =>
          rw [hw] at hsw
          have hwst : (text_forget w).state = w.state := by
            simp only [text_forget]; split <;> rfl
          rw [parse_loop_cons _ v w iter line column c _ hstop hw,
            parse_loop_cons _ (text_forget v) (text_forget w) iter line column c _
              (by rw [hst, her]; exact hstop) hsw, hwst]
          exact parse_loop_skip_text p cs w _ _ _
            (fun h => absurd h (switch_body_not_initial _ v w c hw))

theorem select_result_skip_text (v : locals) (it l c : Nat)
    (hv : v.state = initial → v.param1 = []) :
    parser.select_result (text_forget v) it l c =
      (parser.select_result v it l c).map erase_text := by
  obtain ⟨st, p1, p2, p3, ps, e⟩ := v
  cases e with
  | true =>
    have h1 : (text_forget ⟨st, p1, p2, p3, ps, true⟩).state = st := by
      simp only [text_forget]; split <;> rfl
    have h2 : (text_forget ⟨st, p1, p2, p3, ps, true⟩).error = true := by
      simp only [text_forget]; split <;> rfl
    rw [select_result_error _ _ _ _ h2,
      select_result_error ⟨st, p1, p2, p3, ps, true⟩ _ _ _ rfl, h1]
    cases formulate_error st <;> rfl
  | false =>
    cases st
    case initial =>
      have hp1 : p1 = [] := hv rfl
      subst hp1
      rfl
    all_goals rfl

/-- Claim C28. `skip_text` keeps boundaries: for every configuration and every input, the
result of `parse` with `skip_text = true` is the result with `skip_text = false` (all other
flags equal) in which the content of a Text token is replaced by the empty string: the cursor
and the final counters are the same, and every other token is unchanged. -/
theorem C28_skip_text (p : parser) (input : List Char) (line column : Nat) :
    ({ p with skipping_text := true } : parser).parse input line column =
      (({ p with skipping_text := false } : parser).parse input line column).map erase_text := by
  have hf : text_forget initial_locals = initial_locals := rfl
  have hl := parse_loop_skip_text p input initial_locals 0 line column (fun _ => rfl)
  rw [hf] at hl
  unfold parser.parse
  rw [hl]
  cases hr : ({ p with skipping_text := false } : parser).parse_loop initial_locals 0 line
      column input with
  | none => rfl
  | some x =>
    obtain ⟨w, it, l1, c1⟩ := x
    simp only [Option.map_some']
    apply select_result_skip_text
    intro hw
    -- the loop is left in state `initial` only when it has not run
    cases input with
    | nil =>
      simp only [parser.parse_loop, Option.some.injEq, Prod.mk.injEq] at hr
      rw [← hr.1]
      rfl
    | cons c cs =>
      exfalso
      by_cases hc : is_open_abracket c = true
      · rw [parse_loop_cons _ initial_locals ⟨open_abracket, [], [], [], [], false⟩ 0 line column
          c cs rfl (by simp [parser.switch_body, initial_locals, hc])] at hr
        have := parse_loop_markup _ cs ⟨open_abracket, [], [], [], [], false⟩ w _ _ _ it l1 c1
          rfl hr
        rw [hw] at this
        exact absurd this (by decide)
      · rw [parse_loop_cons _ initial_locals ⟨characters, [c], [], [], [], false⟩ 0 line column
          c cs rfl (by simp [parser.switch_body, initial_locals, hc])] at hr
        have := (parse_loop_characters _ cs _ w _ _ _ it l1 c1 hr (by rw [hw]; rfl)).1
        rw [this] at hw
        exact absurd hw (by simp)

/-! ## `skip_cdata` -/

/-- Nothing is written to `param1` before the body of a CDATA section is entered. -/
theorem switch_body_cdata_keyword (p : parser) (v w : locals) (c : Char)
    (hv : cdata_keyword_state v.state = true → v.param1 = [])
    (h : p.switch_body v c = some w) :
    cdata_keyword_state w.state = true → w.param1 = [] := by
  obtain ⟨st, p1, p2, p3, ps, e⟩ := v
  cases st <;> simp only [parser.switch_body] at h <;> (repeat' split at h) <;> cases h <;>
    first
    | (intro hk; exact False.elim (Bool.false_ne_true hk))
    | (intro _; exact hv rfl)

/-- One round under `skip_cdata = true` on the emptied local variables is the round under
`skip_cdata = false`, emptied. -/
theorem switch_body_skip_cdata (p : parser) (v : locals) (c : Char)
    (hv : cdata_keyword_state v.state = true → v.param1 = []) :
    ({ p with skipping_cdata := true } : parser).switch_body (cdata_forget v) c =
      (({ p with skipping_cdata := false } : parser).switch_body v c).map cdata_forget := by
  obtain ⟨st, p1, p2, p3, ps, e⟩ := v
  cases st
  case open_abracket__exclamation_mark__sbracket__big_c__big_d__big_a__big_t__big_a =>
    have hp1 : p1 = [] := hv rfl
    subst hp1
    rw [show cdata_forget (⟨open_abracket__exclamation_mark__sbracket__big_c__big_d__big_a__big_t__big_a,
      [], p2, p3, ps, e⟩ : locals) =
      ⟨open_abracket__exclamation_mark__sbracket__big_c__big_d__big_a__big_t__big_a,
        [], p2, p3, ps, e⟩ from rfl]
    simp only [parser.switch_body]
    split <;> rfl
  case open_abracket__exclamation_mark__sbracket__big_c__big_d__big_a__big_t__big_a__open_sbracket =>
    rw [show cdata_forget (⟨open_abracket__exclamation_mark__sbracket__big_c__big_d__big_a__big_t__big_a__open_sbracket,
      p1, p2, p3, ps, e⟩ : locals) =
      ⟨open_abracket__exclamation_mark__sbracket__big_c__big_d__big_a__big_t__big_a__open_sbracket,
        [], p2, p3, ps, e⟩ from rfl]
    simp only [parser.switch_body, is_char, if_true]
    split <;> rfl
  case open_abracket__exclamation_mark__sbracket__big_c__big_d__big_a__big_t__big_a__open_sbracket__closed_sbracket =>
    rw [show cdata_forget (⟨open_abracket__exclamation_mark__sbracket__big_c__big_d__big_a__big_t__big_a__open_sbracket__closed_sbracket,
      p1, p2, p3, ps, e⟩ : locals) =
      ⟨open_abracket__exclamation_mark__sbracket__big_c__big_d__big_a__big_t__big_a__open_sbracket__closed_sbracket,
        [], p2, p3, ps, e⟩ from rfl]
    simp only [parser.switch_body, is_char, if_true]
    split <;> rfl
  case open_abracket__exclamation_mark__sbracket__big_c__big_d__big_a__big_t__big_a__open_sbracket__closed_sbracket__closed_sbracket =>
    rw [show cdata_forget (⟨open_abracket__exclamation_mark__sbracket__big_c__big_d__big_a__big_t__big_a__open_sbracket__closed_sbracket__closed_sbracket,
      p1, p2, p3, ps, e⟩ : locals) =
      ⟨open_abracket__exclamation_mark__sbracket__big_c__big_d__big_a__big_t__big_a__open_sbracket__closed_sbracket__closed_sbracket,
        [], p2, p3, ps, e⟩ from rfl]
    simp only [parser.switch_body, is_char, if_true]
    split <;> rfl
  case cdata => rfl
  all_goals
    rw [show ∀ x : locals, cdata_forget x = if cdata_body_state x.state = true then
      { x with param1 := [] } else x from fun _ => rfl]
    simp only [cdata_body_state, beq_iff_eq, Bool.or_eq_true, reduceCtorEq, or_self, if_false]
    simp only [parser.switch_body, apply_ite (Option.map cdata_forget),
      Option.map_some', Option.map_none']
    try simp [cdata_forget, cdata_body_state]

theorem parse_loop_skip_cdata (p : parser) :
    ∀ (input : List Char) (v : locals) (iter line column : Nat),
      (cdata_keyword_state v.state = true → v.param1 = []) →
      ({ p with skipping_cdata := true } : parser).parse_loop (cdata_forget v) iter line column
          input =
        (({ p with skipping_cdata := false } : parser).parse_loop v iter line column input).map
          (fun x => (cdata_forget x.1, x.2))
  | [], v, iter, line, column, _ => rfl
  | c :: cs, v, iter, line, column, hv => by
      have hst : (cdata_forget v).state = v.state := by
        simp only [cdata_forget]; split <;> rfl
      have her : (cdata_forget v).error = v.error := by
        simp only [cdata_forget]; split <;> rfl
      cases hstop : (is_accepting_state v.state || v.error) with
      | true =>
        rw [parse_loop_stop _ v iter line column _ hstop,
          parse_loop_stop _ (cdata_forget v) iter line column _ (by rw [hst, her]; exact hstop)]
        rfl
      | false =>
        have hsw := switch_body_skip_cdata p v c hv
        cases hw : ({ p with skipping_cdata := false } : parser).switch_body v c with
        | none =>
          rw [hw] at hsw
          simp only [parser.parse_loop, hst, her, hstop, hsw, hw]
          rfl
        | some w =>
          rw [hw] at hsw
          have hwst : (cdata_forget w).state = w.state := by
            simp only [cdata_forget]; split <;> rfl
          rw [parse_loop_cons _ v w iter line column c _ hstop hw,
            parse_loop_cons _ (cdata_forget v) (cdata_forget w) iter line column c _
              (by rw [hst, her]; exact hstop) hsw, hwst]
          exact parse_loop_skip_cdata p cs w _ _ _ (switch_body_cdata_keyword _ v w c hv hw)

theorem select_result_skip_cdata (v : locals) (it l c : Nat) :
    parser.select_result (cdata_forget v) it l c =
      (parser.select_result v it l c).map erase_cdata := by
  obtain ⟨st, p1, p2, p3, ps, e⟩ := v
  cases e with
  | true =>
    have h1 : (cdata_forget ⟨st, p1, p2, p3, ps, true⟩).state = st := by
      simp only [cdata_forget]; split <;> rfl
    have h2 : (cdata_forget ⟨st, p1, p2, p3, ps, true⟩).error = true := by
      simp only [cdata_forget]; split <;> rfl
    rw [select_result_error _ _ _ _ h2,
      select_result_error ⟨st, p1, p2, p3, ps, true⟩ _ _ _ rfl, h1]
    cases formulate_error st <;> rfl
  | false => cases st <;> rfl

/-- Claim C29. `skip_cdata` keeps boundaries: for every configuration and every input, the
result of `parse` with `skip_cdata = true` is the result with `skip_cdata = false` (all other
flags equal) in which the content of a CData token is replaced by the empty string: the cursor,
the token kind and the counters are the same, and every other result is unchanged. -/
theorem C29_skip_cdata (p : parser) (input : List Char) (line column : Nat) :
    ({ p with skipping_cdata := true } : parser).parse input line column =
      (({ p with skipping_cdata := false } : parser).parse input line column).map
        erase_cdata := by
  have hf : cdata_forget initial_locals = initial_locals := rfl
  have hl := parse_loop_skip_cdata p input initial_locals 0 line column (fun _ => rfl)
  rw [hf] at hl
  unfold parser.parse
  rw [hl]
  cases ({ p with skipping_cdata := false } : parser).parse_loop initial_locals 0 line
      column input with
  | none => rfl
  | some x =>
    obtain ⟨w, it, l1, c1⟩ := x
    exact select_result_skip_cdata w it l1 c1

/-! ## `skip_comment` -/

/-- Claim C30, the code on a comment whose body has a single dash: on `<!--a-b->c-->` the call
with `skip_comment = false` returns `Comment "a-b->c"` with the cursor 13, the call with
`skip_comment = true` returns an empty Comment with the cursor 9: after the first single `'-'`
the skipping run stays in the one-dash state, so the next `'-'` counts as the second dash and
the following `'>'` ends the comment early. -/
theorem C30_skip_comment_code :
    ({} : parser).parse "<!--a-b->c-->".toList 1 0 =
      some ⟨13, tag_token.comment "a-b->c".toList, 1, 13⟩ ∧
    ({ skipping_comment := true } : parser).parse "<!--a-b->c-->".toList 1 0 =
      some ⟨9, tag_token.comment [], 1, 9⟩ := by
  refine ⟨by decide, by decide⟩

/-! ## `skip_pi` -/

/-- Claim C31, the code on a processing instruction whose body has a `'?'` that is not followed
by `'>'`: on `<?a x?y>z?>` the call with `skip_pi = false` returns the instruction with body
`"x?y>z"` and the cursor 11, the call with `skip_pi = true` returns an empty body with the
cursor 8: after the `'?'` the skipping run stays in the state that waits for `'>'`, so the
later `'>'` ends the instruction early. -/
theorem C31_skip_pi_code :
    ({} : parser).parse "<?a x?y>z?>".toList 1 0 =
      some ⟨11, tag_token.pi "a".toList "x?y>z".toList, 1, 11⟩ ∧
    ({ skipping_pi := true } : parser).parse "<?a x?y>z?>".toList 1 0 =
      some ⟨8, tag_token.pi "a".toList [], 1, 8⟩ := by
  refine ⟨by decide, by decide⟩

/-! ## The raw-text scanner, one round at a time -/

theorem script_loop_stop (acceptId : std_string → Bool) (v : script_locals)
    (iter line column : Nat) (rest : List Char) (h : v.state = script_state.closing_tag) :
    parse_until_closing_tag_loop acceptId v iter line column rest =
      some (v, iter, line, column) := by
  cases rest with
  | nil => rfl
  | cons c cs => simp only [parse_until_closing_tag_loop, h, if_true]

theorem script_loop_cons (acceptId : std_string → Bool) (v w : script_locals)
    (iter line column : Nat) (c : Char) (rest : List Char)
    (h : v.state ≠ script_state.closing_tag) (hw : script_switch_body acceptId v c = some w) :
    parse_until_closing_tag_loop acceptId v iter line column (c :: rest) =
      parse_until_closing_tag_loop acceptId w (iter + 1)
        (count_char (line, column) c).1 (count_char (line, column) c).2 rest := by
  simp [parse_until_closing_tag_loop, h, hw]

/-- The switch of the scanner has a result in every state but `closing_tag`. -/
theorem script_switch_body_some (acceptId : std_string → Bool) (v : script_locals) (c : Char)
    (h : v.state ≠ script_state.closing_tag) : ∃ w, script_switch_body acceptId v c = some w := by
  obtain ⟨st, p1, p2, p3⟩ := v
  cases st <;> simp only [script_switch_body] <;>
    first
    | exact False.elim (h rfl)
    | (repeat' split) <;> exact ⟨_, rfl⟩

theorem script_reaches_refl (acceptId : std_string → Bool) (v : script_locals) :
    ScriptReaches acceptId v [] v := by
  intro iter line column rest
  simp [advance]

theorem script_reaches_trans {acceptId : std_string → Bool} {u v w : script_locals}
    {s t : List Char} (h1 : ScriptReaches acceptId u s v) (h2 : ScriptReaches acceptId v t w) :
    ScriptReaches acceptId u (s ++ t) w := by
  intro iter line column rest
  rw [List.append_assoc, h1, h2, advance_append, List.length_append, Nat.add_assoc]

theorem script_reaches_single {acceptId : std_string → Bool} {v w : script_locals} {c : Char}
    (h : v.state ≠ script_state.closing_tag) (hw : script_switch_body acceptId v c = some w) :
    ScriptReaches acceptId v [c] w := by
  intro iter line column rest
  rw [List.singleton_append, script_loop_cons acceptId v w iter line column c rest h hw]
  rfl

theorem script_reaches_cons {acceptId : std_string → Bool} {u v w : script_locals} {c : Char}
    {t : List Char} (h1 : ScriptReaches acceptId u [c] v) (h2 : ScriptReaches acceptId v t w) :
    ScriptReaches acceptId u (c :: t) w :=
  script_reaches_trans h1 h2

/-- An accumulating loop of the scanner: characters of a class that are appended to one
buffer. -/
theorem script_reaches_accumulate {acceptId : std_string → Bool} {g : std_string → script_locals}
    {P : Char → Bool}
    (h : ∀ acc c, P c = true → ScriptReaches acceptId (g acc) [c] (g (acc ++ [c]))) :
    ∀ (s : List Char) (acc : std_string), s.all P = true →
      ScriptReaches acceptId (g acc) s (g (acc ++ s))
  | [], acc, _ => by simpa using script_reaches_refl acceptId (g acc)
  | c :: cs, acc, hs => by
      simp only [List.all_cons, Bool.and_eq_true] at hs
      have := script_reaches_cons (h acc c hs.1)
        (script_reaches_accumulate h cs (acc ++ [c]) hs.2)
      simpa using this

/-- The result of the scanner when its loop reaches state `closing_tag` after `s`. -/
theorem scan_of_reaches {acceptId : std_string → Bool} {s : List Char} {w : script_locals}
    (h : ScriptReaches acceptId script_initial s w) (hw : w.state = script_state.closing_tag)
    (rest : List Char) (line column : Nat) :
    parse_until_closing_tag acceptId (s ++ rest) line column =
      some ⟨s.length, w.param1 ++ w.param2 ++ w.param3, (advance (line, column) s).1,
        (advance (line, column) s).2⟩ := by
  unfold parse_until_closing_tag
  have h0 := h 0 line column rest
  rw [script_initial] at h0
  rw [h0, script_loop_stop acceptId w _ _ _ rest hw]
  simp

/-! ## The raw-text scanner on text and on closing tags -/

theorem script_reaches_text (acceptId : std_string → Bool) (s acc : std_string)
    (hs : s.all (fun c => !(c == '<')) = true) :
    ScriptReaches acceptId ⟨script_state.reading_script, acc, [], []⟩ s
      ⟨script_state.reading_script, acc ++ s, [], []⟩ := by
  refine script_reaches_accumulate
    (g := fun a => (⟨script_state.reading_script, a, [], []⟩ : script_locals))
    (P := fun c => !(c == '<')) ?_ s acc hs
  intro a c hc
  have hne : c ≠ '<' := by simpa using hc
  exact script_reaches_single (by simp) (by simp [script_switch_body, hne])

theorem script_reaches_name (acceptId : std_string → Bool) (acc n : std_string)
    (hn : valid_name n = true) :
    ScriptReaches acceptId ⟨script_state.reading_script, acc, [], []⟩ ('<' :: '/' :: n)
      ⟨script_state.open_abracket__slash__name, acc, n, []⟩ := by
  obtain ⟨a, as, rfl, ha, has⟩ := valid_name_cases hn
  have h1 : ScriptReaches acceptId ⟨script_state.reading_script, acc, [], []⟩ ['<']
      ⟨script_state.open_abracket, acc, [], []⟩ :=
    script_reaches_single (by simp) (by simp [script_switch_body])
  have h2 : ScriptReaches acceptId ⟨script_state.open_abracket, acc, [], []⟩ ['/']
      ⟨script_state.open_abracket__slash, acc, [], []⟩ :=
    script_reaches_single (by simp) (by simp [script_switch_body])
  have h3 : ScriptReaches acceptId ⟨script_state.open_abracket__slash, acc, [], []⟩ [a]
      ⟨script_state.open_abracket__slash__name, acc, [a], []⟩ :=
    script_reaches_single (by simp) (by simp [script_switch_body, ha])
  have h4 : ScriptReaches acceptId ⟨script_state.open_abracket__slash__name, acc, [a], []⟩ as
      ⟨script_state.open_abracket__slash__name, acc, [a] ++ as, []⟩ := by
    refine script_reaches_accumulate
      (g := fun m => (⟨script_state.open_abracket__slash__name, acc, m, []⟩ : script_locals))
      (P := is_name) ?_ as [a] has
    intro m c hc
    exact script_reaches_single (by simp) (by simp [script_switch_body, hc])
  exact script_reaches_cons h1 (script_reaches_cons h2 (script_reaches_cons h3 h4))

theorem script_reaches_space (acceptId : std_string → Bool) (acc n ws w0 : std_string)
    (hws : all_space ws = true) :
    ScriptReaches acceptId ⟨script_state.open_abracket__slash__name__space, acc, n, w0⟩ ws
      ⟨script_state.open_abracket__slash__name__space, acc, n, w0 ++ ws⟩ := by
  refine script_reaches_accumulate
    (g := fun m => (⟨script_state.open_abracket__slash__name__space, acc, n, m⟩ : script_locals))
    (P := is_space) ?_ ws w0 hws
  intro m c hc
  exact script_reaches_single (by simp) (by simp [script_switch_body, hc])

theorem is_space_not_name {c : Char} (h : is_space c = true) : is_name c = false := by
  cases hn : is_name c with
  | false => rfl
  | true => rw [is_name_not_space hn] at h; exact absurd h (by simp)

/-- A closing tag whose name the predicate accepts, read from the end of its name on: the
scanner enters state `closing_tag` with the raw text as it was and the other buffers
cleared. -/
theorem script_reaches_accepted (acceptId : std_string → Bool) (acc n ws : std_string)
    (ha : acceptId n = true) (hws : all_space ws = true) :
    ScriptReaches acceptId ⟨script_state.open_abracket__slash__name, acc, n, []⟩ (ws ++ ['>'])
      ⟨script_state.closing_tag, acc, [], []⟩ := by
  cases ws with
  | nil =>
    exact script_reaches_single (by simp)
      (by simp [script_switch_body, ha, show is_name '>' = false by decide,
            show is_space '>' = false by decide])
  | cons c cs =>
    simp only [all_space, List.all_cons, Bool.and_eq_true] at hws
    have h1 : ScriptReaches acceptId ⟨script_state.open_abracket__slash__name, acc, n, []⟩ [c]
        ⟨script_state.open_abracket__slash__name__space, acc, n, [c]⟩ :=
      script_reaches_single (by simp)
        (by simp [script_switch_body, hws.1, is_space_not_name hws.1])
    have h2 := script_reaches_space acceptId acc n cs [c] hws.2
    have h3 : ScriptReaches acceptId
        ⟨script_state.open_abracket__slash__name__space, acc, n, [c] ++ cs⟩ ['>']
        ⟨script_state.closing_tag, acc, [], []⟩ :=
      script_reaches_single (by simp)
        (by simp [script_switch_body, ha, show is_space '>' = false by decide])
    exact script_reaches_cons h1 (script_reaches_trans h2 h3)

/-- A closing tag whose name the predicate rejects, read from the end of its name on: the
scanner writes the whole closing tag to the raw text and is back in state
`reading_script`. -/
theorem script_reaches_rejected (acceptId : std_string → Bool) (acc n ws : std_string)
    (ha : acceptId n = false) (hws : all_space ws = true) :
    ScriptReaches acceptId ⟨script_state.open_abracket__slash__name, acc, n, []⟩ (ws ++ ['>'])
      ⟨script_state.reading_script, acc ++ '<' :: '/' :: (n ++ ws ++ ['>']), [], []⟩ := by
  cases ws with
  | nil =>
    exact script_reaches_single (by simp)
      (by simp [script_switch_body, ha, show is_name '>' = false by decide,
            show is_space '>' = false by decide])
  | cons c cs =>
    simp only [all_space, List.all_cons, Bool.and_eq_true] at hws
    have h1 : ScriptReaches acceptId ⟨script_state.open_abracket__slash__name, acc, n, []⟩ [c]
        ⟨script_state.open_abracket__slash__name__space, acc, n, [c]⟩ :=
      script_reaches_single (by simp)
        (by simp [script_switch_body, hws.1, is_space_not_name hws.1])
    have h2 := script_reaches_space acceptId acc n cs [c] hws.2
    have h3 : ScriptReaches acceptId
        ⟨script_state.open_abracket__slash__name__space, acc, n, [c] ++ cs⟩ ['>']
        ⟨script_state.reading_script, acc ++ '<' :: '/' :: (n ++ c :: cs ++ ['>']), [], []⟩ :=
      script_reaches_single (by simp)
        (by simp [script_switch_body, ha, show is_space '>' = false by decide])
    exact script_reaches_cons h1 (script_reaches_trans h2 h3)

/-- One rejected segment: its text and its closing tag are written to the raw text. -/
theorem script_reaches_segment (acceptId : std_string → Bool) (acc : std_string)
    (g : raw_segment) (hg : g.rejected acceptId = true) :
    ScriptReaches acceptId ⟨script_state.reading_script, acc, [], []⟩ g.render
      ⟨script_state.reading_script, acc ++ g.render, [], []⟩ := by
  simp only [raw_segment.rejected, Bool.and_eq_true, Bool.not_eq_true'] at hg
  obtain ⟨⟨⟨ht, hn⟩, ha⟩, hws⟩ := hg
  have h1 := script_reaches_text acceptId g.text acc ht
  have h2 := script_reaches_name acceptId (acc ++ g.text) g.name hn
  have h3 := script_reaches_rejected acceptId (acc ++ g.text) g.name g.ws ha hws
  have h := script_reaches_trans h1 (script_reaches_trans h2 h3)
  simpa [raw_segment.render, List.append_assoc] using h

theorem script_reaches_segments (acceptId : std_string → Bool) :
    ∀ (segs : List raw_segment) (acc : std_string),
      segs.all (raw_segment.rejected acceptId) = true →
      ScriptReaches acceptId ⟨script_state.reading_script, acc, [], []⟩ (render_segments segs)
        ⟨script_state.reading_script, acc ++ render_segments segs, [], []⟩
  | [], acc, _ => by simpa [render_segments] using script_reaches_refl acceptId _
  | g :: gs, acc, hs => by
      simp only [List.all_cons, Bool.and_eq_true] at hs
      have h := script_reaches_trans (script_reaches_segment acceptId acc g hs.1)
        (script_reaches_segments acceptId gs (acc ++ g.render) hs.2)
      simpa [render_segments, List.append_assoc] using h

/-- Claim C33: on raw text made of stretches without `'<'` and complete closing tags
`"</" ++ m ++ ws ++ ">"` whose names are valid and rejected by the predicate, followed by a
closing tag `"</" ++ n ++ ">"` whose name is accepted, the scanner returns the raw text
verbatim, rejected closing tags included, and the position after the accepted closing
tag. -/
theorem C33_raw_text_backtracking (acceptId : std_string → Bool) (segs : List raw_segment)
    (t n r : std_string) (line column : Nat)
    (hs : segs.all (raw_segment.rejected acceptId) = true)
    (ht : t.all (fun c => !(c == '<')) = true)
    (hn : valid_name n = true) (ha : acceptId n = true) :
    parse_until_closing_tag acceptId
        ((render_segments segs ++ t ++ '<' :: '/' :: (n ++ ['>'])) ++ r) line column =
      some ⟨(render_segments segs ++ t ++ '<' :: '/' :: (n ++ ['>'])).length,
        render_segments segs ++ t,
        (advance (line, column) (render_segments segs ++ t ++ '<' :: '/' :: (n ++ ['>']))).1,
        (advance (line, column) (render_segments segs ++ t ++ '<' :: '/' :: (n ++ ['>']))).2⟩ := by
  have h1 := script_reaches_segments acceptId segs [] hs
  have h2 := script_reaches_text acceptId t ([] ++ render_segments segs) ht
  have h3 := script_reaches_name acceptId ([] ++ render_segments segs ++ t) n hn
  have h4 := script_reaches_accepted acceptId ([] ++ render_segments segs ++ t) n [] ha rfl
  have h := script_reaches_trans h1 (script_reaches_trans h2 (script_reaches_trans h3 h4))
  have h5 : render_segments segs ++ (t ++ ('<' :: '/' :: n ++ ([] ++ ['>']))) =
      render_segments segs ++ t ++ '<' :: '/' :: (n ++ ['>']) := by simp
  rw [h5] at h
  have := scan_of_reaches h rfl r line column
  simpa using this

/-- Claim C33 at the input `"abc</d>def</script>"` with a predicate that accepts only
`"script"`: the raw text is `"abc</d>def"` and the returned position is 19. -/
theorem C33_raw_text_backtracking_witness :
    parse_until_closing_tag (fun m => m == "script".toList) "abc</d>def</script>".toList 1 0 =
      some ⟨19, "abc</d>def".toList, 1, 19⟩ :=
  (C33_raw_text_backtracking (fun m => m == "script".toList)
    [⟨"abc".toList, "d".toList, []⟩] "def".toList "script".toList [] 1 0
    (by decide) (by decide) (by decide) (by decide)).trans (by decide)

/-! ## The raw-text scanner on arbitrary input -/

/-- The loop of the scanner on `s ++ rest` is the loop on `s` continued on `rest`. -/
theorem script_loop_append (acceptId : std_string → Bool) :
    ∀ (s : List Char) (v : script_locals) (iter line column : Nat) (rest : List Char),
      parse_until_closing_tag_loop acceptId v iter line column (s ++ rest) =
        (parse_until_closing_tag_loop acceptId v iter line column s).bind
          (fun x => parse_until_closing_tag_loop acceptId x.1 x.2.1 x.2.2.1 x.2.2.2 rest)
  | [], v, iter, line, column, rest => by simp [parse_until_closing_tag_loop]
  | c :: cs, v, iter, line, column, rest => by
      by_cases hstop : v.state = script_state.closing_tag
      · rw [List.cons_append, script_loop_stop acceptId v iter line column _ hstop,
          script_loop_stop acceptId v iter line column _ hstop]
        simp [script_loop_stop acceptId v iter line column rest hstop]
      · obtain ⟨w, hw⟩ := script_switch_body_some acceptId v c hstop
        rw [List.cons_append, script_loop_cons acceptId v w iter line column c _ hstop hw,
          script_loop_cons acceptId v w iter line column c _ hstop hw]
        exact script_loop_append acceptId cs w _ _ _ rest

/-- The local variables of the scanner do not depend on the iterator and the counters. -/
theorem script_loop_counters (acceptId : std_string → Bool) :
    ∀ (input : List Char) (v : script_locals) (iter line column iter2 line2 column2 : Nat),
      (parse_until_closing_tag_loop acceptId v iter line column input).map (fun x => x.1) =
        (parse_until_closing_tag_loop acceptId v iter2 line2 column2 input).map (fun x => x.1)
  | [], v, iter, line, column, iter2, line2, column2 => by
      simp [parse_until_closing_tag_loop]
  | c :: cs, v, iter, line, column, iter2, line2, column2 => by
      by_cases hstop : v.state = script_state.closing_tag
      · rw [script_loop_stop acceptId v iter line column _ hstop,
          script_loop_stop acceptId v iter2 line2 column2 _ hstop]
        rfl
      · obtain ⟨w, hw⟩ := script_switch_body_some acceptId v c hstop
        rw [script_loop_cons acceptId v w iter line column c _ hstop hw,
          script_loop_cons acceptId v w iter2 line2 column2 c _ hstop hw]
        exact script_loop_counters acceptId cs w _ _ _ _ _ _

/-- One round of the scanner that does not match a closing tag: the raw text followed by the
pending characters of a candidate grows by exactly the character read. -/
theorem script_switch_body_pending (acceptId : std_string → Bool) (v w : script_locals)
    (c : Char) (hwf : script_wf v = true) (h : script_switch_body acceptId v c = some w)
    (hw : w.state ≠ script_state.closing_tag) :
    w.param1 ++ script_pending w = v.param1 ++ script_pending v ++ [c] ∧ script_wf w = true := by
  obtain ⟨st, p1, p2, p3⟩ := v
  cases st <;> simp only [script_switch_body] at h <;> (repeat' split at h) <;> cases h <;>
    first
    | exact False.elim (hw rfl)
    | (simp only [script_wf, Bool.and_eq_true, List.isEmpty_eq_true] at hwf
       simp_all [script_pending, script_wf])

/-- The loop of the scanner when it is left in a state other than `closing_tag`: it has read
the whole input, and the raw text followed by the pending characters of a candidate has grown
by exactly the input. -/
theorem script_loop_pending (acceptId : std_string → Bool) :
    ∀ (s : List Char) (v w : script_locals) (iter line column it l1 c1 : Nat),
      script_wf v = true →
      parse_until_closing_tag_loop acceptId v iter line column s = some (w, it, l1, c1) →
      w.state ≠ script_state.closing_tag →
      w.param1 ++ script_pending w = v.param1 ++ script_pending v ++ s ∧ script_wf w = true ∧
        it = iter + s.length ∧ (l1, c1) = advance (line, column) s
  | [], v, w, iter, line, column, it, l1, c1, hwf, h, _ => by
      simp only [parse_until_closing_tag_loop, Option.some.injEq, Prod.mk.injEq] at h
      obtain ⟨rfl, rfl, rfl, rfl⟩ := h
      simp [hwf, advance]
  | c :: cs, v, w, iter, line, column, it, l1, c1, hwf, h, hne => by
      by_cases hstop : v.state = script_state.closing_tag
      · rw [script_loop_stop acceptId v iter line column _ hstop] at h
        simp only [Option.some.injEq, Prod.mk.injEq] at h
        exact False.elim (hne (h.1 ▸ hstop))
      · obtain ⟨u, hu⟩ := script_switch_body_some acceptId v c hstop
        rw [script_loop_cons acceptId v u iter line column c _ hstop hu] at h
        by_cases hus : u.state = script_state.closing_tag
        · rw [script_loop_stop acceptId u _ _ _ _ hus] at h
          simp only [Option.some.injEq, Prod.mk.injEq] at h
          exact False.elim (hne (h.1 ▸ hus))
        · obtain ⟨h1, h2⟩ := script_switch_body_pending acceptId v u c hwf hu hus
          obtain ⟨h3, h4, h5, h6⟩ :=
            script_loop_pending acceptId cs u w _ _ _ it l1 c1 h2 h hne
          refine ⟨?_, h4, ?_, ?_⟩
          · rw [h3, h1]; simp
          · rw [h5]; simp; omega
          · rw [h6]; rfl

/-- Claim C32, amended: if the scanner is in state `reading_script` after the raw text `b`
(no closing tag was matched in `b` and `b` does not end inside a closing-tag candidate), the
name `n` is valid and accepted by the predicate and `w` is whitespace, then on
`b ++ "</" ++ n ++ w ++ ">" ++ r` the scanner returns the raw text `b` and the position
immediately after the `'>'` of that closing tag. -/
theorem C32_raw_text_scan (acceptId : std_string → Bool) (b n w r : std_string)
    (line column : Nat) (hn : valid_name n = true) (ha : acceptId n = true)
    (hw : all_space w = true)
    (hb : script_state_after acceptId b = script_state.reading_script) :
    parse_until_closing_tag acceptId ((b ++ '<' :: '/' :: (n ++ w ++ ['>'])) ++ r) line column =
      some ⟨(b ++ '<' :: '/' :: (n ++ w ++ ['>'])).length, b,
        (advance (line, column) (b ++ '<' :: '/' :: (n ++ w ++ ['>']))).1,
        (advance (line, column) (b ++ '<' :: '/' :: (n ++ w ++ ['>']))).2⟩ := by
  unfold script_state_after at hb
  cases h0 : parse_until_closing_tag_loop acceptId script_initial 0 0 0 b with
  | none => simp [h0] at hb
  | some x0 =>
    simp only [h0] at hb
    have hc := script_loop_counters acceptId b script_initial 0 line column 0 0 0
    rw [h0] at hc
    cases h1 : parse_until_closing_tag_loop acceptId script_initial 0 line column b with
    | none => simp [h1] at hc
    | some x1 =>
      obtain ⟨v, it, l1, c1⟩ := x1
      simp only [h1, Option.map_some', Option.some.injEq] at hc
      have hv : v.state = script_state.reading_script := by rw [hc]; exact hb
      obtain ⟨h2, h3, h4, h5⟩ := script_loop_pending acceptId b script_initial v 0 line column
        it l1 c1 rfl h1 (by rw [hv]; simp)
      obtain ⟨st, p1, p2, p3⟩ := v
      simp only at hv
      subst hv
      simp only [script_pending, script_wf, script_initial, List.append_nil, List.nil_append,
        Bool.and_eq_true, List.isEmpty_eq_true] at h2 h3
      obtain ⟨rfl, rfl⟩ := h3
      subst h2
      have hr := script_reaches_trans (script_reaches_name acceptId p1 n hn)
        (script_reaches_accepted acceptId p1 n w ha hw)
      unfold parse_until_closing_tag
      have h1b : parse_until_closing_tag_loop acceptId
          ⟨script_state.reading_script, [], [], []⟩ 0 line column p1 =
            some (⟨script_state.reading_script, p1, [], []⟩, it, l1, c1) := h1
      rw [List.append_assoc, script_loop_append, h1b]
      simp only [Option.some_bind]
      have h6 : '<' :: '/' :: (n ++ w ++ ['>']) = '<' :: '/' :: n ++ (w ++ ['>']) := by simp
      rw [h6, hr it l1 c1 r, script_loop_stop acceptId _ _ _ _ r rfl]
      have hl : l1 = (advance (line, column) p1).1 := by rw [← h5]
      have hcol : c1 = (advance (line, column) p1).2 := by rw [← h5]
      simp [h4, hl, hcol, advance_append]

/-- Claim C32 at the raw text `"abc</d>def"` and the closing tag `"</script >"`, with a
predicate that accepts only `"script"`. -/
theorem C32_raw_text_scan_witness :
    parse_until_closing_tag (fun m => m == "script".toList) "abc</d>def</script >x".toList 1 0 =
      some ⟨20, "abc</d>def".toList, 1, 20⟩ :=
  (C32_raw_text_scan (fun m => m == "script".toList) "abc</d>def".toList "script".toList
    " ".toList "x".toList 1 0 (by decide) (by decide) (by decide) (by decide)).trans (by decide)

/-- Claim C32 as it stands fails at the raw text `"<"`, which holds no closing tag: on
`"<" ++ "</a>" ++ "x"` with a predicate that accepts every name the scanner does not match
`"</a>"`; it consumes the whole input and returns it as raw text. -/
theorem C32_raw_text_scan_counterexample :
    valid_name "a".toList = true ∧ all_space [] = true ∧ '>' ∉ "<".toList ∧
      parse_until_closing_tag (fun _ => true)
        (("<".toList ++ '<' :: '/' :: ("a".toList ++ [] ++ ['>'])) ++ "x".toList) 1 0 =
        some ⟨6, "<</a>x".toList, 1, 6⟩ := by
  refine ⟨by decide, by decide, by decide, by decide⟩

/-! ## The raw-text scanner at the end of the input, and the tag kinds after `'<'` -/

/-- After `'<'`, a character that is none of `'!'`, `'?'`, `'/'` and a letter is an error of
the state `open_abracket`, for every configuration: the token is Unknown with the diagnostic
of that state and the position, and the cursor is behind that character. -/
theorem parse_open_abracket_other (p : parser) (c : Char) (r : std_string)
    (line column : Nat) (h1 : c ≠ '!') (h2 : c ≠ '?') (h3 : c ≠ '/')
    (h4 : is_starting_name c = false) :
    p.parse ('<' :: c :: r) line column =
      some ⟨2, tag_token.unknown_tag
        ("expecting '!' or '?' or '/' or some id name!".toList ++ " at ".toList ++
          to_string (advance (line, column) ['<', c]).1 ++ ",".toList ++
          to_string (advance (line, column) ['<', c]).2),
        (advance (line, column) ['<', c]).1, (advance (line, column) ['<', c]).2⟩ := by
  have hw : p.switch_body ⟨open_abracket, [], [], [], [], false⟩ c =
      some ⟨open_abracket, [], [], [], [], true⟩ := by
    simp [parser.switch_body, is_exclamation_mark, is_question_mark, is_slash, h1, h2, h3, h4]
  have h := parse_of_reaches_error (reaches_open_abracket p) rfl hw rfl (by simp) r line column
  simp only [List.singleton_append] at h
  rw [h, select_result_error _ _ _ _ rfl]
  rfl

/-- Claim C34, the code on inputs that run out inside a closing-tag candidate: the scanner
consumes all of `"abc<"`, `"abc</"`, `"abc</scri"` and `"abc</d  "` and returns the raw texts
`"abc"`, `"abc"`, `"abcscri"` and `"abcd  "`: the final flush appends the name and whitespace
buffers but not the consumed `'<'` and `'/'`, so the raw text is not the consumed input. -/
theorem C34_raw_text_flush_code :
    parse_until_closing_tag (fun _ => true) "abc<".toList 1 0 =
        some ⟨4, "abc".toList, 1, 4⟩ ∧
      parse_until_closing_tag (fun _ => true) "abc</".toList 1 0 =
        some ⟨5, "abc".toList, 1, 5⟩ ∧
      parse_until_closing_tag (fun _ => true) "abc</scri".toList 1 0 =
        some ⟨9, "abcscri".toList, 1, 9⟩ ∧
      parse_until_closing_tag (fun _ => true) "abc</d  ".toList 1 0 =
        some ⟨8, "abcd  ".toList, 1, 8⟩ := by
  refine ⟨by decide, by decide, by decide, by decide⟩

/-- Claim C36, the code on a tag that starts with an alphabetic character and holds an
attribute name without a value: `"<a b>"` returns a ClosingTag with an empty name and
`"<a b/>"` an EmptyTag with an empty name and the attribute `("a", "")`, while a character
that is none of `'!'`, `'?'`, `'/'` and a letter gives the diagnostic of the state after
`'<'`. -/
theorem C36_tag_kind_code :
    ({} : parser).parse "<a b>".toList 1 0 = some ⟨5, tag_token.closing_tag [], 1, 5⟩ ∧
      ({} : parser).parse "<a b/>".toList 1 0 =
        some ⟨6, tag_token.empty_tag [] [("a".toList, [])], 1, 6⟩ ∧
      ({} : parser).parse "<1".toList 1 0 =
        some ⟨2, tag_token.unknown_tag
          "expecting '!' or '?' or '/' or some id name! at 1,2".toList, 1, 2⟩ := by
  refine ⟨by decide, by decide, by decide⟩

/-- Claim C40, the code on a closing tag with two whitespace characters before `'>'`: on
`"x</a  >y"` the scanner matches the closing tag that stands at the offsets 1 to 7 (raw text
`"x"`, returned position 7), and the tokenizer started on that closing tag returns an Unknown
token with the cursor 5 and not a ClosingTag with the cursor 6. -/
theorem C40_scanner_tokenizer_code :
    parse_until_closing_tag (fun _ => true) "x</a  >y".toList 1 0 =
        some ⟨7, "x".toList, 1, 7⟩ ∧
      ({} : parser).parse ("x</a  >y".toList.drop 1) 1 0 =
        some ⟨5, tag_token.unknown_tag
          "expecting some space or closing angle bracket! at 1,5".toList, 1, 5⟩ := by
  refine ⟨by decide, by decide⟩

/-! ## The names of a token -/

theorem valid_name_one {c : Char} (hc : is_starting_name c = true) :
    valid_name [c] = true := by
  simp [valid_name, hc]

theorem valid_name_push {n : std_string} {c : Char} (hn : valid_name n = true)
    (hc : is_name c = true) : valid_name (n ++ [c]) = true := by
  cases n with
  | nil => simp [valid_name] at hn
  | cons a as =>
    simp only [valid_name, Bool.and_eq_true] at hn
    simp [valid_name, hn.1, hn.2, hc]

/-- One round keeps the invariant on the names, unless it sets `error` or is one of the rounds
`moves_tag_name`. -/
theorem switch_body_name_invariant (p : parser) (v w : locals) (c : Char)
    (hv : name_invariant v = true) (hm : moves_tag_name v c = false)
    (h : p.switch_body v c = some w) : w.error = true ∨ name_invariant w = true := by
  obtain ⟨st, p1, p2, p3, ps, e⟩ := v
  cases st <;> simp only [parser.switch_body] at h <;> (repeat' split at h) <;> cases h <;>
    first
    | exact Or.inl rfl
    | exact Or.inr hv
    | (right
       simp only [name_invariant, Bool.and_eq_true, List.all_append, List.all_cons,
         List.all_nil, Bool.and_true] at hv ⊢
       generalize ps.all (fun x => valid_name x.1) = b at hv ⊢
       simp_all [valid_name_one, valid_name_push, moves_tag_name, is_slash])

/-- The loop keeps the invariant on the names, unless it is left with `error` set or runs one
of the rounds `moves_tag_name`. -/
theorem parse_loop_name_invariant (p : parser) :
    ∀ (input : List Char) (v w : locals) (iter line column it l1 c1 : Nat),
      name_invariant v = true → p.keeps_tag_name v input = true →
      p.parse_loop v iter line column input = some (w, it, l1, c1) →
      w.error = true ∨ name_invariant w = true
  | [], v, w, iter, line, column, it, l1, c1, hv, _, h => by
      simp only [parser.parse_loop, Option.some.injEq, Prod.mk.injEq] at h
      exact Or.inr (h.1 ▸ hv)
  | c :: cs, v, w, iter, line, column, it, l1, c1, hv, hk, h => by
      cases hstop : (is_accepting_state v.state || v.error) with
      | true =>
        rw [parse_loop_stop p v iter line column _ hstop] at h
        simp only [Option.some.injEq, Prod.mk.injEq] at h
        exact Or.inr (h.1 ▸ hv)
      | false =>
        cases hw : p.switch_body v c with
        | none => simp [parser.parse_loop, hstop, hw] at h
        | some u =>
          rw [parse_loop_cons p v u iter line column c _ hstop hw] at h
          simp only [parser.keeps_tag_name, hstop, hw, Bool.false_eq_true, if_false,
            Bool.and_eq_true, Bool.not_eq_true'] at hk
          rcases switch_body_name_invariant p v u c hv hk.1 hw with he | hu
          · rw [parse_loop_stop p u _ _ _ cs (by simp [he])] at h
            simp only [Option.some.injEq, Prod.mk.injEq] at h
            exact Or.inl (h.1 ▸ he)
          · exact parse_loop_name_invariant p cs u w _ _ _ it l1 c1 hu hk.2 h

/-- The token that the return statements build from local variables with the invariant. -/
theorem select_result_names (v : locals) (it l c : Nat) (res : parse_result)
    (hv : v.error = true ∨ name_invariant v = true)
    (h : parser.select_result v it l c = some res) : token_names_valid res.token = true := by
  obtain ⟨st, p1, p2, p3, ps, e⟩ := v
  cases e with
  | true =>
    rw [select_result_error _ _ _ _ rfl] at h
    cases hf : formulate_error st with
    | none => simp [hf] at h
    | some msg =>
      simp only [hf, Option.map_some', Option.some.injEq] at h
      subst h
      rfl
  | false =>
    rcases hv with hv | hv
    · exact False.elim (Bool.false_ne_true hv)
    · cases st <;> simp only [parser.select_result] at h <;> simp at h <;> subst h <;>
        first
        | rfl
        | (simp only [name_invariant, Bool.and_eq_true] at hv
           simp only [token_names_valid, Bool.and_eq_true]
           first
           | exact hv.2
           | exact ⟨hv.2, hv.1⟩)

/-- Claim C35, amended: on every input on which no tag ends (with `'>'` or `'/'`) right after
an attribute name without a value, in the token that `parse` returns the name of an OpenTag,
ClosingTag or EmptyTag and the target of a ProcessingInstruction are valid names (an
alphabetic character followed by alphanumeric characters, `'.'` or `'-'`), every attribute
name is a valid name, and the name of a Doctype token is empty. -/
theorem C35_name_invariant (p : parser) (input : List Char) (line column : Nat)
    (res : parse_result) (hk : p.keeps_tag_name initial_locals input = true)
    (h : p.parse input line column = some res) :
    token_names_valid res.token = true := by
  unfold parser.parse at h
  cases hl : p.parse_loop initial_locals 0 line column input with
  | none => simp [hl] at h
  | some r =>
    obtain ⟨w, it, l1, c1⟩ := r
    simp only [hl] at h
    exact select_result_names w it l1 c1 res
      (parse_loop_name_invariant p input initial_locals w 0 line column it l1 c1 rfl hk hl) h

/-- Claim C35 at the input `<a b="c"/>`: the names `"a"` and `"b"` are valid names. -/
theorem C35_name_invariant_witness :
    token_names_valid (tag_token.empty_tag "a".toList [("b".toList, "c".toList)]) = true :=
  C35_name_invariant {} "<a b=\"c\"/>".toList 1 0
    ⟨10, tag_token.empty_tag "a".toList [("b".toList, "c".toList)], 1, 10⟩ (by decide)
    (by decide)

/-- Claim C35 as it stands fails at `"<!DOCTYPE html>"`, an input without attributes: the
Doctype token that is returned has the empty name, which is not a valid name. -/
theorem C35_name_invariant_counterexample :
    ({} : parser).keeps_tag_name initial_locals "<!DOCTYPE html>".toList = true ∧
      ({} : parser).parse "<!DOCTYPE html>".toList 1 0 = some ⟨15, tag_token.dtd [], 1, 15⟩ ∧
      valid_name [] = false := by
  refine ⟨by decide, by decide, rfl⟩

/-! ## The assertions -/

/-- A round from a state that has a `case`, without error, on any character: the switch does
not reach `default: assert(false)`, the new state has a `case`, and if the round sets `error`
the state has a diagnostic. -/
theorem switch_body_assert_free (p : parser) (v : locals) (c : Char)
    (hv : assert_free v = true) (hs : (is_accepting_state v.state || v.error) = false) :
    ∃ w, p.switch_body v c = some w ∧ assert_free w = true := by
  obtain ⟨st, p1, p2, p3, ps, e⟩ := v
  simp only [Bool.or_eq_false_iff] at hs
  obtain ⟨hacc, he⟩ := hs
  subst he
  cases st <;>
    first
    | exact False.elim (Bool.false_ne_true hv)
    | exact False.elim (Bool.false_ne_true hacc.symm)
    | (simp only [parser.switch_body]
       repeat' split
       all_goals exact ⟨_, rfl, rfl⟩)

/-- The loop never reaches `default: assert(false)`, and it is left with local variables for
which the return statements have a result. -/
theorem parse_loop_assert_free (p : parser) :
    ∀ (input : List Char) (v : locals) (iter line column : Nat), assert_free v = true →
      ∃ r, p.parse_loop v iter line column input = some r ∧ assert_free r.1 = true
  | [], v, iter, line, column, hv => ⟨_, rfl, hv⟩
  | c :: cs, v, iter, line, column, hv => by
      cases hstop : (is_accepting_state v.state || v.error) with
      | true =>
        rw [parse_loop_stop p v iter line column _ hstop]
        exact ⟨_, rfl, hv⟩
      | false =>
        obtain ⟨w, hw, hwf⟩ := switch_body_assert_free p v c hv hstop
        rw [parse_loop_cons p v w iter line column c _ hstop hw]
        exact parse_loop_assert_free p cs w _ _ _ hwf

/-- The return statements have a result when `error` comes with a state that has a
diagnostic. -/
theorem select_result_assert_free (v : locals) (it l c : Nat) (hv : assert_free v = true) :
    ∃ res, parser.select_result v it l c = some res := by
  obtain ⟨st, p1, p2, p3, ps, e⟩ := v
  cases e with
  | true =>
    rw [select_result_error _ _ _ _ rfl]
    simp only [assert_free, Bool.not_true, Bool.false_or, Bool.and_eq_true] at hv
    obtain ⟨msg, hm⟩ := Option.isSome_iff_exists.mp hv.2
    exact ⟨_, by rw [hm]; rfl⟩
  | false =>
    cases st <;> exact ⟨_, rfl⟩

/-- Claim C39: for every configuration, every input and all counters, `parse` returns a
result: the state switch never reaches `default: assert(false)`, and an error is only
reported in a state for which `formulate_error` has a message. -/
theorem C39_assertions_unreachable (p : parser) (input : List Char) (line column : Nat) :
    ∃ res, p.parse input line column = some res := by
  obtain ⟨r, hr, hf⟩ := parse_loop_assert_free p input initial_locals 0 line column rfl
  obtain ⟨w, it, l1, c1⟩ := r
  obtain ⟨res, hres⟩ := select_result_assert_free w it l1 c1 hf
  exact ⟨res, by simp only [parser.parse, hr]; exact hres⟩

/-! ## Bounds of the cursor -/

/-- The iterator never moves backwards. -/
theorem parse_loop_iter_le (p : parser) :
    ∀ (input : List Char) (v w : locals) (iter line column it l1 c1 : Nat),
      p.parse_loop v iter line column input = some (w, it, l1, c1) → iter ≤ it
  | [], v, w, iter, line, column, it, l1, c1, h => by
      simp only [parser.parse_loop, Option.some.injEq, Prod.mk.injEq] at h
      omega
  | c :: cs, v, w, iter, line, column, it, l1, c1, h => by
      cases hstop : (is_accepting_state v.state || v.error) with
      | true =>
        rw [parse_loop_stop p v iter line column _ hstop] at h
        simp only [Option.some.injEq, Prod.mk.injEq] at h
        omega
      | false =>
        cases hw : p.switch_body v c with
        | none => simp [parser.parse_loop, hstop, hw] at h
        | some u =>
          rw [parse_loop_cons p v u iter line column c _ hstop hw] at h
          have := parse_loop_iter_le p cs u w _ _ _ it l1 c1 h
          split at this <;> omega

/-- The returned iterator is the one of the loop, unless the result is the incomplete
signal. -/
theorem select_result_iter (v : locals) (it l c : Nat) (res : parse_result)
    (h : parser.select_result v it l c = some res) :
    res.iter = it ∨ (res.iter = 0 ∧ res.token = tag_token.unknown_tag incomplete_message) := by
  obtain ⟨st, p1, p2, p3, ps, e⟩ := v
  cases e with
  | true =>
    rw [select_result_error _ _ _ _ rfl] at h
    cases hf : formulate_error st with
    | none => simp [hf] at h
    | some msg =>
      simp only [hf, Option.map_some', Option.some.injEq] at h
      subst h
      exact Or.inl rfl
  | false =>
    cases st <;> simp only [parser.select_result] at h <;> simp at h <;> subst h <;>
      first
      | exact Or.inl rfl
      | exact Or.inr ⟨rfl, rfl⟩

/-- Claim C38: the returned cursor is at most the length of the input, and on a non-empty
input it is the start position only when the token is the incomplete Unknown token. -/
theorem C38_cursor_bounds (p : parser) (input : List Char) (line column : Nat)
    (res : parse_result) (h : p.parse input line column = some res) :
    res.iter ≤ input.length ∧
      (input ≠ [] → res.iter = 0 → res.token = tag_token.unknown_tag incomplete_message) := by
  unfold parser.parse at h
  cases hl : p.parse_loop initial_locals 0 line column input with
  | none => simp [hl] at h
  | some r =>
    obtain ⟨w, it, l1, c1⟩ := r
    simp only [hl] at h
    obtain ⟨k, hk, -, hle, -, -⟩ := parse_loop_trace p input _ _ _ _ _ _ _ _ hl
    have hsel := select_result_iter w it l1 c1 res h
    refine ⟨by rcases hsel with h1 | h1 <;> omega, ?_⟩
    intro hne h0
    rcases hsel with h1 | h1
    · exfalso
      cases input with
      | nil => exact hne rfl
      | cons c cs =>
        by_cases hc : is_open_abracket c = true
        · have hw : p.switch_body initial_locals c =
              some { initial_locals with state := open_abracket } := by
            simp [parser.switch_body, initial_locals, hc]
          rw [parse_loop_cons p initial_locals _ 0 line column c cs rfl hw] at hl
          have := parse_loop_iter_le p cs _ _ _ _ _ _ _ _ hl
          simp at this
          omega
        · have hw : p.switch_body initial_locals c =
              some { initial_locals with
                param1 := if !p.skipping_text then initial_locals.param1 ++ [c]
                          else initial_locals.param1,
                state := characters } := by
            simp [parser.switch_body, initial_locals, hc]
          rw [parse_loop_cons p initial_locals _ 0 line column c cs rfl hw] at hl
          have := parse_loop_iter_le p cs _ _ _ _ _ _ _ _ hl
          simp at this
          omega
    · exact h1.2

/-- Claim C38 at the input `"ab<c>"`: the Text token has the cursor 2. -/
theorem C38_cursor_bounds_witness :
    (2 : Nat) ≤ "ab<c>".toList.length ∧
      ("ab<c>".toList ≠ [] → (2 : Nat) = 0 →
        tag_token.text "ab".toList = tag_token.unknown_tag incomplete_message) :=
  C38_cursor_bounds {} "ab<c>".toList 1 0 ⟨2, tag_token.text "ab".toList, 1, 3⟩ (by decide)

/-! ## More input after a result -/

/-- Claim C37: if `parse` on `s` returns a result that is neither the incomplete Unknown token
nor a Text token with the cursor at the end of `s`, then `parse` on `s ++ x` returns the same
cursor, token and counters. -/
theorem C37_result_stability (p : parser) (s x : List Char) (line column : Nat)
    (res : parse_result) (h : p.parse s line column = some res)
    (hinc : res.token ≠ tag_token.unknown_tag incomplete_message)
    (htext : ¬ ∃ t, res.token = tag_token.text t ∧ res.iter = s.length) :
    p.parse (s ++ x) line column = some res := by
  unfold parser.parse at h ⊢
  cases hl : p.parse_loop initial_locals 0 line column s with
  | none => simp [hl] at h
  | some r =>
    obtain ⟨w, it, l1, c1⟩ := r
    simp only [hl] at h
    rw [parse_loop_append, hl]
    simp only [Option.some_bind]
    cases hstop : (is_accepting_state w.state || w.error) with
    | true =>
      rw [parse_loop_stop p w it l1 c1 x hstop]
      exact h
    | false =>
      exfalso
      obtain ⟨k, hk, -, -, heq, hall⟩ := parse_loop_trace p s _ _ _ _ _ _ _ _ hl
      have hk2 := hall hstop
      simp only [Bool.or_eq_false_iff] at hstop
      obtain ⟨hacc, he⟩ := hstop
      have hnt : w.state ≠ text := by
        intro ht
        rw [ht] at hacc
        exact Bool.false_ne_true hacc.symm
      have hit := heq hnt
      cases hm : markup_state w.state with
      | true =>
        rw [select_result_incomplete w it l1 c1 he hacc hm] at h
        simp only [Option.some.injEq] at h
        subst h
        exact hinc rfl
      | false =>
        have hst : w.state = initial ∨ w.state = characters := by
          obtain ⟨st, p1, p2, p3, ps, e⟩ := w
          simp only at hm hnt ⊢
          cases st <;> first
            | exact Or.inl rfl
            | exact Or.inr rfl
            | exact False.elim (hnt rfl)
            | exact False.elim (Bool.false_ne_true hm.symm)
        have hsel : parser.select_result w it l1 c1 =
            some ⟨it, tag_token.text w.param1, l1, c1⟩ := by
          unfold parser.select_result
          rw [if_neg (by simp [he])]
          rw [if_pos (by rcases hst with h1 | h1 <;> simp [h1])]
        rw [hsel] at h
        simp only [Option.some.injEq] at h
        subst h
        exact htext ⟨_, rfl, by simp only; omega⟩

/-- Claim C37 at `s = "<a>"`, `x = "bc"`: the OpenTag of `"<a>"` is returned for `"<a>bc"`. -/
theorem C37_result_stability_witness :
    ({} : parser).parse ("<a>".toList ++ "bc".toList) 1 0 =
      some ⟨3, tag_token.open_tag "a".toList [], 1, 3⟩ :=
  C37_result_stability {} "<a>".toList "bc".toList 1 0
    ⟨3, tag_token.open_tag "a".toList [], 1, 3⟩ (by decide) (by decide)
    (by rintro ⟨t, ht, -⟩; cases ht)

end ts
